import Mathlib

/-!
# Task / claim / escrow lifecycle engine

A shallow embedding of the Go backend (`internal/domain`, `internal/repository`,
`internal/service`) and theorems about it.

Modelling conventions

* `uuid.UUID` is `Nat`; `time.Time` is `Int` (an instant); a `float64` money amount
  (`reward_amount`, `total_earned`, ...) is an `Amount`: an integer number of minor units,
  so that sums are exact, or `NaN`, which fails every comparison.
* The SQL tables are lists of rows (`Store`).  `SELECT ... WHERE id = $1` scanned with
  `QueryRow` returns the first matching row or `sql.ErrNoRows`; `UPDATE ... WHERE id = $1`
  rewrites every matching row and is not an error when no row matches; `INSERT` appends a
  row.  Each statement is a function on `Store` (namespace `Store`).
* Every repository method is one round trip to the database (`dbCall`).  A round trip may
  fail: the `World` carries a fault schedule `faults : Nat → Bool` and a counter `tick` of
  round trips made so far; call number `tick` fails (with `Err.Internal`, leaving the
  tables untouched) exactly when `faults tick` is true.
* `uuid.New()` draws the next identifier from the stream `uuids`.
* `time.Now()` and SQL `NOW()` read the field `now`.
* A Go result `(value, err)` is a pair of options; a Go `error` is `Option Err`.
-/

namespace TaskUnder

abbrev UUID := Nat
abbrev Time := Int
/-- Go's `float64`, as far as the code tells its values apart: an amount of money, written
as an integer number of minor units (arithmetic on amounts is exact), or `NaN`, the
value for which every comparison is false and which every sum involving it yields.  The
infinities are left out; they pass and fail the checks like very large numbers. -/
inductive Amount
  | num (v : Int)
  | nan
deriving DecidableEq, Repr

instance (n : Nat) : OfNat Amount n := ⟨Amount.num n⟩

/-- Go's `a + b` on `float64`. -/
def Amount.add : Amount → Amount → Amount
  | Amount.num a, Amount.num b => Amount.num (a + b)
  | _, _ => Amount.nan

instance : Add Amount := ⟨Amount.add⟩

/-- Go's `a <= b` on `float64`: false when either side is `NaN`. -/
def Amount.le : Amount → Amount → Bool
  | Amount.num a, Amount.num b => decide (a ≤ b)
  | _, _ => false

instance : LE Amount := ⟨fun a b => Amount.le a b = true⟩

instance (a b : Amount) : Decidable (a ≤ b) :=
  inferInstanceAs (Decidable (Amount.le a b = true))

/-- Go's `a < b` on `float64`: false when either side is `NaN`. -/
def Amount.lt : Amount → Amount → Bool
  | Amount.num a, Amount.num b => decide (a < b)
  | _, _ => false

instance : LT Amount := ⟨fun a b => Amount.lt a b = true⟩

instance (a b : Amount) : Decidable (a < b) :=
  inferInstanceAs (Decidable (Amount.lt a b = true))

/-- The sum of `n` copies of an amount. -/
def Amount.times : Nat → Amount → Amount
  | 0, _ => 0
  | n + 1, a => Amount.times n a + a

/-- In statements, `k * a` for a count `k` is the sum of `k` copies of the amount `a`
(of none when `k` is negative); for a number `a` it is the product. -/
instance : HMul Int Amount Amount := ⟨fun k a => Amount.times k.toNat a⟩


/-! ## internal/domain -/

inductive TaskStatus
  | Open | Claimed | Completed | Cancelled | Disputed
deriving DecidableEq, Repr

inductive ClaimStatus
  | Pending | Approved | Rejected | Cancelled
deriving DecidableEq, Repr

inductive EscrowTransactionType
  | Lock | Release | Refund
deriving DecidableEq, Repr

inductive EscrowTransactionStatus
  | Pending | Completed | Failed
deriving DecidableEq, Repr

structure Task where
  ID : UUID
  OwnerID : UUID
  Title : String
  Description : String
  RewardAmount : Amount
  MaxClaimants : Int
  ClaimDeadline : Time
  OwnerDeadline : Time
  Status : TaskStatus
  EscrowLocked : Bool
  CreatedAt : Time
  UpdatedAt : Time
deriving DecidableEq, Repr

structure Claim where
  ID : UUID
  TaskID : UUID
  ClaimerID : UUID
  Status : ClaimStatus
  SubmittedAt : Option Time
  CompletionText : String
  CompletionImageURL : String
  CreatedAt : Time
  UpdatedAt : Time
deriving DecidableEq, Repr

structure EscrowTransaction where
  ID : UUID
  TaskID : UUID
  UserID : UUID
  Amount : Amount
  TransactionType : EscrowTransactionType
  Status : EscrowTransactionStatus
  CreatedAt : Time
  CompletedAt : Option Time
deriving DecidableEq, Repr

structure User where
  ID : UUID
  DeviceID : String
  CreatedAt : Time
  Reputation : Int
  TotalEarned : Amount
  TotalSpent : Amount
deriving DecidableEq, Repr

structure Chat where
  ID : UUID
  TaskID : UUID
  ParticipantID : UUID
  OtherParticipantID : UUID
  DeletedByParticipant : Bool
  DeletedByOther : Bool
  CreatedAt : Time
  UpdatedAt : Time
deriving DecidableEq, Repr

/-- `Task.CanBeClaimed` (domain/task.go), with `time.Now()` passed as `now`. -/
def Task.CanBeClaimed (t : Task) (now : Time) : Bool :=
  t.Status == TaskStatus.Open && decide (now < t.ClaimDeadline) && !t.EscrowLocked

/-- `Task.ShouldAutoCancel` (domain/task.go), with `time.Now()` passed as `now`. -/
def Task.ShouldAutoCancel (t : Task) (now : Time) : Bool :=
  t.Status == TaskStatus.Open && decide (now > t.ClaimDeadline)

/-- `Claim.IsSubmitted` (domain/claim.go). -/
def Claim.IsSubmitted (c : Claim) : Bool :=
  c.SubmittedAt.isSome && c.CompletionText != ""

/-! ## Errors -/

/-- The error values of the service layer, `sql.ErrNoRows`, and `Internal` for a failed
round trip to the database. -/
inductive Err
  | ErrTaskNotFound
  | ErrInvalidTask
  | ErrTaskNotClaimable
  | ErrUnauthorized
  | ErrTaskAlreadyLocked
  | ErrClaimNotFound
  | ErrAlreadyClaimed
  | ErrClaimLimitReached
  | ErrInvalidCompletion
  | ErrEscrowAlreadyLocked
  | ErrEscrowNotLocked
  | ErrNoRows
  | Internal
  | Msg (text : String)
deriving DecidableEq, Repr

/-! ## The database -/

structure Store where
  tasks : List Task
  claims : List Claim
  ledger : List EscrowTransaction
  users : List User
  chats : List Chat
deriving DecidableEq, Repr

structure World where
  store : Store
  faults : Nat → Bool
  tick : Nat
  uuids : Nat → UUID
  drawn : Nat
  now : Time

/-- One round trip to the database: it fails when the fault schedule says so, and
otherwise runs the query `q` on the tables. -/
def dbCall {α : Type} (q : Store → Except Err α × Store) (w : World) :
    Except Err α × World :=
  if w.faults w.tick then
    (Except.error Err.Internal, { w with tick := w.tick + 1 })
  else
    ((q w.store).1, { w with store := (q w.store).2, tick := w.tick + 1 })

/-- `uuid.New()`. -/
def uuidNew (w : World) : UUID × World :=
  (w.uuids w.drawn, { w with drawn := w.drawn + 1 })

/-! ## The SQL statements as functions on the tables -/

namespace Store

/-- `INSERT INTO tasks ...`. -/
@[simp] def insertTask (s : Store) (row : Task) : Store :=
  { s with tasks := s.tasks ++ [row] }

/-- `UPDATE tasks SET status = $1 WHERE id = $2`. -/
@[simp] def setTaskStatus (s : Store) (id : UUID) (status : TaskStatus) : Store :=
  { s with tasks :=
      (s.tasks.map (fun t => if t.ID = id then { t with Status := status } else t)) }

/-- `UPDATE tasks SET escrow_locked = $1 WHERE id = $2`. -/
@[simp] def setEscrowLocked (s : Store) (id : UUID) (locked : Bool) : Store :=
  { s with tasks :=
      (s.tasks.map (fun t => if t.ID = id then { t with EscrowLocked := locked } else t)) }

/-- `INSERT INTO claims ...`. -/
@[simp] def insertClaim (s : Store) (row : Claim) : Store :=
  { s with claims := s.claims ++ [row] }

/-- `UPDATE claims SET status = $1 WHERE id = $2`. -/
@[simp] def setClaimStatus (s : Store) (id : UUID) (status : ClaimStatus) : Store :=
  { s with claims :=
      (s.claims.map (fun c => if c.ID = id then { c with Status := status } else c)) }

/-- `UPDATE claims SET completion_text = $1, completion_image_url = $2,
submitted_at = NOW() WHERE id = $3`. -/
@[simp] def submitCompletion (s : Store) (id : UUID) (text imageURL : String) (now : Time) :
    Store :=
  { s with claims := (s.claims.map (fun c => if c.ID = id then
      { c with CompletionText := text, CompletionImageURL := imageURL,
               SubmittedAt := some now } else c)) }

/-- `INSERT INTO escrow_transactions ...`. -/
@[simp] def insertTransaction (s : Store) (row : EscrowTransaction) : Store :=
  { s with ledger := s.ledger ++ [row] }

/-- `UPDATE escrow_transactions SET status = $1, completed_at =
CASE WHEN $1 = 'completed' THEN NOW() ELSE completed_at END WHERE id = $2`. -/
@[simp] def setTransactionStatus (s : Store) (id : UUID) (status : EscrowTransactionStatus)
    (now : Time) : Store :=
  { s with ledger := (s.ledger.map (fun tx => if tx.ID = id then
      { tx with Status := status,
                CompletedAt := if status = EscrowTransactionStatus.Completed
                               then some now else tx.CompletedAt } else tx)) }

/-- `UPDATE users SET reputation = reputation + $1 WHERE id = $2`. -/
@[simp] def addReputation (s : Store) (id : UUID) (delta : Int) : Store :=
  { s with users := (s.users.map
      (fun u => if u.ID = id then { u with Reputation := u.Reputation + delta } else u)) }

/-- `UPDATE users SET total_earned = total_earned + $1 WHERE id = $2`. -/
@[simp] def addEarnings (s : Store) (id : UUID) (amount : Amount) : Store :=
  { s with users := (s.users.map
      (fun u => if u.ID = id then { u with TotalEarned := u.TotalEarned + amount } else u)) }

/-- `UPDATE chats SET deleted_by_participant = FALSE, deleted_by_other = FALSE
WHERE id = $1`. -/
@[simp] def resetChatDeletion (s : Store) (id : UUID) : Store :=
  { s with chats := (s.chats.map (fun c => if c.ID = id then
      { c with DeletedByParticipant := false, DeletedByOther := false } else c)) }

/-- `INSERT INTO chats ...`. -/
@[simp] def insertChat (s : Store) (row : Chat) : Store :=
  { s with chats := s.chats ++ [row] }

/-- The rows counted by
`SELECT COUNT(*) FROM claims WHERE task_id = $1 AND status != 'cancelled'`. -/
def activeClaims (s : Store) (taskID : UUID) : List Claim :=
  s.claims.filter (fun c => c.TaskID == taskID && c.Status != ClaimStatus.Cancelled)

end Store

/-! ## internal/repository -/

namespace taskRepository

/-- `INSERT INTO tasks (...) VALUES (...) RETURNING created_at, updated_at`: the row is
appended with both timestamps set by the database, and they are scanned back. -/
@[reducible] def Create (task : Task) (w : World) : Except Err Task × World :=
  dbCall (fun s =>
    (Except.ok { task with CreatedAt := w.now, UpdatedAt := w.now },
      s.insertTask { task with CreatedAt := w.now, UpdatedAt := w.now })) w

/-- `SELECT ... FROM tasks WHERE id = $1`. -/
@[reducible] def GetByID (id : UUID) (w : World) : Except Err Task × World :=
  dbCall (fun s =>
    (match s.tasks.find? (fun t => t.ID == id) with
      | some t => Except.ok t
      | none => Except.error Err.ErrNoRows, s)) w

/-- `UPDATE tasks SET status = $1 WHERE id = $2`. -/
@[reducible] def UpdateStatus (id : UUID) (status : TaskStatus) (w : World) :
    Except Err Unit × World :=
  dbCall (fun s => (Except.ok (), s.setTaskStatus id status)) w

/-- `UPDATE tasks SET escrow_locked = $1 WHERE id = $2`. -/
@[reducible] def SetEscrowLocked (id : UUID) (locked : Bool) (w : World) :
    Except Err Unit × World :=
  dbCall (fun s => (Except.ok (), s.setEscrowLocked id locked)) w

/-- `SELECT ... FROM tasks WHERE status = 'open' AND claim_deadline <= NOW()`. -/
@[reducible] def GetTasksPastClaimDeadline (w : World) : Except Err (List Task) × World :=
  dbCall (fun s =>
    (Except.ok (s.tasks.filter
      (fun t => t.Status == TaskStatus.Open && decide (t.ClaimDeadline ≤ w.now))), s)) w

/-- The rows of a `LIMIT $limit OFFSET $offset` clause over the ordered rows `rows`; the
database rejects a negative limit and a negative offset. -/
def page (rows : List Task) (limit offset : Int) : Except Err (List Task) :=
  if limit < 0 then Except.error (Err.Msg "LIMIT must not be negative")
  else if offset < 0 then Except.error (Err.Msg "OFFSET must not be negative")
  else Except.ok ((rows.drop offset.toNat).take limit.toNat)

/-- `SELECT ... FROM tasks WHERE status = 'open' AND claim_deadline > NOW()
ORDER BY created_at DESC LIMIT $1 OFFSET $2`; rows with equal `created_at` are kept in
table order. -/
@[reducible] def GetOpenTasks (limit offset : Int) (w : World) :
    Except Err (List Task) × World :=
  dbCall (fun s =>
    (page ((s.tasks.filter
        (fun t => t.Status == TaskStatus.Open && decide (t.ClaimDeadline > w.now))).insertionSort
        (fun a b => a.CreatedAt ≥ b.CreatedAt)) limit offset, s)) w

/-- `SELECT ... FROM tasks WHERE owner_id = $1 ORDER BY created_at DESC
LIMIT $2 OFFSET $3`; rows with equal `created_at` are kept in table order. -/
@[reducible] def GetByOwnerID (ownerID : UUID) (limit offset : Int) (w : World) :
    Except Err (List Task) × World :=
  dbCall (fun s =>
    (page ((s.tasks.filter (fun t => t.OwnerID == ownerID)).insertionSort
        (fun a b => a.CreatedAt ≥ b.CreatedAt)) limit offset, s)) w

end taskRepository

namespace claimRepository

/-- `INSERT INTO claims (id, task_id, claimer_id, status) VALUES (...)
RETURNING created_at, updated_at`. -/
@[reducible] def Create (claim : Claim) (w : World) : Except Err Claim × World :=
  dbCall (fun s =>
    (Except.ok { claim with CreatedAt := w.now, UpdatedAt := w.now },
      s.insertClaim { claim with CreatedAt := w.now, UpdatedAt := w.now })) w

/-- `SELECT ... FROM claims WHERE id = $1`. -/
@[reducible] def GetByID (id : UUID) (w : World) : Except Err Claim × World :=
  dbCall (fun s =>
    (match s.claims.find? (fun c => c.ID == id) with
      | some c => Except.ok c
      | none => Except.error Err.ErrNoRows, s)) w

/-- `SELECT ... FROM claims WHERE task_id = $1 AND claimer_id = $2`. -/
@[reducible] def GetByTaskIDAndClaimerID (taskID claimerID : UUID) (w : World) :
    Except Err Claim × World :=
  dbCall (fun s =>
    (match s.claims.find? (fun c => c.TaskID == taskID && c.ClaimerID == claimerID) with
      | some c => Except.ok c
      | none => Except.error Err.ErrNoRows, s)) w

/-- `SELECT COUNT(*) FROM claims WHERE task_id = $1 AND status != 'cancelled'`. -/
@[reducible] def CountByTaskID (taskID : UUID) (w : World) : Except Err Int × World :=
  dbCall (fun s => (Except.ok ((s.activeClaims taskID).length : Int), s)) w

/-- `UPDATE claims SET status = $1 WHERE id = $2`. -/
@[reducible] def UpdateStatus (id : UUID) (status : ClaimStatus) (w : World) :
    Except Err Unit × World :=
  dbCall (fun s => (Except.ok (), s.setClaimStatus id status)) w

/-- `UPDATE claims SET completion_text = $1, completion_image_url = $2,
submitted_at = NOW() WHERE id = $3`. -/
@[reducible] def SubmitCompletion (id : UUID) (text imageURL : String) (w : World) :
    Except Err Unit × World :=
  dbCall (fun s => (Except.ok (), s.submitCompletion id text imageURL w.now)) w

end claimRepository

namespace escrowRepository

/-- `INSERT INTO escrow_transactions (...) VALUES (...) RETURNING created_at`. -/
@[reducible] def CreateTransaction (tx : EscrowTransaction) (w : World) :
    Except Err EscrowTransaction × World :=
  dbCall (fun s =>
    (Except.ok { tx with CreatedAt := w.now },
      s.insertTransaction { tx with CreatedAt := w.now })) w

/-- `UPDATE escrow_transactions SET status = $1, completed_at =
CASE WHEN $1 = 'completed' THEN NOW() ELSE completed_at END WHERE id = $2`. -/
@[reducible] def UpdateTransactionStatus (id : UUID) (status : EscrowTransactionStatus)
    (w : World) : Except Err Unit × World :=
  dbCall (fun s => (Except.ok (), s.setTransactionStatus id status w.now)) w

end escrowRepository

namespace userRepository

/-- `UPDATE users SET reputation = reputation + $1 WHERE id = $2`. -/
@[reducible] def UpdateReputation (id : UUID) (delta : Int) (w : World) :
    Except Err Unit × World :=
  dbCall (fun s => (Except.ok (), s.addReputation id delta)) w

/-- `UPDATE users SET total_earned = total_earned + $1 WHERE id = $2`. -/
@[reducible] def UpdateEarnings (id : UUID) (amount : Amount) (w : World) :
    Except Err Unit × World :=
  dbCall (fun s => (Except.ok (), s.addEarnings id amount)) w

end userRepository

namespace chatRepository

/-- `SELECT ... FROM chats WHERE task_id = $1 AND participant_id = $2 AND
other_participant_id = $3` (first statement of `GetOrCreate`). -/
@[reducible] def find (taskID participantID otherParticipantID : UUID) (w : World) :
    Except Err Chat × World :=
  dbCall (fun s =>
    (match s.chats.find? (fun c => c.TaskID == taskID && c.ParticipantID == participantID
        && c.OtherParticipantID == otherParticipantID) with
      | some c => Except.ok c
      | none => Except.error Err.ErrNoRows, s)) w

/-- `UPDATE chats SET deleted_by_participant = FALSE, deleted_by_other = FALSE
WHERE id = $1` (second statement of `GetOrCreate`). -/
@[reducible] def resetDeletion (id : UUID) (w : World) : Except Err Unit × World :=
  dbCall (fun s => (Except.ok (), s.resetChatDeletion id)) w

/-- `INSERT INTO chats (id, task_id, participant_id, other_participant_id) VALUES (...)
RETURNING created_at, updated_at` (third statement of `GetOrCreate`). -/
@[reducible] def insert (chat : Chat) (w : World) : Except Err Chat × World :=
  dbCall (fun s =>
    (Except.ok { chat with CreatedAt := w.now, UpdatedAt := w.now },
      s.insertChat { chat with CreatedAt := w.now, UpdatedAt := w.now })) w

/-- `chatRepository.GetOrCreate`: look the chat up; when it exists, clear its deletion
flags (the result of that `UPDATE` is ignored) and return it; otherwise insert a new one. -/
def GetOrCreate (taskID participantID otherParticipantID : UUID) (w : World) :
    Except Err Chat × World :=
  let r1 := find taskID participantID otherParticipantID w
  match r1.1 with
  | Except.ok chat =>
    if chat.DeletedByParticipant || chat.DeletedByOther then
      let r2 := resetDeletion chat.ID r1.2
      (Except.ok { chat with DeletedByParticipant := false, DeletedByOther := false }, r2.2)
    else
      (Except.ok chat, r1.2)
  | Except.error e =>
    if e ≠ Err.ErrNoRows then (Except.error e, r1.2) else
    let u := uuidNew r1.2
    let chat : Chat :=
      { ID := u.1, TaskID := taskID, ParticipantID := participantID,
        OtherParticipantID := otherParticipantID, DeletedByParticipant := false,
        DeletedByOther := false, CreatedAt := 0, UpdatedAt := 0 }
    insert chat u.2

end chatRepository

/-! ## internal/service

Each repository call returns a pair `r` of a result `r.1` (a value or an error) and the
world `r.2` after the call; `match r.1 with | Except.error e => ...` is Go's
`if err != nil { ... }`. -/

namespace escrowService

/-- `escrowService.LockEscrow` (service/escrow_service.go). -/
def LockEscrow (taskID userID : UUID) (amount : Amount) (w : World) : Option Err × World :=
  let r1 := taskRepository.GetByID taskID w
  match r1.1 with
  | Except.error e => (some e, r1.2)
  | Except.ok task =>
  if task.EscrowLocked then (some Err.ErrEscrowAlreadyLocked, r1.2) else
  let u := uuidNew r1.2
  let tx : EscrowTransaction :=
    { ID := u.1, TaskID := taskID, UserID := userID, Amount := amount,
      TransactionType := EscrowTransactionType.Lock,
      Status := EscrowTransactionStatus.Pending, CreatedAt := 0, CompletedAt := none }
  let r2 := escrowRepository.CreateTransaction tx u.2
  match r2.1 with
  | Except.error e => (some e, r2.2)
  | Except.ok _ =>
  let r3 := taskRepository.SetEscrowLocked taskID true r2.2
  match r3.1 with
  | Except.error e => (some e, r3.2)
  | Except.ok _ =>
  let r4 := escrowRepository.UpdateTransactionStatus tx.ID
    EscrowTransactionStatus.Completed r3.2
  match r4.1 with
  | Except.error e => (some e, r4.2)
  | Except.ok _ => (none, r4.2)

/-- `escrowService.ReleaseEscrow` (service/escrow_service.go). -/
def ReleaseEscrow (taskID userID : UUID) (amount : Amount) (w : World) : Option Err × World :=
  let r1 := taskRepository.GetByID taskID w
  match r1.1 with
  | Except.error e => (some e, r1.2)
  | Except.ok _ =>
  let u := uuidNew r1.2
  let tx : EscrowTransaction :=
    { ID := u.1, TaskID := taskID, UserID := userID, Amount := amount,
      TransactionType := EscrowTransactionType.Release,
      Status := EscrowTransactionStatus.Pending, CreatedAt := 0, CompletedAt := none }
  let r2 := escrowRepository.CreateTransaction tx u.2
  match r2.1 with
  | Except.error e => (some e, r2.2)
  | Except.ok _ =>
  let r3 := escrowRepository.UpdateTransactionStatus tx.ID
    EscrowTransactionStatus.Completed r2.2
  match r3.1 with
  | Except.error e => (some e, r3.2)
  | Except.ok _ => (none, r3.2)

/-- `escrowService.RefundEscrow` (service/escrow_service.go). -/
def RefundEscrow (taskID userID : UUID) (amount : Amount) (w : World) : Option Err × World :=
  let u := uuidNew w
  let tx : EscrowTransaction :=
    { ID := u.1, TaskID := taskID, UserID := userID, Amount := amount,
      TransactionType := EscrowTransactionType.Refund,
      Status := EscrowTransactionStatus.Pending, CreatedAt := 0, CompletedAt := none }
  let r1 := escrowRepository.CreateTransaction tx u.2
  match r1.1 with
  | Except.error e => (some e, r1.2)
  | Except.ok _ =>
  let r2 := escrowRepository.UpdateTransactionStatus tx.ID
    EscrowTransactionStatus.Completed r1.2
  match r2.1 with
  | Except.error e => (some e, r2.2)
  | Except.ok _ =>
  let r3 := taskRepository.SetEscrowLocked taskID false r2.2
  match r3.1 with
  | Except.error e => (some e, r3.2)
  | Except.ok _ => (none, r3.2)

end escrowService

namespace claimService

/-- `claimService.ClaimTask` (service/claim_service.go).  The Go function returns a pair
`(*domain.Claim, error)`; both components can be non-nil (the already-claimed case).
`claimRepository.Create` scans the timestamps into the claim that is returned. -/
def ClaimTask (taskID claimerID : UUID) (w : World) : (Option Claim × Option Err) × World :=
  let r1 := taskRepository.GetByID taskID w
  match r1.1 with
  | Except.error e =>
    if e = Err.ErrNoRows then ((none, some Err.ErrTaskNotFound), r1.2)
    else ((none, some e), r1.2)
  | Except.ok task =>
  if !task.CanBeClaimed r1.2.now then ((none, some Err.ErrTaskNotClaimable), r1.2) else
  let r2 := claimRepository.GetByTaskIDAndClaimerID taskID claimerID r1.2
  match r2.1 with
  | Except.ok existing => ((some existing, some Err.ErrAlreadyClaimed), r2.2)
  | Except.error e =>
  if e ≠ Err.ErrNoRows then ((none, some e), r2.2) else
  let r3 := claimRepository.CountByTaskID taskID r2.2
  match r3.1 with
  | Except.error e => ((none, some e), r3.2)
  | Except.ok count =>
  if count ≥ task.MaxClaimants then ((none, some Err.ErrClaimLimitReached), r3.2) else
  let u := uuidNew r3.2
  let claim : Claim :=
    { ID := u.1, TaskID := taskID, ClaimerID := claimerID, Status := ClaimStatus.Pending,
      SubmittedAt := none, CompletionText := "", CompletionImageURL := "",
      CreatedAt := 0, UpdatedAt := 0 }
  let r4 := claimRepository.Create claim u.2
  match r4.1 with
  | Except.error e => ((none, some e), r4.2)
  | Except.ok claim =>
  if count = 0 then
    let r5 := taskRepository.UpdateStatus taskID TaskStatus.Claimed r4.2
    match r5.1 with
    | Except.error e => ((none, some e), r5.2)
    | Except.ok _ => ((some claim, none), r5.2)
  else ((some claim, none), r4.2)

/-- `claimService.SubmitCompletion` (service/claim_service.go). -/
def SubmitCompletion (claimID userID : UUID) (text imageURL : String) (w : World) :
    (Option Claim × Option Err) × World :=
  let r1 := claimRepository.GetByID claimID w
  match r1.1 with
  | Except.error e =>
    if e = Err.ErrNoRows then ((none, some Err.ErrClaimNotFound), r1.2)
    else ((none, some e), r1.2)
  | Except.ok claim =>
  if claim.ClaimerID ≠ userID then ((none, some Err.ErrUnauthorized), r1.2) else
  if text = "" then ((none, some (Err.Msg "completion text is required")), r1.2) else
  let r2 := claimRepository.SubmitCompletion claimID text imageURL r1.2
  match r2.1 with
  | Except.error e => ((none, some e), r2.2)
  | Except.ok _ =>
  let r3 := taskRepository.GetByID claim.TaskID r2.2
  match r3.1 with
  | Except.error e => ((none, some e), r3.2)
  | Except.ok task =>
  let r4 := chatRepository.GetOrCreate claim.TaskID claim.ClaimerID task.OwnerID r3.2
  let r5 := claimRepository.GetByID claimID r4.2
  match r5.1 with
  | Except.error e => ((none, some e), r5.2)
  | Except.ok refreshed => ((some refreshed, none), r5.2)

/-- `claimService.ApproveClaim` (service/claim_service.go). -/
def ApproveClaim (claimID ownerID : UUID) (w : World) : Option Err × World :=
  let r1 := claimRepository.GetByID claimID w
  match r1.1 with
  | Except.error e =>
    if e = Err.ErrNoRows then (some Err.ErrClaimNotFound, r1.2) else (some e, r1.2)
  | Except.ok claim =>
  let r2 := taskRepository.GetByID claim.TaskID r1.2
  match r2.1 with
  | Except.error e => (some e, r2.2)
  | Except.ok task =>
  if task.OwnerID ≠ ownerID then (some Err.ErrUnauthorized, r2.2) else
  if !claim.IsSubmitted then (some (Err.Msg "claim has not been submitted"), r2.2) else
  let r3 := claimRepository.UpdateStatus claimID ClaimStatus.Approved r2.2
  match r3.1 with
  | Except.error e => (some e, r3.2)
  | Except.ok _ =>
  let r4 := escrowService.ReleaseEscrow task.ID claim.ClaimerID task.RewardAmount r3.2
  match r4.1 with
  | some e => (some e, r4.2)
  | none =>
  let r5 := userRepository.UpdateEarnings claim.ClaimerID task.RewardAmount r4.2
  match r5.1 with
  | Except.error e => (some e, r5.2)
  | Except.ok _ =>
  let r6 := userRepository.UpdateReputation claim.ClaimerID 1 r5.2
  match r6.1 with
  | Except.error e => (some e, r6.2)
  | Except.ok _ =>
  let r7 := taskRepository.UpdateStatus task.ID TaskStatus.Completed r6.2
  match r7.1 with
  | Except.error e => (some e, r7.2)
  | Except.ok _ => (none, r7.2)

/-- `claimService.RejectClaim` (service/claim_service.go). -/
def RejectClaim (claimID ownerID : UUID) (w : World) : Option Err × World :=
  let r1 := claimRepository.GetByID claimID w
  match r1.1 with
  | Except.error e =>
    if e = Err.ErrNoRows then (some Err.ErrClaimNotFound, r1.2) else (some e, r1.2)
  | Except.ok claim =>
  let r2 := taskRepository.GetByID claim.TaskID r1.2
  match r2.1 with
  | Except.error e => (some e, r2.2)
  | Except.ok task =>
  if task.OwnerID ≠ ownerID then (some Err.ErrUnauthorized, r2.2) else
  let r3 := claimRepository.UpdateStatus claimID ClaimStatus.Rejected r2.2
  match r3.1 with
  | Except.error e => (some e, r3.2)
  | Except.ok _ => (none, r3.2)

end claimService

/-- `CreateTaskRequest` (service/task_service.go). -/
structure CreateTaskRequest where
  Title : String
  Description : String
  RewardAmount : Amount
  MaxClaimants : Int
  ClaimDeadline : Time
  OwnerDeadline : Time
deriving DecidableEq, Repr

namespace taskService

/-- `taskService.CreateTask` (service/task_service.go).  Go's `len` of a string is its
length in bytes.  The task returned on success is the in-memory value (with the
timestamps scanned back by `taskRepository.Create`), whose `EscrowLocked` field is still
false.  The result of the `UpdateStatus` call on the failure path is ignored. -/
def CreateTask (ownerID : UUID) (req : CreateTaskRequest) (w : World) :
    (Option Task × Option Err) × World :=
  if req.Title = "" ∨ req.Title.utf8ByteSize > 500 then
    ((none, some (Err.Msg "title must be between 1 and 500 characters")), w) else
  if req.Description = "" then ((none, some (Err.Msg "description is required")), w) else
  if req.RewardAmount ≤ 0 then
    ((none, some (Err.Msg "reward_amount must be positive")), w) else
  if req.MaxClaimants ≤ 0 then
    ((none, some (Err.Msg "max_claimants must be positive")), w) else
  if req.ClaimDeadline < w.now then
    ((none, some (Err.Msg "claim_deadline must be in the future")), w) else
  if req.OwnerDeadline < req.ClaimDeadline then
    ((none, some (Err.Msg "owner_deadline must be after claim_deadline")), w) else
  let u := uuidNew w
  let task : Task :=
    { ID := u.1, OwnerID := ownerID, Title := req.Title, Description := req.Description,
      RewardAmount := req.RewardAmount, MaxClaimants := req.MaxClaimants,
      ClaimDeadline := req.ClaimDeadline, OwnerDeadline := req.OwnerDeadline,
      Status := TaskStatus.Open, EscrowLocked := false, CreatedAt := 0, UpdatedAt := 0 }
  let r1 := taskRepository.Create task u.2
  match r1.1 with
  | Except.error e => ((none, some e), r1.2)
  | Except.ok task =>
  let r2 := escrowService.LockEscrow task.ID ownerID req.RewardAmount r1.2
  match r2.1 with
  | some e =>
    let r3 := taskRepository.UpdateStatus task.ID TaskStatus.Cancelled r2.2
    ((none, some e), r3.2)
  | none => ((some task, none), r2.2)

/-- `taskService.GetTask` (service/task_service.go). -/
def GetTask (id : UUID) (w : World) : (Option Task × Option Err) × World :=
  let r1 := taskRepository.GetByID id w
  match r1.1 with
  | Except.error e =>
    if e = Err.ErrNoRows then ((none, some Err.ErrTaskNotFound), r1.2)
    else ((none, some e), r1.2)
  | Except.ok task => ((some task, none), r1.2)

/-- `taskService.GetOpenTasks` (service/task_service.go). -/
def GetOpenTasks (limit offset : Int) (w : World) : Except Err (List Task) × World :=
  let limit := if limit ≤ 0 ∨ limit > 100 then 20 else limit
  taskRepository.GetOpenTasks limit offset w

/-- `taskService.GetUserTasks` (service/task_service.go). -/
def GetUserTasks (userID : UUID) (limit offset : Int) (w : World) :
    Except Err (List Task) × World :=
  let limit := if limit ≤ 0 ∨ limit > 100 then 20 else limit
  taskRepository.GetByOwnerID userID limit offset w

/-- One iteration of the `for _, task := range tasks` loop of
`AutoCancelExpiredTasks`; `continue` and falling off the end of the body both return
the world reached. -/
def autoCancelStep (task : Task) (w : World) : World :=
  let r1 := claimRepository.CountByTaskID task.ID w
  match r1.1 with
  | Except.error _ => r1.2
  | Except.ok claimCount =>
    if claimCount = 0 then
      let r2 := taskRepository.UpdateStatus task.ID TaskStatus.Cancelled r1.2
      match r2.1 with
      | Except.error _ => r2.2
      | Except.ok _ =>
        (escrowService.RefundEscrow task.ID task.OwnerID task.RewardAmount r2.2).2
    else r1.2

/-- The `for _, task := range tasks` loop of `AutoCancelExpiredTasks`. -/
def autoCancelLoop : List Task → World → World
  | [], w => w
  | task :: rest, w => autoCancelLoop rest (autoCancelStep task w)

/-- `taskService.AutoCancelExpiredTasks` (service/task_service.go). -/
def AutoCancelExpiredTasks (w : World) : Option Err × World :=
  let r1 := taskRepository.GetTasksPastClaimDeadline w
  match r1.1 with
  | Except.error e => (some e, r1.2)
  | Except.ok tasks => (none, autoCancelLoop tasks r1.2)

end taskService

/-- `claimRepository.GetByTaskID`: `SELECT ... FROM claims WHERE task_id = $1
ORDER BY created_at ASC`; rows with equal `created_at` are kept in table order. -/
@[reducible] def claimRepository.GetByTaskID (taskID : UUID) (w : World) :
    Except Err (List Claim) × World :=
  dbCall (fun s =>
    (Except.ok ((s.claims.filter (fun c => c.TaskID == taskID)).insertionSort
      (fun a b => a.CreatedAt ≤ b.CreatedAt)), s)) w

/-- `claimService.GetClaimsByTaskID` (service/claim_service.go). -/
def claimService.GetClaimsByTaskID (taskID : UUID) (w : World) :
    Except Err (List Claim) × World :=
  claimRepository.GetByTaskID taskID w

/-! ## internal/handler and the routes of cmd/server/main.go -/

/-- A segment of a gin route pattern: fixed text, or a named parameter `:name`. -/
inductive Segment
  | lit (text : String)
  | param (name : String)
deriving DecidableEq, Repr

/-- The path parameters that a router binds when the segments of a request path match
one of the patterns registered on it; a named parameter matches one segment that is not
empty.  This is the matching of a single pattern: which patterns a router holds, and
whether `main` gets as far as routing a request, is `registerAll` and `mainDispatch`
below. -/
def matchRoute : List Segment → List String → Option (List (String × String))
  | [], [] => some []
  | Segment.lit text :: ps, x :: xs => if text = x then matchRoute ps xs else none
  | Segment.param name :: ps, x :: xs =>
    if x = "" then none else (matchRoute ps xs).map (fun params => (name, x) :: params)
  | _, _ => none

/-- `gin.Context.Param`: the value of the first path parameter with the key, and the
empty string when there is none. -/
def Param (params : List (String × String)) (key : String) : String :=
  match params.find? (fun p => p.1 == key) with
  | some p => p.2
  | none => ""

/-- `parseUUID` (handler/utils.go): `id, _ := uuid.Parse(s); return id`.  The library
function `uuid.Parse` is the parameter `parse`; when it fails, `id` is the zero
identifier. -/
def parseUUID (parse : String → Option UUID) (s : String) : UUID :=
  match parse s with
  | some id => id
  | none => 0

/-- The pattern of `api.POST("/tasks/:task_id/claims", claimHandler.ClaimTask)` and of
`api.GET("/tasks/:task_id/claims", claimHandler.GetClaimsByTask)` in the group
`/api/v1` (cmd/server/main.go). -/
def claimsRoute : List Segment :=
  [Segment.lit "api", Segment.lit "v1", Segment.lit "tasks", Segment.param "task_id",
   Segment.lit "claims"]

/-- `ClaimHandler.ClaimTask` (handler/claim_handler.go): the status code and the claim of
the response, and the world; `userID` is what the authentication middleware stored. -/
def ClaimHandler.ClaimTask (parse : String → Option UUID) (params : List (String × String))
    (userID : UUID) (w : World) : (Nat × Option Claim) × World :=
  let taskID := Param params "tid"
  let r := claimService.ClaimTask (parseUUID parse taskID) userID w
  match r.1.2 with
  | some err =>
    if err = Err.ErrTaskNotFound ∨ err = Err.ErrTaskNotClaimable
        ∨ err = Err.ErrClaimLimitReached ∨ err = Err.ErrAlreadyClaimed then
      ((400, none), r.2)
    else ((500, none), r.2)
  | none => ((201, r.1.1), r.2)

/-- `ClaimHandler.GetClaimsByTask` (handler/claim_handler.go): the status code and the
claims of the response, and the world. -/
def ClaimHandler.GetClaimsByTask (parse : String → Option UUID)
    (params : List (String × String)) (w : World) : (Nat × List Claim) × World :=
  let taskID := Param params "tid"
  let r := claimService.GetClaimsByTaskID (parseUUID parse taskID) w
  match r.1 with
  | Except.error _ => ((500, []), r.2)
  | Except.ok claims => ((200, claims), r.2)

/-- The handler that the specification describes, for comparison with
`ClaimHandler.ClaimTask`: the same statements, reading the path parameter under the name
`key` (the name that the route declares is `task_id`). -/
def ClaimHandler.ClaimTaskReading (key : String) (parse : String → Option UUID)
    (params : List (String × String)) (userID : UUID) (w : World) :
    (Nat × Option Claim) × World :=
  let taskID := Param params key
  let r := claimService.ClaimTask (parseUUID parse taskID) userID w
  match r.1.2 with
  | some err =>
    if err = Err.ErrTaskNotFound ∨ err = Err.ErrTaskNotClaimable
        ∨ err = Err.ErrClaimLimitReached ∨ err = Err.ErrAlreadyClaimed then
      ((400, none), r.2)
    else ((500, none), r.2)
  | none => ((201, r.1.1), r.2)

/-- A stand-in for `uuid.Parse` in examples: the decimal numerals "1" and "7" are the
identifiers 1 and 7, every other text is rejected. -/
def parseExample (s : String) : Option UUID :=
  if s = "1" then some 1 else if s = "7" then some 7 else none

/-- A route registration of cmd/server/main.go: the HTTP method, the pattern of the full
path (the prefix of the group included) and the handler. -/
structure Route where
  method : String
  pattern : List Segment
  handler : String
deriving DecidableEq, Repr

/-- Whether the pattern `new` cannot be added to a gin route tree that holds the pattern
`old`.  Both are walked from the root while their segments are equal.  Where they part,
two parameters with different names are a wildcard conflict in every gin release; fixed
text beside a parameter is a conflict in the releases that do not allow the mix
(`mixed = false`) and none in those that do; two different fixed texts, or one pattern
ending, are none. -/
def wildcardConflict (mixed : Bool) : List Segment → List Segment → Bool
  | Segment.lit a :: ps, Segment.lit b :: qs =>
    if a = b then wildcardConflict mixed ps qs else false
  | Segment.param a :: ps, Segment.param b :: qs =>
    if a = b then wildcardConflict mixed ps qs else true
  | Segment.lit _ :: _, Segment.param _ :: _ => !mixed
  | Segment.param _ :: _, Segment.lit _ :: _ => !mixed
  | _, _ => false

/-- The panics of gin's route registration. -/
inductive RouterPanic
  | wildcardConflict (new existing : Route)
  | alreadyRegistered (route : Route)
deriving DecidableEq, Repr

/-- `RouterGroup.GET`, `POST`, `DELETE`: add a route to the tree of its method.  gin keeps
one tree for each method; the call panics when the pattern conflicts with a pattern in
that tree or is in it already. -/
def addRoute (mixed : Bool) (routes : List Route) (r : Route) :
    Except RouterPanic (List Route) :=
  match routes.find? (fun x => x.method == r.method
      && wildcardConflict mixed r.pattern x.pattern) with
  | some x => Except.error (RouterPanic.wildcardConflict r x)
  | none =>
    if routes.any (fun x => x.method == r.method && x.pattern == r.pattern) then
      Except.error (RouterPanic.alreadyRegistered r)
    else Except.ok (routes ++ [r])

/-- Registering routes one after the other, stopping at the first panic. -/
def registerAll (mixed : Bool) : List Route → List Route → Except RouterPanic (List Route)
  | routes, [] => Except.ok routes
  | routes, r :: rs =>
    match addRoute mixed routes r with
    | Except.error e => Except.error e
    | Except.ok routes2 => registerAll mixed routes2 rs

/-- The pattern of a route of the group `api := r.Group("/api/v1")`. -/
def apiRoute (rest : List Segment) : List Segment :=
  Segment.lit "api" :: Segment.lit "v1" :: rest

/-- `api.GET("/tasks/:id", taskHandler.GetTask)` (cmd/server/main.go). -/
def getTaskRoute : Route :=
  ⟨"GET", apiRoute [Segment.lit "tasks", Segment.param "id"], "taskHandler.GetTask"⟩

/-- `api.GET("/tasks/my", taskHandler.GetUserTasks)` (cmd/server/main.go). -/
def getUserTasksRoute : Route :=
  ⟨"GET", apiRoute [Segment.lit "tasks", Segment.lit "my"], "taskHandler.GetUserTasks"⟩

/-- `api.POST("/tasks/:task_id/claims", claimHandler.ClaimTask)` (cmd/server/main.go). -/
def postClaimsRoute : Route := ⟨"POST", claimsRoute, "claimHandler.ClaimTask"⟩

/-- `api.GET("/tasks/:task_id/claims", claimHandler.GetClaimsByTask)`
(cmd/server/main.go). -/
def getClaimsRoute : Route := ⟨"GET", claimsRoute, "claimHandler.GetClaimsByTask"⟩

/-- The routes that `main` registers (cmd/server/main.go), in the order of the calls. -/
def mainRoutes : List Route :=
  [⟨"GET", [Segment.lit "health"], "health"⟩,
   ⟨"GET", [Segment.lit "ws"], "wsHandler.HandleWebSocket"⟩,
   ⟨"POST", apiRoute [Segment.lit "tasks"], "taskHandler.CreateTask"⟩,
   ⟨"GET", apiRoute [Segment.lit "tasks"], "taskHandler.GetOpenTasks"⟩,
   getUserTasksRoute,
   getTaskRoute,
   postClaimsRoute,
   getClaimsRoute,
   ⟨"GET", apiRoute [Segment.lit "claims", Segment.param "id"], "claimHandler.GetClaim"⟩,
   ⟨"POST", apiRoute [Segment.lit "claims", Segment.param "id", Segment.lit "submit"],
    "claimHandler.SubmitCompletion"⟩,
   ⟨"POST", apiRoute [Segment.lit "claims", Segment.param "id", Segment.lit "approve"],
    "claimHandler.ApproveClaim"⟩,
   ⟨"POST", apiRoute [Segment.lit "claims", Segment.param "id", Segment.lit "reject"],
    "claimHandler.RejectClaim"⟩,
   ⟨"GET", apiRoute [Segment.lit "tasks", Segment.param "task_id", Segment.lit "chats"],
    "chatHandler.GetChats"⟩,
   ⟨"POST", apiRoute [Segment.lit "tasks", Segment.param "task_id", Segment.lit "chats"],
    "chatHandler.GetOrCreateChat"⟩,
   ⟨"DELETE", apiRoute [Segment.lit "chats", Segment.param "id"], "chatHandler.DeleteChat"⟩,
   ⟨"POST", apiRoute [Segment.lit "chats", Segment.param "id", Segment.lit "messages"],
    "chatHandler.SendMessage"⟩,
   ⟨"GET", apiRoute [Segment.lit "chats", Segment.param "id", Segment.lit "messages"],
    "chatHandler.GetMessages"⟩]

/-- The route that a router holding `routes` picks for a request, with the path
parameters it binds: the first registered route of the method whose pattern matches the
segments of the path. -/
def dispatch (routes : List Route) (method : String) (path : List String) :
    Option (Route × List (String × String)) :=
  match routes.find? (fun r => r.method == method && (matchRoute r.pattern path).isSome) with
  | some r => (matchRoute r.pattern path).map (fun params => (r, params))
  | none => none

/-- What `main` does with a request (cmd/server/main.go): the routes are registered
before `srv.ListenAndServe()` is called; a panic of the registration ends the process,
so that no request is routed; otherwise the router picks the route. -/
def mainDispatch (mixed : Bool) (method : String) (path : List String) :
    Except RouterPanic (Option (Route × List (String × String))) :=
  match registerAll mixed [] mainRoutes with
  | Except.error e => Except.error e
  | Except.ok routes => Except.ok (dispatch routes method path)

/-- The two claim routes alone. -/
def claimRoutes : List Route := [postClaimsRoute, getClaimsRoute]

/-! ## Derived notions used in the statements -/

/-- The world after `n` successive `ApproveClaim claimID ownerID` calls. -/
def approveTimes (claimID ownerID : UUID) : Nat → World → World
  | 0, w => w
  | n + 1, w => approveTimes claimID ownerID n (claimService.ApproveClaim claimID ownerID w).2

/-- The `Release` transactions recorded in the ledger for a task. -/
def releasesFor (s : Store) (taskID : UUID) : List EscrowTransaction :=
  s.ledger.filter (fun tx => tx.TaskID == taskID
    && tx.TransactionType == EscrowTransactionType.Release)

/-- The operations of the service layer that change state, as requests. -/
inductive Op
  | CreateTask (ownerID : UUID) (req : CreateTaskRequest)
  | ClaimTask (taskID claimerID : UUID)
  | SubmitCompletion (claimID userID : UUID) (text imageURL : String)
  | ApproveClaim (claimID ownerID : UUID)
  | RejectClaim (claimID ownerID : UUID)
  | LockEscrow (taskID userID : UUID) (amount : Amount)
  | ReleaseEscrow (taskID userID : UUID) (amount : Amount)
  | RefundEscrow (taskID userID : UUID) (amount : Amount)
  | AutoCancelExpiredTasks
deriving DecidableEq, Repr

/-- The world after an operation has run (its return value dropped). -/
def Op.run : Op → World → World
  | Op.CreateTask ownerID req, w => (taskService.CreateTask ownerID req w).2
  | Op.ClaimTask taskID claimerID, w => (claimService.ClaimTask taskID claimerID w).2
  | Op.SubmitCompletion claimID userID text imageURL, w =>
      (claimService.SubmitCompletion claimID userID text imageURL w).2
  | Op.ApproveClaim claimID ownerID, w => (claimService.ApproveClaim claimID ownerID w).2
  | Op.RejectClaim claimID ownerID, w => (claimService.RejectClaim claimID ownerID w).2
  | Op.LockEscrow taskID userID amount, w =>
      (escrowService.LockEscrow taskID userID amount w).2
  | Op.ReleaseEscrow taskID userID amount, w =>
      (escrowService.ReleaseEscrow taskID userID amount w).2
  | Op.RefundEscrow taskID userID amount, w =>
      (escrowService.RefundEscrow taskID userID amount w).2
  | Op.AutoCancelExpiredTasks, w => (taskService.AutoCancelExpiredTasks w).2

/-- For every task, the number of its non-`Cancelled` claims is at most its
`max_claimants`. -/
def ClaimLimitInv (s : Store) : Prop :=
  ∀ t ∈ s.tasks, ((s.activeClaims t.ID).length : Int) ≤ t.MaxClaimants

instance (s : Store) : Decidable (ClaimLimitInv s) := by
  unfold ClaimLimitInv; infer_instance

/-- Task identifiers are unique (the primary key of the tasks table). -/
def TaskIDsUnique (s : Store) : Prop :=
  s.tasks.Pairwise (fun a b => a.ID ≠ b.ID)

/-- The operation is an approval or rejection aimed at a claim whose status is
`Cancelled`. -/
def Op.targetsCancelledClaim : Op → Store → Prop
  | Op.ApproveClaim claimID _, s =>
      ∃ c ∈ s.claims, c.ID = claimID ∧ c.Status = ClaimStatus.Cancelled
  | Op.RejectClaim claimID _, s =>
      ∃ c ∈ s.claims, c.ID = claimID ∧ c.Status = ClaimStatus.Cancelled
  | _, _ => False

/-- The Release transaction that `ApproveClaim` records for `claim` on `task`, once
completed, in world `w`. -/
def releaseOf (w : World) (claim : Claim) (task : Task) : EscrowTransaction :=
  { ID := w.uuids w.drawn, TaskID := task.ID, UserID := claim.ClaimerID,
    Amount := task.RewardAmount, TransactionType := EscrowTransactionType.Release,
    Status := EscrowTransactionStatus.Completed, CreatedAt := w.now,
    CompletedAt := some w.now }

/-- The tables after a complete approval of `claim` on `task` in world `w`. -/
def approvedStore (w : World) (claim : Claim) (task : Task) : Store :=
  ((((((w.store.setClaimStatus claim.ID ClaimStatus.Approved).insertTransaction
      { releaseOf w claim task with Status := EscrowTransactionStatus.Pending,
                                    CompletedAt := none }).setTransactionStatus
      (w.uuids w.drawn) EscrowTransactionStatus.Completed w.now).addEarnings
      claim.ClaimerID task.RewardAmount).addReputation claim.ClaimerID 1).setTaskStatus
      task.ID TaskStatus.Completed)

/-- The users table after crediting `amount` and one reputation point to `claimer`. -/
def creditedUsers (users : List User) (claimer : UUID) (amount : Amount) : List User :=
  users.map (fun u => if u.ID = claimer then
    { u with TotalEarned := u.TotalEarned + amount, Reputation := u.Reputation + 1 } else u)

/-- The task value that `CreateTask` builds from a request before inserting it. -/
def taskService.newTask (ownerID : UUID) (req : CreateTaskRequest) (w : World) : Task :=
  { ID := (uuidNew w).1, OwnerID := ownerID, Title := req.Title,
    Description := req.Description, RewardAmount := req.RewardAmount,
    MaxClaimants := req.MaxClaimants, ClaimDeadline := req.ClaimDeadline,
    OwnerDeadline := req.OwnerDeadline, Status := TaskStatus.Open, EscrowLocked := false,
    CreatedAt := 0, UpdatedAt := 0 }

/-- The world in which `CreateTask` calls `LockEscrow`: right after the round trip that
inserts the task row. -/
def taskService.afterInsert (ownerID : UUID) (req : CreateTaskRequest) (w : World) : World :=
  (taskRepository.Create (taskService.newTask ownerID req w) (uuidNew w).2).2

/-- The part of a task row that no update statement changes and that identifies what
was persisted: identifier, owner and title. -/
def taskKey (t : Task) : UUID × UUID × String := (t.ID, t.OwnerID, t.Title)

/-- The `Refund` transactions recorded in the ledger for a task. -/
def refundsFor (s : Store) (taskID : UUID) : List EscrowTransaction :=
  s.ledger.filter (fun tx => tx.TaskID == taskID
    && tx.TransactionType == EscrowTransactionType.Refund)

/-- The `Refund` transactions recorded in the ledger for a task that pay `amount` to
`userID`. -/
def refundsTo (s : Store) (taskID userID : UUID) (amount : Amount) :
    List EscrowTransaction :=
  s.ledger.filter (fun tx => tx.TaskID == taskID
    && tx.TransactionType == EscrowTransactionType.Refund
    && tx.UserID == userID && tx.Amount == amount)

/-- The part of a ledger row that no update statement changes: task, type, user and
amount. -/
def txKey (tx : EscrowTransaction) : UUID × EscrowTransactionType × UUID × Amount :=
  (tx.TaskID, tx.TransactionType, tx.UserID, tx.Amount)

/-- What a pass over the list `sweep` in which no round trip fails makes of the task row
`t`, the claims table being that of `s`: the row is cancelled and unlocked when `sweep`
holds a task with its identifier and no claim that counts, and kept otherwise. -/
def sweepRow (s : Store) (sweep : List Task) (t : Task) : Task :=
  if sweep.any (fun x => x.ID == t.ID && (s.activeClaims x.ID).isEmpty) then
    { t with Status := TaskStatus.Cancelled, EscrowLocked := false }
  else t

/-- The ledger rows, as keys, that a pass over the list `sweep` in which no round trip
fails appends, the claims table being that of `s`. -/
def sweepRefunds (s : Store) (sweep : List Task) :
    List (UUID × EscrowTransactionType × UUID × Amount) :=
  (sweep.filter (fun x => (s.activeClaims x.ID).isEmpty)).map
    (fun x => (x.ID, EscrowTransactionType.Refund, x.OwnerID, x.RewardAmount))

/-- What the approval of a claim of `claimer` has to keep of a user row: identifier and
total spent of every user, and the whole row of every user other than `claimer`. -/
def userFrame (claimer : UUID) (u : User) : UUID × Amount × Option User :=
  (u.ID, u.TotalSpent, if u.ID = claimer then none else some u)

/-! ## Concurrent invocations of `ClaimTask`

The service holds no lock and opens no database transaction, so two invocations of
`ClaimTask` running on different request goroutines can be suspended at each of their
round trips.  `ClaimThread` lists the points at which an invocation can be suspended,
with the local variables that are live there; `ClaimThread.step` runs the invocation from
such a point through its next round trip, following the text of `ClaimTask` statement by
statement. -/

/-- The points of suspension of one `ClaimTask` invocation: before each of its five round
trips, and after it has returned. -/
inductive ClaimThread
  | getTask (taskID claimerID : UUID)
  | getExisting (taskID claimerID : UUID) (task : Task)
  | countClaims (taskID claimerID : UUID) (task : Task)
  | createClaim (taskID claimerID : UUID) (count : Int)
  | updateStatus (taskID : UUID) (claim : Claim)
  | done (result : Option Claim × Option Err)
deriving DecidableEq, Repr

/-- One round trip of a `ClaimTask` invocation, with the statements around it. -/
def ClaimThread.step : ClaimThread → World → ClaimThread × World
  | ClaimThread.getTask taskID claimerID, w =>
    let r1 := taskRepository.GetByID taskID w
    match r1.1 with
    | Except.error e =>
      if e = Err.ErrNoRows then (ClaimThread.done (none, some Err.ErrTaskNotFound), r1.2)
      else (ClaimThread.done (none, some e), r1.2)
    | Except.ok task =>
      if !task.CanBeClaimed r1.2.now then
        (ClaimThread.done (none, some Err.ErrTaskNotClaimable), r1.2)
      else (ClaimThread.getExisting taskID claimerID task, r1.2)
  | ClaimThread.getExisting taskID claimerID task, w =>
    let r2 := claimRepository.GetByTaskIDAndClaimerID taskID claimerID w
    match r2.1 with
    | Except.ok existing => (ClaimThread.done (some existing, some Err.ErrAlreadyClaimed), r2.2)
    | Except.error e =>
      if e ≠ Err.ErrNoRows then (ClaimThread.done (none, some e), r2.2)
      else (ClaimThread.countClaims taskID claimerID task, r2.2)
  | ClaimThread.countClaims taskID claimerID task, w =>
    let r3 := claimRepository.CountByTaskID taskID w
    match r3.1 with
    | Except.error e => (ClaimThread.done (none, some e), r3.2)
    | Except.ok count =>
      if count ≥ task.MaxClaimants then
        (ClaimThread.done (none, some Err.ErrClaimLimitReached), r3.2)
      else (ClaimThread.createClaim taskID claimerID count, r3.2)
  | ClaimThread.createClaim taskID claimerID count, w =>
    let u := uuidNew w
    let claim : Claim :=
      { ID := u.1, TaskID := taskID, ClaimerID := claimerID, Status := ClaimStatus.Pending,
        SubmittedAt := none, CompletionText := "", CompletionImageURL := "",
        CreatedAt := 0, UpdatedAt := 0 }
    let r4 := claimRepository.Create claim u.2
    match r4.1 with
    | Except.error e => (ClaimThread.done (none, some e), r4.2)
    | Except.ok claim =>
      if count = 0 then (ClaimThread.updateStatus taskID claim, r4.2)
      else (ClaimThread.done (some claim, none), r4.2)
  | ClaimThread.updateStatus taskID claim, w =>
    let r5 := taskRepository.UpdateStatus taskID TaskStatus.Claimed w
    match r5.1 with
    | Except.error e => (ClaimThread.done (none, some e), r5.2)
    | Except.ok _ => (ClaimThread.done (some claim, none), r5.2)
  | ClaimThread.done result, w => (ClaimThread.done result, w)

/-- An invocation run for `n` round trips without being suspended. -/
def ClaimThread.run : Nat → ClaimThread → World → ClaimThread × World
  | 0, th, w => (th, w)
  | n + 1, th, w => ClaimThread.run n (th.step w).1 (th.step w).2

/-- Two invocations sharing the database, scheduled round trip by round trip: `false`
lets the first one run its next round trip, `true` the second one. -/
def interleave : List Bool → ClaimThread × ClaimThread → World →
    (ClaimThread × ClaimThread) × World
  | [], ths, w => (ths, w)
  | false :: rest, ths, w => interleave rest ((ths.1.step w).1, ths.2) (ths.1.step w).2
  | true :: rest, ths, w => interleave rest (ths.1, (ths.2.step w).1) (ths.2.step w).2

/-- The world after the claimers of the list have called `ClaimTask` for the task one
after another, each call returning before the next one starts. -/
def claimInTurn (taskID : UUID) : List UUID → World → World
  | [], w => w
  | claimerID :: rest, w =>
    claimInTurn taskID rest (claimService.ClaimTask taskID claimerID w).2

/-- The world after `n` successive reconciliation passes. -/
def passes : Nat → World → World
  | 0, w => w
  | n + 1, w => passes n (taskService.AutoCancelExpiredTasks w).2

/-! ## Scenarios used as concrete inputs -/

/-- A world over the tables `s` in which no round trip fails, identifiers are drawn as
`firstID, firstID + 1, ...` and the clock reads `now`. -/
def World.quiet (s : Store) (firstID : UUID) (now : Time) : World :=
  { store := s, faults := fun _ => false, tick := 0,
    uuids := fun n => firstID + n, drawn := 0, now := now }

/-- The task of `TestClaimTask` and `TestClaimTaskLimitReached`
(service/claim_service_test.go): open, one claimant allowed, claim deadline seven days
ahead (the clock reads 0, time is counted in hours), escrow locked. -/
def testTask : Task :=
  { ID := 1, OwnerID := 10, Title := "Test Task", Description := "Test",
    RewardAmount := 100, MaxClaimants := 1, ClaimDeadline := 168, OwnerDeadline := 720,
    Status := TaskStatus.Open, EscrowLocked := true, CreatedAt := 0, UpdatedAt := 0 }

/-- Tables holding the single task `t` and nothing else. -/
def soleTask (t : Task) : Store :=
  { tasks := [t], claims := [], ledger := [], users := [], chats := [] }

/-- The test task with the escrow flag cleared, so that the first claim is accepted, and
with `k` claimants allowed. -/
def openTask (k : Int) : Task :=
  { testTask with EscrowLocked := false, MaxClaimants := k }

/-- The claim that `ClaimTask` creates for `claimer` on the test task when the next
identifier is `id` and the clock reads `now`. -/
def newClaim (id claimer : UUID) (now : Time) : Claim :=
  { ID := id, TaskID := 1, ClaimerID := claimer, Status := ClaimStatus.Pending,
    SubmittedAt := none, CompletionText := "", CompletionImageURL := "",
    CreatedAt := now, UpdatedAt := now }

/-- The tables of `TestClaimTask`: the test task and nothing else. -/
def testStore : Store := soleTask testTask

/-- The request of Scenario A: reward 100, one claimant, claim deadline one hour ahead,
owner deadline two hours ahead (the clock reads 0, time is counted in hours). -/
def scenarioRequest : CreateTaskRequest :=
  { Title := "Test Task", Description := "Test Description", RewardAmount := 100,
    MaxClaimants := 1, ClaimDeadline := 1, OwnerDeadline := 2 }

/-- The task of Scenario B once it has been claimed: reward 100, owner 10. -/
def claimedTask : Task :=
  { ID := 1, OwnerID := 10, Title := "Test Task", Description := "Test Description",
    RewardAmount := 100, MaxClaimants := 1, ClaimDeadline := 1, OwnerDeadline := 2,
    Status := TaskStatus.Claimed, EscrowLocked := false, CreatedAt := 0, UpdatedAt := 0 }

/-- The claim of Scenario B after the claimer (user 20) submitted `text = "done"`. -/
def submittedClaim : Claim :=
  { ID := 5, TaskID := 1, ClaimerID := 20, Status := ClaimStatus.Pending,
    SubmittedAt := some 0, CompletionText := "done", CompletionImageURL := "",
    CreatedAt := 0, UpdatedAt := 0 }

/-- The tables of Scenario B before the owner approves: the claimed task, the submitted
claim, the owner (user 10) and the claimer (user 20), and an empty ledger. -/
def scenarioBStore : Store :=
  { tasks := [claimedTask], claims := [submittedClaim], ledger := [],
    users := [{ ID := 10, DeviceID := "owner", CreatedAt := 0, Reputation := 0,
                TotalEarned := 0, TotalSpent := 0 },
              { ID := 20, DeviceID := "claimer", CreatedAt := 0, Reputation := 3,
                TotalEarned := 50, TotalSpent := 0 }],
    chats := [] }

/-- Scenario B before the claimer submitted anything: the claim has no submission
timestamp and no completion text. -/
def unsubmittedStore : Store :=
  { scenarioBStore with claims :=
      [{ submittedClaim with SubmittedAt := none, CompletionText := "" }] }

/-- A world over the tables `s` in which exactly round trip number `k` fails. -/
def World.failingAt (s : Store) (firstID : UUID) (now : Time) (k : Nat) : World :=
  { store := s, faults := fun n => n == k, tick := 0,
    uuids := fun n => firstID + n, drawn := 0, now := now }

/-- Scenario B with a second claim on the same task that was cancelled earlier. -/
def cancelledClaimStore : Store :=
  { scenarioBStore with claims :=
      [submittedClaim,
       { submittedClaim with ID := 6, ClaimerID := 21, Status := ClaimStatus.Cancelled }] }

/-- The request of Scenario A with the owner deadline equal to the claim deadline. -/
def equalDeadlinesRequest : CreateTaskRequest :=
  { scenarioRequest with OwnerDeadline := 1 }

/-- A world over the tables `s` in which every round trip from number `k` on fails. -/
def World.failingFrom (s : Store) (firstID : UUID) (now : Time) (k : Nat) : World :=
  { store := s, faults := fun n => decide (k ≤ n), tick := 0,
    uuids := fun n => firstID + n, drawn := 0, now := now }

/-- No tables at all. -/
def emptyStore : Store :=
  { tasks := [], claims := [], ledger := [], users := [], chats := [] }

/-- The task of `TestAutoCancelExpiredTasks` (service/task_service_test.go): open, escrow
locked, claim deadline one hour before the clock reading 0, owner deadline one hour
after it. -/
def expiredTask : Task :=
  { ID := 1, OwnerID := 10, Title := "Test Task", Description := "Test",
    RewardAmount := 100, MaxClaimants := 1, ClaimDeadline := -1, OwnerDeadline := 1,
    Status := TaskStatus.Open, EscrowLocked := true, CreatedAt := -2, UpdatedAt := -2 }

/-- A second expired task, of another owner and with another reward. -/
def expiredTask2 : Task :=
  { expiredTask with ID := 2, OwnerID := 11, RewardAmount := 50 }

/-- The expired test task without claims next to a second expired task that is still
`Open` and has one pending claim. -/
def sweepStore : Store :=
  { tasks := [expiredTask, expiredTask2],
    claims := [{ newClaim 5 20 (-2) with TaskID := 2 }],
    ledger := [], users := [], chats := [] }

/-- Two expired tasks without claims. -/
def twoExpiredStore : Store :=
  { tasks := [expiredTask, expiredTask2], claims := [], ledger := [], users := [],
    chats := [] }

/-- Scenario B after the claim has been resolved with status `st`. -/
def resolvedStore (st : ClaimStatus) : Store :=
  { scenarioBStore with claims := [{ submittedClaim with Status := st }] }

/-- The request of Scenario A with a reward that is `NaN`. -/
def nanRewardRequest : CreateTaskRequest :=
  { scenarioRequest with RewardAmount := Amount.nan }

/-! ## What the operations do when no round trip fails -/

/-- No claim has status `Cancelled`. -/
def NoCancelledClaims (s : Store) : Prop :=
  ∀ c ∈ s.claims, c.Status ≠ ClaimStatus.Cancelled

/-- Every task has no non-`Cancelled` claim while its status is `Open`, and at most one
non-`Cancelled` claim whatever its status. -/
def OneClaimInv (s : Store) : Prop :=
  ∀ t ∈ s.tasks, (t.Status = TaskStatus.Open → (s.activeClaims t.ID).length = 0)
    ∧ (s.activeClaims t.ID).length ≤ 1

instance (s : Store) : Decidable (NoCancelledClaims s) := by
  unfold NoCancelledClaims; infer_instance

instance (s : Store) : Decidable (OneClaimInv s) := by
  unfold OneClaimInv; infer_instance

/-- The identifier that `uuid.New()` returns next is carried by no task and referenced
by no claim. -/
def FreshID (w : World) : Prop :=
  (∀ t ∈ w.store.tasks, t.ID ≠ w.uuids w.drawn)
    ∧ (∀ c ∈ w.store.claims, c.TaskID ≠ w.uuids w.drawn)

/-- What one operation does to the tasks and claims tables when no round trip fails, from
world `w` to world `w2`. -/
inductive QuietEffect (w w2 : World) : Prop
  | flags (f : Task → Task) (hf : ∀ t, (f t).ID = t.ID ∧ (f t).Status = t.Status)
      (ht : w2.store.tasks = w.store.tasks.map f) (hc : w2.store.claims = w.store.claims)
  | created (f : Task → Task) (hf : ∀ t, (f t).ID = t.ID ∧ (f t).Status = t.Status)
      (new : Task) (hid : new.ID = w.uuids w.drawn) (hst : new.Status = TaskStatus.Open)
      (hd : w.drawn < w2.drawn)
      (ht : w2.store.tasks = w.store.tasks.map f ++ [new])
      (hc : w2.store.claims = w.store.claims)
  | claimed (task : Task) (c : Claim) (hmem : task ∈ w.store.tasks)
      (hopen : task.Status = TaskStatus.Open) (hcid : c.TaskID = task.ID)
      (hcst : c.Status = ClaimStatus.Pending)
      (hcount : w.store.activeClaims task.ID = [])
      (ht : w2.store.tasks = w.store.tasks.map (fun t => if t.ID = task.ID then
        { t with Status := TaskStatus.Claimed } else t))
      (hc : w2.store.claims = w.store.claims ++ [c])
  | claimedMore (task : Task) (c : Claim) (hmem : task ∈ w.store.tasks)
      (hopen : task.Status = TaskStatus.Open) (hcid : c.TaskID = task.ID)
      (hcst : c.Status = ClaimStatus.Pending)
      (hcount : w.store.activeClaims task.ID ≠ [])
      (ht : w2.store.tasks = w.store.tasks)
      (hc : w2.store.claims = w.store.claims ++ [c])
  | claimsUpdated (g : Claim → Claim)
      (hg : ∀ c, (g c).TaskID = c.TaskID ∧ ((g c).Status = c.Status
        ∨ (g c).Status = ClaimStatus.Rejected ∨ (g c).Status = ClaimStatus.Approved))
      (ht : w2.store.tasks = w.store.tasks) (hc : w2.store.claims = w.store.claims.map g)
  | approved (g : Claim → Claim)
      (hg : ∀ c, (g c).TaskID = c.TaskID ∧ ((g c).Status = c.Status
        ∨ (g c).Status = ClaimStatus.Rejected ∨ (g c).Status = ClaimStatus.Approved))
      (claim : Claim) (hmem : claim ∈ w.store.claims)
      (ht : w2.store.tasks = w.store.tasks.map (fun t => if t.ID = claim.TaskID then
        { t with Status := TaskStatus.Completed } else t))
      (hc : w2.store.claims = w.store.claims.map g)
  | swept (cancel : UUID → Bool)
      (hcancel : ∀ id, cancel id = true →
        ∃ x ∈ w.store.tasks, x.ID = id ∧ x.Status = TaskStatus.Open)
      (ht : w2.store.tasks = w.store.tasks.map (fun t => if cancel t.ID then
        { t with Status := TaskStatus.Cancelled, EscrowLocked := false } else t))
      (hc : w2.store.claims = w.store.claims)

/-- The test task, open and unlocked, with a single claim that was cancelled. -/
def cancelledOnOpenStore : Store :=
  { soleTask (openTask 1) with
    claims := [{ newClaim 5 20 0 with Status := ClaimStatus.Cancelled }] }

/-- The world after the operations of the list have run one after another. -/
def runOps : List Op → World → World
  | [], w => w
  | op :: rest, w => runOps rest (op.run w)

/-- Every task that is `Open` or `Cancelled` has no claims. -/
def ClosedTasksUnclaimed (s : Store) : Prop :=
  ∀ t ∈ s.tasks, (t.Status = TaskStatus.Open ∨ t.Status = TaskStatus.Cancelled) →
    ∀ c ∈ s.claims, c.TaskID ≠ t.ID

/-- The identifiers that `uuid.New()` will return are distinct from one another, are
carried by no task and are referenced by no claim. -/
def FreshFrom (w : World) : Prop :=
  Function.Injective w.uuids
    ∧ ∀ n, w.drawn ≤ n →
        (∀ t ∈ w.store.tasks, t.ID ≠ w.uuids n) ∧ (∀ c ∈ w.store.claims, c.TaskID ≠ w.uuids n)

/-- Status `b` may follow status `a` when `Completed` and `Cancelled` are terminal and no
status returns to `Open`. -/
def StatusProgress (a b : TaskStatus) : Prop :=
  (a = TaskStatus.Completed → b = TaskStatus.Completed)
    ∧ (a = TaskStatus.Cancelled → b = TaskStatus.Cancelled)
    ∧ (a ≠ TaskStatus.Open → b ≠ TaskStatus.Open)

/-- What every operation leaves alone, whether round trips fail or not: the fault
schedule and the stream of identifiers; and it only draws identifiers. -/
def WorldFrame (w w2 : World) : Prop :=
  w2.faults = w.faults ∧ w2.uuids = w.uuids ∧ w.drawn ≤ w2.drawn

/-! ## Basic facts about round trips -/

@[simp] theorem dbCall_faults {α : Type} (q : Store → Except Err α × Store) (w : World) :
    (dbCall q w).2.faults = w.faults := by
  unfold dbCall; split <;> rfl

@[simp] theorem dbCall_tick {α : Type} (q : Store → Except Err α × Store) (w : World) :
    (dbCall q w).2.tick = w.tick + 1 := by
  unfold dbCall; split <;> rfl

@[simp] theorem dbCall_uuids {α : Type} (q : Store → Except Err α × Store) (w : World) :
    (dbCall q w).2.uuids = w.uuids := by
  unfold dbCall; split <;> rfl

@[simp] theorem dbCall_drawn {α : Type} (q : Store → Except Err α × Store) (w : World) :
    (dbCall q w).2.drawn = w.drawn := by
  unfold dbCall; split <;> rfl

@[simp] theorem dbCall_now {α : Type} (q : Store → Except Err α × Store) (w : World) :
    (dbCall q w).2.now = w.now := by
  unfold dbCall; split <;> rfl

@[simp] theorem uuidNew_fst (w : World) : (uuidNew w).1 = w.uuids w.drawn := rfl

@[simp] theorem uuidNew_store (w : World) : (uuidNew w).2.store = w.store := rfl

@[simp] theorem uuidNew_faults (w : World) : (uuidNew w).2.faults = w.faults := rfl

@[simp] theorem uuidNew_tick (w : World) : (uuidNew w).2.tick = w.tick := rfl

@[simp] theorem uuidNew_uuids (w : World) : (uuidNew w).2.uuids = w.uuids := rfl

@[simp] theorem uuidNew_drawn (w : World) : (uuidNew w).2.drawn = w.drawn + 1 := rfl

@[simp] theorem uuidNew_now (w : World) : (uuidNew w).2.now = w.now := rfl

/-- A read leaves the tables alone, whether the round trip fails or not. -/
@[simp] theorem dbCall_store_read {α : Type} (q : Store → Except Err α × Store) (w : World)
    (h : ∀ s, (q s).2 = s) : (dbCall q w).2.store = w.store := by
  unfold dbCall; split <;> simp [h]

@[simp] theorem dbCall_tasks {α : Type} (q : Store → Except Err α × Store) (w : World)
    (h : ∀ s, (q s).2.tasks = s.tasks) : (dbCall q w).2.store.tasks = w.store.tasks := by
  unfold dbCall; split <;> simp [h]

@[simp] theorem dbCall_claims {α : Type} (q : Store → Except Err α × Store) (w : World)
    (h : ∀ s, (q s).2.claims = s.claims) : (dbCall q w).2.store.claims = w.store.claims := by
  unfold dbCall; split <;> simp [h]

@[simp] theorem dbCall_ledger {α : Type} (q : Store → Except Err α × Store) (w : World)
    (h : ∀ s, (q s).2.ledger = s.ledger) : (dbCall q w).2.store.ledger = w.store.ledger := by
  unfold dbCall; split <;> simp [h]

@[simp] theorem dbCall_users {α : Type} (q : Store → Except Err α × Store) (w : World)
    (h : ∀ s, (q s).2.users = s.users) : (dbCall q w).2.store.users = w.store.users := by
  unfold dbCall; split <;> simp [h]

@[simp] theorem dbCall_chats {α : Type} (q : Store → Except Err α × Store) (w : World)
    (h : ∀ s, (q s).2.chats = s.chats) : (dbCall q w).2.store.chats = w.store.chats := by
  unfold dbCall; split <;> simp [h]

/-- A round trip that returned a value did not fail: the value and the tables are those
of the query. -/
theorem dbCall_ok_inv {α : Type} {q : Store → Except Err α × Store} {w : World} {a : α}
    (h : (dbCall q w).1 = Except.ok a) :
    w.faults w.tick = false ∧ (q w.store).1 = Except.ok a
      ∧ (dbCall q w).2.store = (q w.store).2 := by
  unfold dbCall at h ⊢
  split at h
  · simp at h
  · rename_i hf
    simp only [Bool.not_eq_true] at hf
    exact ⟨hf, h, by simp [hf]⟩

/-- A round trip that returned an error either failed (tables untouched) or ran a query
that reports the error. -/
theorem dbCall_error_inv {α : Type} {q : Store → Except Err α × Store} {w : World} {e : Err}
    (h : (dbCall q w).1 = Except.error e) :
    (e = Err.Internal ∧ (dbCall q w).2.store = w.store)
      ∨ ((q w.store).1 = Except.error e ∧ (dbCall q w).2.store = (q w.store).2) := by
  unfold dbCall at h ⊢
  split at h
  · rename_i hf
    left
    simp at h
    simp [hf, h]
  · rename_i hf
    right
    exact ⟨h, by simp [hf]⟩

/-- A write that returned an error failed in transit: the tables are untouched. -/
theorem dbCall_write_error {α : Type} {a : α} {g : Store → Store} {w : World} {e : Err}
    (h : (dbCall (fun s => (Except.ok a, g s)) w).1 = Except.error e) :
    e = Err.Internal ∧ (dbCall (fun s => (Except.ok a, g s)) w).2.store = w.store := by
  rcases dbCall_error_inv h with h1 | h1
  · exact h1
  · simp at h1

/-- In a world where no round trip fails, a round trip is the query. -/
theorem dbCall_quiet {α : Type} (q : Store → Except Err α × Store) (w : World)
    (h : w.faults w.tick = false) :
    dbCall q w = ((q w.store).1, { w with store := (q w.store).2, tick := w.tick + 1 }) := by
  simp [dbCall, h]

/-- A property of the tables that a query preserves survives the round trip, failed or
not. -/
theorem dbCall_preserves {α : Type} (P : Store → Prop) (q : Store → Except Err α × Store)
    (w : World) (hq : P w.store → P (q w.store).2) (h : P w.store) :
    P (dbCall q w).2.store := by
  unfold dbCall
  split
  · exact h
  · exact hq h

/-! ## What a repository call that returned tells about the tables -/

theorem taskGetByID_ok {id : UUID} {w : World} {t : Task}
    (h : (taskRepository.GetByID id w).1 = Except.ok t) :
    w.store.tasks.find? (fun t => t.ID == id) = some t := by
  have h2 := (dbCall_ok_inv h).2.1
  simp only [] at h2
  split at h2
  · rename_i heq
    simp at h2
    rw [heq, h2]
  · simp at h2

/-- A lookup by identifier that returned an error other than a failed round trip found
no row. -/
theorem taskGetByID_error {id : UUID} {w : World} {e : Err}
    (h : (taskRepository.GetByID id w).1 = Except.error e) :
    e = Err.Internal ∨ w.store.tasks.find? (fun t => t.ID == id) = none := by
  rcases dbCall_error_inv h with h1 | h1
  · exact Or.inl h1.1
  · right
    have h2 := h1.1
    simp only [] at h2
    split at h2
    · simp at h2
    · assumption

theorem claimGetByID_ok {id : UUID} {w : World} {c : Claim}
    (h : (claimRepository.GetByID id w).1 = Except.ok c) :
    w.store.claims.find? (fun c => c.ID == id) = some c := by
  have h2 := (dbCall_ok_inv h).2.1
  simp only [] at h2
  split at h2
  · rename_i heq
    simp at h2
    rw [heq, h2]
  · simp at h2

theorem claimCountByTaskID_ok {taskID : UUID} {w : World} {count : Int}
    (h : (claimRepository.CountByTaskID taskID w).1 = Except.ok count) :
    count = ((w.store.activeClaims taskID).length : Int) := by
  have h2 := (dbCall_ok_inv h).2.1
  simp only [Except.ok.injEq] at h2
  exact h2.symm

theorem claimUpdateStatus_ok {id : UUID} {st : ClaimStatus} {w : World} {x : Unit}
    (h : (claimRepository.UpdateStatus id st w).1 = Except.ok x) :
    (claimRepository.UpdateStatus id st w).2.store = w.store.setClaimStatus id st :=
  (dbCall_ok_inv h).2.2

theorem SetEscrowLocked_ok {id : UUID} {b : Bool} {w : World} {x : Unit}
    (h : (taskRepository.SetEscrowLocked id b w).1 = Except.ok x) :
    (taskRepository.SetEscrowLocked id b w).2.store = w.store.setEscrowLocked id b :=
  (dbCall_ok_inv h).2.2

theorem taskCreate_ok {task row : Task} {w : World}
    (h : (taskRepository.Create task w).1 = Except.ok row) :
    row = { task with CreatedAt := w.now, UpdatedAt := w.now }
      ∧ (taskRepository.Create task w).2.store = w.store.insertTask row := by
  have h2 := dbCall_ok_inv h
  simp only [Except.ok.injEq] at h2
  refine ⟨h2.2.1.symm, ?_⟩
  rw [h2.2.2, ← h2.2.1]

/-! ## Lists: lookups and counts after updates -/

/-- Looking a key up after an update that keeps keys finds the updated row. -/
theorem find?_map_key {α : Type} (key : α → UUID) (f : α → α) (hk : ∀ a, key (f a) = key a)
    (l : List α) (id : UUID) :
    (l.map f).find? (fun a => key a == id) = (l.find? (fun a => key a == id)).map f := by
  induction l with
  | nil => rfl
  | cons a l ih =>
    simp only [List.map_cons, List.find?_cons, hk]
    split <;> simp [ih]

/-- An update that fixes every row of a table leaves the table as it was. -/
theorem map_eq_self_of_forall {α : Type} (f : α → α) (l : List α)
    (h : ∀ a ∈ l, f a = a) : l.map f = l := by
  induction l with
  | nil => rfl
  | cons a l ih =>
    have ha : f a = a := h a (List.mem_cons_self a l)
    have hl : ∀ b ∈ l, f b = b := fun b hb => h b (List.mem_cons_of_mem a hb)
    simp [ha, ih hl]

/-- The row found by identifier carries that identifier. -/
theorem task_id_of_find {l : List Task} {id : UUID} {t : Task}
    (h : l.find? (fun t => t.ID == id) = some t) : t.ID = id := by
  simpa using List.find?_some h

theorem claim_id_of_find {l : List Claim} {id : UUID} {c : Claim}
    (h : l.find? (fun c => c.ID == id) = some c) : c.ID = id := by
  simpa using List.find?_some h

/-- Counting the rows that satisfy `p` is not affected by an update that keeps `p`. -/
theorem length_filter_map {α : Type} (p : α → Bool) (f : α → α) (hp : ∀ a, p (f a) = p a)
    (l : List α) : ((l.map f).filter p).length = (l.filter p).length := by
  induction l with
  | nil => rfl
  | cons a l ih =>
    simp only [List.map_cons, List.filter_cons, hp]
    split <;> simp [ih]

/-- Counting the rows that satisfy `p` is not affected by an update that keeps `p` on the
rows of the table. -/
theorem length_filter_map_of_mem {α : Type} (p : α → Bool) (f : α → α) (l : List α)
    (hp : ∀ a ∈ l, p (f a) = p a) : ((l.map f).filter p).length = (l.filter p).length := by
  induction l with
  | nil => rfl
  | cons a l ih =>
    have ha : p (f a) = p a := hp a (List.mem_cons_self a l)
    have hl : ∀ b ∈ l, p (f b) = p b := fun b hb => hp b (List.mem_cons_of_mem a hb)
    simp only [List.map_cons, List.filter_cons, ha]
    split <;> simp [ih hl]

/-- With unique task identifiers, a lookup by identifier returns the only row carrying
that identifier. -/
theorem eq_of_find_of_unique {l : List Task} {id : UUID} {task : Task}
    (hu : l.Pairwise (fun a b => a.ID ≠ b.ID))
    (hf : l.find? (fun t => t.ID == id) = some task) :
    ∀ t ∈ l, t.ID = id → t = task := by
  induction l with
  | nil => simp at hf
  | cons a l ih =>
    rw [List.pairwise_cons] at hu
    intro t ht hid
    rw [List.find?_cons] at hf
    by_cases ha : a.ID = id
    · have hb : (a.ID == id) = true := by simpa using ha
      rw [hb] at hf
      simp only [Option.some.injEq] at hf
      rcases List.mem_cons.1 ht with rfl | htl
      · exact hf
      · exact absurd (ha.trans hid.symm) (hu.1 t htl)
    · have hb : (a.ID == id) = false := by simpa using ha
      rw [hb] at hf
      rcases List.mem_cons.1 ht with rfl | htl
      · exact absurd hid ha
      · exact ih hu.2 hf t htl hid

/-! ## CanBeClaimed -/

/-- C1: `CanBeClaimed` is true exactly when the status is `Open`, `now` is strictly
before the claim deadline, and the escrow-locked flag is false. -/
theorem CanBeClaimed_iff (t : Task) (now : Time) :
    t.CanBeClaimed now = true ↔
      t.Status = TaskStatus.Open ∧ now < t.ClaimDeadline ∧ t.EscrowLocked = false := by
  simp [Task.CanBeClaimed, and_assoc]

/-! ## Claiming a task whose escrow is locked -/

/-- C2: on the input of `TestClaimTask` generalised to any task whose escrow flag is true
(alone in the tasks table, no claims, no failing round trip), for every claimer and
every clock, `ClaimTask` returns no claim and `ErrTaskNotClaimable`, and leaves the
tables as they were: the task is not claimed. -/
theorem ClaimTask_escrow_locked_not_claimable (t : Task) (claimer firstID : UUID)
    (now : Time) :
    (claimService.ClaimTask t.ID claimer
        (World.quiet (soleTask { t with EscrowLocked := true }) firstID now)).1
      = (none, some Err.ErrTaskNotClaimable)
    ∧ (claimService.ClaimTask t.ID claimer
        (World.quiet (soleTask { t with EscrowLocked := true }) firstID now)).2.store
      = soleTask { t with EscrowLocked := true } := by
  simp [claimService.ClaimTask, taskRepository.GetByID, dbCall, World.quiet,
    Task.CanBeClaimed, soleTask]

theorem LockEscrow_ok_tasks (taskID userID : UUID) (amount : Amount) (w : World)
    (h : (escrowService.LockEscrow taskID userID amount w).1 = none) :
    (escrowService.LockEscrow taskID userID amount w).2.store.tasks
      = (w.store.setEscrowLocked taskID true).tasks := by
  unfold escrowService.LockEscrow at h ⊢
  simp at h ⊢
  split at h
  · simp at h
  split at h
  · simp at h
  split at h
  · simp at h
  split at h
  · simp at h
  split at h
  · simp at h
  rename_i heq1 _ _ heq2 _ _ heq3 _ _ heq4
  simp [*, SetEscrowLocked_ok heq3]

/-- After a successful `CreateTask` the tasks table is the old one plus the new row, with
the escrow flag set on every row that carries the new identifier. -/
theorem CreateTask_ok_tasks (ownerID : UUID) (req : CreateTaskRequest) (w : World)
    (task : Task) (h : (taskService.CreateTask ownerID req w).1 = (some task, none)) :
    task.ID = w.uuids w.drawn
    ∧ (taskService.CreateTask ownerID req w).2.store.tasks
        = ((w.store.insertTask task).setEscrowLocked task.ID true).tasks := by
  revert h
  unfold taskService.CreateTask
  simp only []
  repeat' split
  all_goals intro h
  all_goals simp only [Prod.mk.injEq, Option.some.injEq, reduceCtorEq, and_false,
    false_and] at h
  rename_i hcreate _ hlock
  obtain ⟨hrow, hstore⟩ := taskCreate_ok hcreate
  have htasks := LockEscrow_ok_tasks _ _ _ _ hlock
  obtain ⟨h, _⟩ := h
  subst h
  refine ⟨by rw [hrow]; rfl, ?_⟩
  rw [htasks]
  simp only [Store.setEscrowLocked, hstore, uuidNew_store]

/-- C3: a task produced by a successful `CreateTask` (task service composed with the real
escrow service) cannot be claimed.  Whatever the clock reads and whoever the claimer is,
`ClaimTask` on the returned task's id, run on the tables that `CreateTask` left (its
first lookup not failing), returns no claim and `ErrTaskNotClaimable`, and changes no
table: the escrow lock that made the creation succeed makes `CanBeClaimed` false. -/
theorem created_task_not_claimable (ownerID : UUID) (req : CreateTaskRequest) (w : World)
    (task : Task) (h : (taskService.CreateTask ownerID req w).1 = (some task, none))
    (claimer : UUID) (w2 : World)
    (hs : w2.store = (taskService.CreateTask ownerID req w).2.store)
    (hf : w2.faults w2.tick = false) :
    (claimService.ClaimTask task.ID claimer w2).1 = (none, some Err.ErrTaskNotClaimable)
    ∧ (claimService.ClaimTask task.ID claimer w2).2.store = w2.store := by
  obtain ⟨_, htasks⟩ := CreateTask_ok_tasks ownerID req w task h
  have hfind : ∃ t, w2.store.tasks.find? (fun t => t.ID == task.ID) = some t
      ∧ t.EscrowLocked = true := by
    rw [hs, htasks]
    simp only [Store.setEscrowLocked, Store.insertTask]
    rw [find?_map_key (fun t : Task => t.ID) _ (by intro a; split <;> rfl)]
    cases hold : List.find? (fun t => t.ID == task.ID) (w.store.tasks ++ [task]) with
    | none =>
      have := List.find?_eq_none.1 hold task (by simp)
      simp at this
    | some t =>
      have hid : t.ID = task.ID := task_id_of_find hold
      exact ⟨_, rfl, by simp [hid]⟩
  obtain ⟨t, ht, hlocked⟩ := hfind
  simp [claimService.ClaimTask, taskRepository.GetByID, dbCall_quiet, hf, ht,
    Task.CanBeClaimed, hlocked]

theorem created_task_not_claimable_witness :
    (claimService.ClaimTask 1 20
        (taskService.CreateTask 10 scenarioRequest (World.quiet emptyStore 1 0)).2).1
      = (none, some Err.ErrTaskNotClaimable)
    ∧ (claimService.ClaimTask 1 20
        (taskService.CreateTask 10 scenarioRequest (World.quiet emptyStore 1 0)).2).2.store
      = (taskService.CreateTask 10 scenarioRequest (World.quiet emptyStore 1 0)).2.store :=
  created_task_not_claimable 10 scenarioRequest (World.quiet emptyStore 1 0)
    { ID := 1, OwnerID := 10, Title := "Test Task", Description := "Test Description",
      RewardAmount := 100, MaxClaimants := 1, ClaimDeadline := 1, OwnerDeadline := 2,
      Status := TaskStatus.Open, EscrowLocked := false, CreatedAt := 0, UpdatedAt := 0 }
    (by decide) 20
    (taskService.CreateTask 10 scenarioRequest (World.quiet emptyStore 1 0)).2 rfl rfl

/-! ## Claiming a task that already accepted a claim -/

/-- The first claim on the open test task with `n + 1` claimants allowed is accepted: it
returns a `Pending` claim and moves the task to `Claimed`. -/
theorem first_claim_accepted (n : Nat) (c1 : UUID) :
    claimService.ClaimTask 1 c1 (World.quiet (soleTask (openTask (n + 1))) 100 0)
      = ((some (newClaim 100 c1 0), none),
         { World.quiet
             { tasks := [{ openTask (n + 1) with Status := TaskStatus.Claimed }],
               claims := [newClaim 100 c1 0], ledger := [], users := [], chats := [] }
             100 0 with tick := 5, drawn := 1 }) := by
  have hn : ¬ ((n : Int) + 1 ≤ 0) := by omega
  simp [claimService.ClaimTask, taskRepository.GetByID, claimRepository.GetByTaskIDAndClaimerID,
    claimRepository.CountByTaskID, claimRepository.Create, taskRepository.UpdateStatus,
    dbCall_quiet, World.quiet, soleTask, openTask, testTask, newClaim, Task.CanBeClaimed,
    Store.activeClaims, hn]

/-- C4: on a task with `max_claimants = n + 1` (any `n`, so also `k = 1`) that accepted
the first claim, the next claimer (any `c2`) does not receive `ErrClaimLimitReached`
and, when `k > 1`, no `Pending` claim either: the call fails with `ErrTaskNotClaimable`,
because the first claim moved the task to `Claimed` and `CanBeClaimed` requires `Open`. -/
theorem second_claimer_not_claimable (n : Nat) (c1 c2 : UUID) :
    (claimService.ClaimTask 1 c1 (World.quiet (soleTask (openTask (n + 1))) 100 0)).1
      = (some (newClaim 100 c1 0), none)
    ∧ (claimService.ClaimTask 1 c2
        (claimService.ClaimTask 1 c1
          (World.quiet (soleTask (openTask (n + 1))) 100 0)).2).1
      = (none, some Err.ErrTaskNotClaimable) := by
  rw [first_claim_accepted]
  simp [claimService.ClaimTask, taskRepository.GetByID, dbCall_quiet, World.quiet,
    openTask, testTask, Task.CanBeClaimed]

/-! ## The claim limit -/

/-- C5 (counterexample): with one active claim and one `Cancelled` claim on a task that
allows one claimant the claim limit holds; after the owner's `RejectClaim` on the
cancelled claim (which succeeds) the task has two non-`Cancelled` claims and the limit
is broken. -/
theorem RejectClaim_breaks_claim_limit :
    ClaimLimitInv cancelledClaimStore
    ∧ (claimService.RejectClaim 6 10 (World.quiet cancelledClaimStore 100 3)).1 = none
    ∧ ¬ ClaimLimitInv
        ((Op.RejectClaim 6 10).run (World.quiet cancelledClaimStore 100 3)).store := by
  decide

/-- The claim limit only reads the tasks and claims tables. -/
theorem ClaimLimitInv_of_eq {s s2 : Store} (ht : s2.tasks = s.tasks)
    (hc : s2.claims = s.claims) (h : ClaimLimitInv s) : ClaimLimitInv s2 := by
  intro t hmem
  rw [ht] at hmem
  have := h t hmem
  simpa [Store.activeClaims, hc] using this

/-- The claim limit survives an update of task rows that keeps identifiers and
`max_claimants`. -/
theorem ClaimLimitInv_map_tasks {s s2 : Store} (f : Task → Task)
    (hf : ∀ t, (f t).ID = t.ID ∧ (f t).MaxClaimants = t.MaxClaimants)
    (ht : s2.tasks = s.tasks.map f) (hc : s2.claims = s.claims)
    (h : ClaimLimitInv s) : ClaimLimitInv s2 := by
  intro t hmem
  rw [ht, List.mem_map] at hmem
  obtain ⟨t0, hmem0, rfl⟩ := hmem
  have := h t0 hmem0
  simpa [Store.activeClaims, hc, (hf t0).1, (hf t0).2] using this

/-- The claim limit survives an update of claim rows that keeps, on every row, the task
reference and whether the claim is `Cancelled`. -/
theorem ClaimLimitInv_map_claims {s s2 : Store} (g : Claim → Claim)
    (hg : ∀ c ∈ s.claims, (g c).TaskID = c.TaskID
      ∧ ((g c).Status = ClaimStatus.Cancelled ↔ c.Status = ClaimStatus.Cancelled))
    (ht : s2.tasks = s.tasks) (hc : s2.claims = s.claims.map g)
    (h : ClaimLimitInv s) : ClaimLimitInv s2 := by
  intro t hmem
  rw [ht] at hmem
  have := h t hmem
  have hlen : (s2.activeClaims t.ID).length = (s.activeClaims t.ID).length := by
    simp only [Store.activeClaims, hc]
    apply length_filter_map_of_mem
    intro c hcm
    obtain ⟨h1, h2⟩ := hg c hcm
    by_cases hcc : c.Status = ClaimStatus.Cancelled
    · simp [h1, hcc, h2.2 hcc]
    · have hgc : (g c).Status ≠ ClaimStatus.Cancelled := fun hx => hcc (h2.1 hx)
      have e1 : ((g c).Status != ClaimStatus.Cancelled) = true := by simpa using hgc
      have e2 : (c.Status != ClaimStatus.Cancelled) = true := by simpa using hcc
      rw [h1, e1, e2]
  rw [hlen]
  exact this

/-- Round trips that touch neither the tasks nor the claims table keep the claim
limit. -/
theorem ClaimLimitInv_frame {α : Type} (q : Store → Except Err α × Store)
    (hq : ∀ s, (q s).2.tasks = s.tasks ∧ (q s).2.claims = s.claims) (w : World)
    (h : ClaimLimitInv w.store) : ClaimLimitInv (dbCall q w).2.store :=
  dbCall_preserves ClaimLimitInv q w
    (fun h0 => ClaimLimitInv_of_eq (hq w.store).1 (hq w.store).2 h0) h

theorem ClaimLimitInv_task_UpdateStatus (id : UUID) (st : TaskStatus) (w : World)
    (h : ClaimLimitInv w.store) :
    ClaimLimitInv (taskRepository.UpdateStatus id st w).2.store :=
  dbCall_preserves ClaimLimitInv _ w
    (fun h0 => ClaimLimitInv_map_tasks (s := w.store)
      (fun t => if t.ID = id then { t with Status := st } else t)
      (by intro t; dsimp only; split <;> exact ⟨rfl, rfl⟩) rfl rfl h0) h

theorem ClaimLimitInv_SetEscrowLocked (id : UUID) (b : Bool) (w : World)
    (h : ClaimLimitInv w.store) :
    ClaimLimitInv (taskRepository.SetEscrowLocked id b w).2.store :=
  dbCall_preserves ClaimLimitInv _ w
    (fun h0 => ClaimLimitInv_map_tasks (s := w.store)
      (fun t => if t.ID = id then { t with EscrowLocked := b } else t)
      (by intro t; dsimp only; split <;> exact ⟨rfl, rfl⟩) rfl rfl h0) h

theorem ClaimLimitInv_claim_SubmitCompletion (id : UUID) (text imageURL : String) (w : World)
    (h : ClaimLimitInv w.store) :
    ClaimLimitInv (claimRepository.SubmitCompletion id text imageURL w).2.store :=
  dbCall_preserves ClaimLimitInv _ w
    (fun h0 => ClaimLimitInv_map_claims (s := w.store)
      (fun c => if c.ID = id then
        { c with CompletionText := text, CompletionImageURL := imageURL,
                 SubmittedAt := some w.now } else c)
      (by intro c _; dsimp only; split <;> exact ⟨rfl, Iff.rfl⟩) rfl rfl h0) h

@[simp] theorem ReleaseEscrow_tasks (taskID userID : UUID) (amount : Amount) (w : World) :
    (escrowService.ReleaseEscrow taskID userID amount w).2.store.tasks = w.store.tasks := by
  unfold escrowService.ReleaseEscrow
  simp only []
  repeat' split
  all_goals simp

@[simp] theorem ReleaseEscrow_claims (taskID userID : UUID) (amount : Amount) (w : World) :
    (escrowService.ReleaseEscrow taskID userID amount w).2.store.claims = w.store.claims := by
  unfold escrowService.ReleaseEscrow
  simp only []
  repeat' split
  all_goals simp

@[simp] theorem ReleaseEscrow_users (taskID userID : UUID) (amount : Amount) (w : World) :
    (escrowService.ReleaseEscrow taskID userID amount w).2.store.users = w.store.users := by
  unfold escrowService.ReleaseEscrow
  simp only []
  repeat' split
  all_goals simp

@[simp] theorem ReleaseEscrow_chats (taskID userID : UUID) (amount : Amount) (w : World) :
    (escrowService.ReleaseEscrow taskID userID amount w).2.store.chats = w.store.chats := by
  unfold escrowService.ReleaseEscrow
  simp only []
  repeat' split
  all_goals simp

@[simp] theorem ReleaseEscrow_faults (taskID userID : UUID) (amount : Amount) (w : World) :
    (escrowService.ReleaseEscrow taskID userID amount w).2.faults = w.faults := by
  unfold escrowService.ReleaseEscrow
  simp only []
  repeat' split
  all_goals simp

theorem ClaimLimitInv_ReleaseEscrow (taskID userID : UUID) (amount : Amount) (w : World)
    (h : ClaimLimitInv w.store) :
    ClaimLimitInv (escrowService.ReleaseEscrow taskID userID amount w).2.store :=
  ClaimLimitInv_of_eq (by simp) (by simp) h

theorem ClaimLimitInv_LockEscrow (taskID userID : UUID) (amount : Amount) (w : World)
    (h : ClaimLimitInv w.store) :
    ClaimLimitInv (escrowService.LockEscrow taskID userID amount w).2.store := by
  unfold escrowService.LockEscrow
  simp only []
  repeat' split
  all_goals try dsimp only
  all_goals
    repeat (first
      | exact h
      | rw [uuidNew_store]
      | apply ClaimLimitInv_SetEscrowLocked
      | apply ClaimLimitInv_frame _ (fun _ => ⟨rfl, rfl⟩))

theorem ClaimLimitInv_RefundEscrow (taskID userID : UUID) (amount : Amount) (w : World)
    (h : ClaimLimitInv w.store) :
    ClaimLimitInv (escrowService.RefundEscrow taskID userID amount w).2.store := by
  unfold escrowService.RefundEscrow
  simp only []
  repeat' split
  all_goals try dsimp only
  all_goals
    repeat (first
      | exact h
      | rw [uuidNew_store]
      | apply ClaimLimitInv_SetEscrowLocked
      | apply ClaimLimitInv_frame _ (fun _ => ⟨rfl, rfl⟩))

theorem ClaimLimitInv_GetOrCreate (taskID a b : UUID) (w : World)
    (h : ClaimLimitInv w.store) :
    ClaimLimitInv (chatRepository.GetOrCreate taskID a b w).2.store := by
  unfold chatRepository.GetOrCreate
  simp only []
  repeat' split
  all_goals try dsimp only
  all_goals
    repeat (first
      | exact h
      | rw [uuidNew_store]
      | apply ClaimLimitInv_frame _ (fun _ => ⟨rfl, rfl⟩))

theorem ClaimLimitInv_SubmitCompletion (claimID userID : UUID) (text imageURL : String)
    (w : World) (h : ClaimLimitInv w.store) :
    ClaimLimitInv (claimService.SubmitCompletion claimID userID text imageURL w).2.store := by
  unfold claimService.SubmitCompletion
  simp only []
  repeat' split
  all_goals try dsimp only
  all_goals
    repeat (first
      | exact h
      | apply ClaimLimitInv_GetOrCreate
      | apply ClaimLimitInv_claim_SubmitCompletion
      | apply ClaimLimitInv_frame _ (fun _ => ⟨rfl, rfl⟩))

theorem ClaimLimitInv_autoCancelStep (task : Task) (w : World) (h : ClaimLimitInv w.store) :
    ClaimLimitInv (taskService.autoCancelStep task w).store := by
  unfold taskService.autoCancelStep
  simp only []
  repeat' split
  all_goals
    repeat (first
      | exact h
      | apply ClaimLimitInv_RefundEscrow
      | apply ClaimLimitInv_task_UpdateStatus
      | apply ClaimLimitInv_frame _ (fun _ => ⟨rfl, rfl⟩))

theorem ClaimLimitInv_autoCancelLoop (tasks : List Task) (w : World)
    (h : ClaimLimitInv w.store) :
    ClaimLimitInv (taskService.autoCancelLoop tasks w).store := by
  induction tasks generalizing w with
  | nil => exact h
  | cons task rest ih =>
    exact ih _ (ClaimLimitInv_autoCancelStep task w h)

theorem ClaimLimitInv_AutoCancelExpiredTasks (w : World) (h : ClaimLimitInv w.store) :
    ClaimLimitInv (taskService.AutoCancelExpiredTasks w).2.store := by
  unfold taskService.AutoCancelExpiredTasks
  simp only []
  split
  · exact ClaimLimitInv_frame _ (fun _ => ⟨rfl, rfl⟩) w h
  · exact ClaimLimitInv_autoCancelLoop _ _ (ClaimLimitInv_frame _ (fun _ => ⟨rfl, rfl⟩) w h)

/-- Changing the status of claims none of which was `Cancelled`, to a status other than
`Cancelled`, keeps the claim limit. -/
theorem ClaimLimitInv_claim_UpdateStatus (id : UUID) (st : ClaimStatus) (w : World)
    (hst : st ≠ ClaimStatus.Cancelled)
    (hnc : ∀ c ∈ w.store.claims, c.ID = id → c.Status ≠ ClaimStatus.Cancelled)
    (h : ClaimLimitInv w.store) :
    ClaimLimitInv (claimRepository.UpdateStatus id st w).2.store :=
  dbCall_preserves ClaimLimitInv _ w
    (fun h0 => ClaimLimitInv_map_claims (s := w.store)
      (fun c => if c.ID = id then { c with Status := st } else c)
      (by
        intro c hc
        dsimp only
        split
        · rename_i hid
          exact ⟨rfl, ⟨fun hx => absurd hx hst, fun hx => absurd hx (hnc c hc hid)⟩⟩
        · exact ⟨rfl, Iff.rfl⟩) rfl rfl h0) h

theorem ClaimLimitInv_RejectClaim (claimID ownerID : UUID) (w : World)
    (hnc : ∀ c ∈ w.store.claims, c.ID = claimID → c.Status ≠ ClaimStatus.Cancelled)
    (h : ClaimLimitInv w.store) :
    ClaimLimitInv (claimService.RejectClaim claimID ownerID w).2.store := by
  unfold claimService.RejectClaim
  simp only []
  repeat' split
  all_goals try dsimp only
  all_goals
    repeat (first
      | exact h
      | apply ClaimLimitInv_claim_UpdateStatus _ _ _ (by decide) (by simpa using hnc)
      | apply ClaimLimitInv_frame _ (fun _ => ⟨rfl, rfl⟩))

theorem ClaimLimitInv_ApproveClaim (claimID ownerID : UUID) (w : World)
    (hnc : ∀ c ∈ w.store.claims, c.ID = claimID → c.Status ≠ ClaimStatus.Cancelled)
    (h : ClaimLimitInv w.store) :
    ClaimLimitInv (claimService.ApproveClaim claimID ownerID w).2.store := by
  unfold claimService.ApproveClaim
  simp only []
  repeat' split
  all_goals try dsimp only
  all_goals
    repeat (first
      | exact h
      | apply ClaimLimitInv_claim_UpdateStatus _ _ _ (by decide) (by simpa using hnc)
      | apply ClaimLimitInv_ReleaseEscrow
      | apply ClaimLimitInv_task_UpdateStatus
      | apply ClaimLimitInv_frame _ (fun _ => ⟨rfl, rfl⟩))

/-- Inserting a claim keeps the claim limit when every task the claim refers to has room
for one more active claim. -/
theorem ClaimLimitInv_claim_Create (claim : Claim) (w : World)
    (hroom : ∀ t ∈ w.store.tasks, t.ID = claim.TaskID →
      ((w.store.activeClaims claim.TaskID).length : Int) + 1 ≤ t.MaxClaimants)
    (h : ClaimLimitInv w.store) :
    ClaimLimitInv (claimRepository.Create claim w).2.store := by
  apply dbCall_preserves ClaimLimitInv _ w _ h
  intro h0 t ht
  have hold := h0 t ht
  simp only [Store.insertClaim, Store.activeClaims, List.filter_append, List.length_append]
    at hold ⊢
  by_cases hid : t.ID = claim.TaskID
  · have hr := hroom t ht hid
    simp only [Store.activeClaims, ← hid] at hr
    have hle : (List.filter (fun c => c.TaskID == t.ID && c.Status != ClaimStatus.Cancelled)
        [{ claim with CreatedAt := w.now, UpdatedAt := w.now }]).length ≤ 1 :=
      (List.length_filter_le _ _).trans (by simp)
    omega
  · have hb : (claim.TaskID == t.ID) = false := by
      simpa using fun hx : claim.TaskID = t.ID => hid hx.symm
    simp [List.filter_cons, hb]
    exact hold

/-- What the checks of `ClaimTask` establish before the claim is inserted: every task
row carrying the identifier has room for one more active claim. -/
theorem room_for_claim {taskID : UUID} {w w2 : World} {task : Task} {count : Int}
    (hu : TaskIDsUnique w.store)
    (ht : (taskRepository.GetByID taskID w).1 = Except.ok task)
    (hc : (claimRepository.CountByTaskID taskID w2).1 = Except.ok count)
    (hw : w2.store = w.store) (hlt : ¬ count ≥ task.MaxClaimants) :
    ∀ t ∈ w.store.tasks, t.ID = taskID →
      ((w.store.activeClaims taskID).length : Int) + 1 ≤ t.MaxClaimants := by
  intro t htm hid
  have hfind := taskGetByID_ok ht
  have heq : t = task := eq_of_find_of_unique hu hfind t htm hid
  have hcount := claimCountByTaskID_ok hc
  rw [hw] at hcount
  subst heq
  omega

theorem ClaimLimitInv_ClaimTask (taskID claimerID : UUID) (w : World)
    (hu : TaskIDsUnique w.store) (h : ClaimLimitInv w.store) :
    ClaimLimitInv (claimService.ClaimTask taskID claimerID w).2.store := by
  unfold claimService.ClaimTask
  simp only []
  repeat' split
  all_goals try dsimp only
  all_goals try (
    repeat (first
      | exact h
      | apply ClaimLimitInv_frame _ (fun _ => ⟨rfl, rfl⟩)))
  · rename_i ht _ _ _ _ _ _ _ hc hlt _ _ _
    apply ClaimLimitInv_claim_Create
    · simpa using room_for_claim hu ht hc (by simp) hlt
    · simpa using h
  · rename_i ht _ _ _ _ _ _ _ hc hlt _ _ _ _ _ _ _
    apply ClaimLimitInv_task_UpdateStatus
    apply ClaimLimitInv_claim_Create
    · simpa using room_for_claim hu ht hc (by simp) hlt
    · simpa using h
  · rename_i ht _ _ _ _ _ _ _ hc hlt _ _ _ _ _ _ _
    apply ClaimLimitInv_task_UpdateStatus
    apply ClaimLimitInv_claim_Create
    · simpa using room_for_claim hu ht hc (by simp) hlt
    · simpa using h
  · rename_i ht _ _ _ _ _ _ _ hc hlt _ _ _ _
    apply ClaimLimitInv_claim_Create
    · simpa using room_for_claim hu ht hc (by simp) hlt
    · simpa using h

theorem activeClaims_of_fresh (s : Store) (id : UUID)
    (h : ∀ c ∈ s.claims, c.TaskID ≠ id) : s.activeClaims id = [] := by
  simp only [Store.activeClaims, List.filter_eq_nil_iff]
  intro c hc
  simp [h c hc]

/-- Inserting a task keeps the claim limit when the claims that already refer to its
identifier fit its `max_claimants`. -/
theorem ClaimLimitInv_task_Create (task : Task) (w : World)
    (hnew : ((w.store.activeClaims task.ID).length : Int) ≤ task.MaxClaimants)
    (h : ClaimLimitInv w.store) :
    ClaimLimitInv (taskRepository.Create task w).2.store := by
  apply dbCall_preserves ClaimLimitInv _ w _ h
  intro h0 t ht
  simp only [Store.insertTask, List.mem_append, List.mem_singleton] at ht
  rcases ht with ht | rfl
  · exact h0 t ht
  · exact hnew

theorem ClaimLimitInv_CreateTask (ownerID : UUID) (req : CreateTaskRequest) (w : World)
    (hfresh : ∀ c ∈ w.store.claims, c.TaskID ≠ w.uuids w.drawn)
    (h : ClaimLimitInv w.store) :
    ClaimLimitInv (taskService.CreateTask ownerID req w).2.store := by
  unfold taskService.CreateTask
  simp only []
  repeat' split
  all_goals try dsimp only
  all_goals try exact h
  all_goals
    rename_i hmax _ _
    try apply ClaimLimitInv_task_UpdateStatus
    try apply ClaimLimitInv_LockEscrow
    apply ClaimLimitInv_task_Create
    · rw [uuidNew_store, uuidNew_fst, activeClaims_of_fresh _ _ hfresh]
      simp only [List.length_nil, Int.Nat.cast_ofNat_Int]
      omega
    · exact h

/-- C5 (as amended): in a database whose task identifiers are unique and where the next
identifier drawn is not referenced by any claim, the claim limit (for every task, the
number of its non-`Cancelled` claims is at most its `max_claimants`) is preserved by
every operation, whatever round trips fail, except an `ApproveClaim` or `RejectClaim`
aimed at a claim whose status is `Cancelled`. -/
theorem claim_limit_preserved (op : Op) (w : World)
    (hu : TaskIDsUnique w.store)
    (hfresh : ∀ c ∈ w.store.claims, c.TaskID ≠ w.uuids w.drawn)
    (hnc : ¬ op.targetsCancelledClaim w.store)
    (h : ClaimLimitInv w.store) :
    ClaimLimitInv (op.run w).store := by
  cases op with
  | CreateTask ownerID req => exact ClaimLimitInv_CreateTask ownerID req w hfresh h
  | ClaimTask taskID claimerID => exact ClaimLimitInv_ClaimTask taskID claimerID w hu h
  | SubmitCompletion claimID userID text imageURL =>
    exact ClaimLimitInv_SubmitCompletion claimID userID text imageURL w h
  | ApproveClaim claimID ownerID =>
    exact ClaimLimitInv_ApproveClaim claimID ownerID w
      (fun c hc hid hst => hnc ⟨c, hc, hid, hst⟩) h
  | RejectClaim claimID ownerID =>
    exact ClaimLimitInv_RejectClaim claimID ownerID w
      (fun c hc hid hst => hnc ⟨c, hc, hid, hst⟩) h
  | LockEscrow taskID userID amount => exact ClaimLimitInv_LockEscrow taskID userID amount w h
  | ReleaseEscrow taskID userID amount =>
    exact ClaimLimitInv_ReleaseEscrow taskID userID amount w h
  | RefundEscrow taskID userID amount =>
    exact ClaimLimitInv_RefundEscrow taskID userID amount w h
  | AutoCancelExpiredTasks => exact ClaimLimitInv_AutoCancelExpiredTasks w h

theorem claim_limit_preserved_witness :
    ClaimLimitInv scenarioBStore
    ∧ ClaimLimitInv ((Op.RejectClaim 5 10).run (World.quiet scenarioBStore 100 3)).store :=
  ⟨by decide,
   claim_limit_preserved (Op.RejectClaim 5 10) (World.quiet scenarioBStore 100 3)
    (by unfold TaskIDsUnique; decide) (by decide)
    (by unfold Op.targetsCancelledClaim; decide) (by decide)⟩

/-! ## Claiming twice -/

/-- C6: after `ClaimTask(t, u)` has succeeded and returned a claim, a second
`ClaimTask(t, u)` by the same claimer returns no claim at all: it fails with
`ErrTaskNotClaimable` before the existing claim is looked up.  (The claims table still
holds the single row of the first call.) -/
theorem second_claim_by_same_claimer (n : Nat) (u : UUID) :
    (claimService.ClaimTask 1 u (World.quiet (soleTask (openTask (n + 1))) 100 0)).1
      = (some (newClaim 100 u 0), none)
    ∧ (claimService.ClaimTask 1 u
        (claimService.ClaimTask 1 u
          (World.quiet (soleTask (openTask (n + 1))) 100 0)).2).1
      = (none, some Err.ErrTaskNotClaimable)
    ∧ (claimService.ClaimTask 1 u
        (claimService.ClaimTask 1 u
          (World.quiet (soleTask (openTask (n + 1))) 100 0)).2).2.store.claims
      = [newClaim 100 u 0] := by
  rw [first_claim_accepted]
  simp [claimService.ClaimTask, taskRepository.GetByID, dbCall_quiet, World.quiet,
    openTask, testTask, Task.CanBeClaimed]

/-! ## Approval when no round trip fails -/

theorem ApproveClaim_quiet (claimID ownerID : UUID) (w : World) (claim : Claim)
    (task : Task)
    (hf : ∀ n, w.faults n = false)
    (hc : w.store.claims.find? (fun c => c.ID == claimID) = some claim)
    (ht : w.store.tasks.find? (fun t => t.ID == claim.TaskID) = some task)
    (hown : task.OwnerID = ownerID)
    (hsub : claim.IsSubmitted = true) :
    claimService.ApproveClaim claimID ownerID w
      = (none, { w with store := approvedStore w claim task, tick := w.tick + 9,
                        drawn := w.drawn + 1 }) := by
  have hid : task.ID = claim.TaskID := task_id_of_find ht
  have hcid : claim.ID = claimID := claim_id_of_find hc
  simp [claimService.ApproveClaim, escrowService.ReleaseEscrow, claimRepository.GetByID,
    taskRepository.GetByID, claimRepository.UpdateStatus,
    escrowRepository.CreateTransaction, escrowRepository.UpdateTransactionStatus,
    userRepository.UpdateEarnings, userRepository.UpdateReputation,
    taskRepository.UpdateStatus, uuidNew, dbCall_quiet, hf, hc, ht, hown, hsub, hid, hcid,
    approvedStore, releaseOf]

theorem approvedStore_claims (w : World) (claim : Claim) (task : Task) :
    (approvedStore w claim task).claims
      = w.store.claims.map (fun c => if c.ID = claim.ID then
          { c with Status := ClaimStatus.Approved } else c) := by
  simp [approvedStore]

theorem approvedStore_tasks (w : World) (claim : Claim) (task : Task) :
    (approvedStore w claim task).tasks
      = w.store.tasks.map (fun t => if t.ID = task.ID then
          { t with Status := TaskStatus.Completed } else t) := by
  simp [approvedStore]

theorem approvedStore_users (w : World) (claim : Claim) (task : Task) :
    (approvedStore w claim task).users
      = creditedUsers w.store.users claim.ClaimerID task.RewardAmount := by
  simp only [approvedStore, creditedUsers, Store.setTaskStatus, Store.addReputation,
    Store.addEarnings, Store.setTransactionStatus, Store.insertTransaction,
    Store.setClaimStatus, List.map_map]
  apply List.map_congr_left
  intro u _
  by_cases h : u.ID = claim.ClaimerID <;> simp [h]

theorem approvedStore_ledger (w : World) (claim : Claim) (task : Task)
    (hfresh : ∀ tx ∈ w.store.ledger, tx.ID ≠ w.uuids w.drawn) :
    (approvedStore w claim task).ledger = w.store.ledger ++ [releaseOf w claim task] := by
  simp only [approvedStore, Store.setTaskStatus, Store.addReputation,
    Store.addEarnings, Store.setTransactionStatus, Store.insertTransaction,
    Store.setClaimStatus, List.map_append]
  rw [map_eq_self_of_forall _ w.store.ledger (fun tx htx => by simp [hfresh tx htx])]
  simp [releaseOf]

/-- C7: when the owner of the claim's task approves a submitted claim and no round trip
fails, `ApproveClaim` returns no error; afterwards the claim is `Approved`, the task is
`Completed`, the ledger is the old ledger followed by exactly one new `Release`
transaction for that task with user the claimer, amount the task's reward and status
`Completed` (the identifier drawn for it being new to the ledger), and in the users
table the claimer's total earned has grown by exactly the reward and the claimer's
reputation by exactly 1, every other user being unchanged. -/
theorem ApproveClaim_settles (claimID ownerID : UUID) (w : World) (claim : Claim)
    (task : Task)
    (hf : ∀ n, w.faults n = false)
    (hc : w.store.claims.find? (fun c => c.ID == claimID) = some claim)
    (ht : w.store.tasks.find? (fun t => t.ID == claim.TaskID) = some task)
    (hown : task.OwnerID = ownerID)
    (hsub : claim.IsSubmitted = true)
    (hfresh : ∀ tx ∈ w.store.ledger, tx.ID ≠ w.uuids w.drawn) :
    (claimService.ApproveClaim claimID ownerID w).1 = none
    ∧ (claimService.ApproveClaim claimID ownerID w).2.store.claims.find?
          (fun c => c.ID == claimID)
        = some { claim with Status := ClaimStatus.Approved }
    ∧ (claimService.ApproveClaim claimID ownerID w).2.store.tasks.find?
          (fun t => t.ID == claim.TaskID)
        = some { task with Status := TaskStatus.Completed }
    ∧ (claimService.ApproveClaim claimID ownerID w).2.store.ledger
        = w.store.ledger ++
            [{ ID := w.uuids w.drawn, TaskID := claim.TaskID, UserID := claim.ClaimerID,
               Amount := task.RewardAmount,
               TransactionType := EscrowTransactionType.Release,
               Status := EscrowTransactionStatus.Completed, CreatedAt := w.now,
               CompletedAt := some w.now }]
    ∧ (claimService.ApproveClaim claimID ownerID w).2.store.users
        = w.store.users.map (fun u => if u.ID = claim.ClaimerID then
            { u with TotalEarned := u.TotalEarned + task.RewardAmount,
                     Reputation := u.Reputation + 1 } else u) := by
  have hid : task.ID = claim.TaskID := task_id_of_find ht
  have hcid : claim.ID = claimID := claim_id_of_find hc
  rw [ApproveClaim_quiet claimID ownerID w claim task hf hc ht hown hsub]
  refine ⟨rfl, ?_, ?_, ?_, ?_⟩
  · show (approvedStore w claim task).claims.find? _ = _
    rw [approvedStore_claims, hcid,
      find?_map_key (fun c : Claim => c.ID) _ (by intro a; split <;> rfl), hc]
    simp [hcid]
  · show (approvedStore w claim task).tasks.find? _ = _
    rw [approvedStore_tasks, hid,
      find?_map_key (fun t : Task => t.ID) _ (by intro a; split <;> rfl), ht]
    simp [hid]
  · show (approvedStore w claim task).ledger = _
    rw [approvedStore_ledger w claim task hfresh]
    simp [releaseOf, hid]
  · show (approvedStore w claim task).users = _
    rw [approvedStore_users]
    rfl

theorem ApproveClaim_settles_witness :
    (claimService.ApproveClaim 5 10 (World.quiet scenarioBStore 100 3)).1 = none
    ∧ (claimService.ApproveClaim 5 10 (World.quiet scenarioBStore 100 3)).2.store.claims.find?
          (fun c => c.ID == 5)
        = some { submittedClaim with Status := ClaimStatus.Approved }
    ∧ (claimService.ApproveClaim 5 10 (World.quiet scenarioBStore 100 3)).2.store.tasks.find?
          (fun t => t.ID == submittedClaim.TaskID)
        = some { claimedTask with Status := TaskStatus.Completed }
    ∧ (claimService.ApproveClaim 5 10 (World.quiet scenarioBStore 100 3)).2.store.ledger
        = [{ ID := 100, TaskID := 1, UserID := 20, Amount := 100,
             TransactionType := EscrowTransactionType.Release,
             Status := EscrowTransactionStatus.Completed, CreatedAt := 3,
             CompletedAt := some 3 }]
    ∧ (claimService.ApproveClaim 5 10 (World.quiet scenarioBStore 100 3)).2.store.users
        = [{ ID := 10, DeviceID := "owner", CreatedAt := 0, Reputation := 0,
             TotalEarned := 0, TotalSpent := 0 },
           { ID := 20, DeviceID := "claimer", CreatedAt := 0, Reputation := 4,
             TotalEarned := 150, TotalSpent := 0 }] :=
  ApproveClaim_settles 5 10 (World.quiet scenarioBStore 100 3) submittedClaim claimedTask
    (fun _ => rfl) (by decide) (by decide) (by decide) (by decide) (by decide)

/-! ## Repeated approval -/

/-- C8 (counterexample): in Scenario B two successive `ApproveClaim` calls by the owner
both succeed, and afterwards the ledger holds two `Release` transactions for the task
and the claimer has been credited twice (earnings 50 + 200, reputation 3 + 2). -/
theorem ApproveClaim_twice_releases_twice :
    (claimService.ApproveClaim 5 10
        (approveTimes 5 10 1 (World.quiet scenarioBStore 100 3))).1 = none
    ∧ (releasesFor (approveTimes 5 10 2 (World.quiet scenarioBStore 100 3)).store 1).length
        = 2
    ∧ (approveTimes 5 10 2 (World.quiet scenarioBStore 100 3)).store.users
        = [{ ID := 10, DeviceID := "owner", CreatedAt := 0, Reputation := 0,
             TotalEarned := 0, TotalSpent := 0 },
           { ID := 20, DeviceID := "claimer", CreatedAt := 0, Reputation := 5,
             TotalEarned := 250, TotalSpent := 0 }] := by
  decide

theorem releasesFor_approvedStore (w : World) (claim : Claim) (task : Task) :
    (releasesFor (approvedStore w claim task) task.ID).length
      = (releasesFor w.store task.ID).length + 1 := by
  simp only [releasesFor, approvedStore, Store.setTaskStatus, Store.addReputation,
    Store.addEarnings, Store.setTransactionStatus, Store.insertTransaction,
    Store.setClaimStatus]
  rw [length_filter_map _ _ (by intro tx; split <;> rfl)]
  simp [releaseOf]

theorem Amount_add_zero (a : Amount) : a + 0 = a := by
  cases a with
  | num v => show Amount.num (v + 0) = Amount.num v; rw [Int.add_zero]
  | nan => rfl

theorem Amount_add_comm (a b : Amount) : a + b = b + a := by
  cases a <;> cases b <;> first
    | rfl
    | (rename_i x y; show Amount.num (x + y) = Amount.num (y + x); rw [Int.add_comm])

theorem Amount_add_assoc (a b c : Amount) : a + b + c = a + (b + c) := by
  cases a <;> cases b <;> cases c <;> first
    | rfl
    | (rename_i x y z
       show Amount.num (x + y + z) = Amount.num (x + (y + z))
       rw [Int.add_assoc])

/-- A count times an amount is the sum of that many copies of it. -/
theorem Amount_count_mul (n : Nat) (a : Amount) : ((n : Nat) : Int) * a = Amount.times n a := by
  show Amount.times (Int.toNat (n : Int)) a = _
  rw [Int.toNat_ofNat]

/-- On numbers, a count times an amount is the product. -/
theorem Amount_count_mul_num (n : Nat) (v : Int) :
    ((n : Nat) : Int) * Amount.num v = Amount.num ((n : Int) * v) := by
  rw [Amount_count_mul]
  induction n with
  | zero => show Amount.num 0 = Amount.num (((0 : Nat) : Int) * v); simp
  | succ k ih =>
    show Amount.times k (Amount.num v) + Amount.num v = _
    rw [ih]
    show Amount.num ((k : Int) * v + v) = _
    congr 1
    push_cast
    ring

theorem creditedUsers_twice (users : List User) (claimer : UUID) (amount : Amount) (n : Nat) :
    (creditedUsers users claimer amount).map (fun u => if u.ID = claimer then
        { u with TotalEarned := u.TotalEarned + (n : Int) * amount,
                 Reputation := u.Reputation + (n : Int) } else u)
      = users.map (fun u => if u.ID = claimer then
        { u with TotalEarned := u.TotalEarned + ((n + 1 : Nat) : Int) * amount,
                 Reputation := u.Reputation + ((n + 1 : Nat) : Int) } else u) := by
  simp only [creditedUsers, List.map_map]
  apply List.map_congr_left
  intro u _
  by_cases h : u.ID = claimer
  · simp only [Function.comp, h, if_true]
    congr 1
    · push_cast; ring
    · rw [Amount_count_mul, Amount_count_mul]
      show u.TotalEarned + amount + Amount.times n amount
        = u.TotalEarned + (Amount.times n amount + amount)
      rw [Amount_add_assoc, Amount_add_comm amount]
  · simp [Function.comp, h]

theorem approvedStore_find_claim (w : World) (claim : Claim) (task : Task) (claimID : UUID)
    (hc : w.store.claims.find? (fun c => c.ID == claimID) = some claim) :
    (approvedStore w claim task).claims.find? (fun c => c.ID == claimID)
      = some { claim with Status := ClaimStatus.Approved } := by
  have hcid : claim.ID = claimID := claim_id_of_find hc
  rw [approvedStore_claims, hcid,
    find?_map_key (fun c : Claim => c.ID) _ (by intro a; split <;> rfl), hc]
  simp [hcid]

theorem approvedStore_find_task (w : World) (claim : Claim) (task : Task)
    (ht : w.store.tasks.find? (fun t => t.ID == claim.TaskID) = some task) :
    (approvedStore w claim task).tasks.find? (fun t => t.ID == claim.TaskID)
      = some { task with Status := TaskStatus.Completed } := by
  have hid : task.ID = claim.TaskID := task_id_of_find ht
  rw [approvedStore_tasks, hid,
    find?_map_key (fun t : Task => t.ID) _ (by intro a; split <;> rfl), ht]
  simp [hid]

/-- C8 (as amended): `ApproveClaim` does not look at the claim's status, so every call by
the task's owner on a submitted claim settles again.  When no round trip fails, after
`n` successive calls the next call succeeds as well, the ledger holds `n` more `Release`
transactions for the claim's task than before, and the claimer's total earned has grown
by `n` times the reward and the claimer's reputation by `n`. -/
theorem ApproveClaim_repeated (n : Nat) (claimID ownerID : UUID) (w : World) (claim : Claim)
    (task : Task)
    (hf : ∀ k, w.faults k = false)
    (hc : w.store.claims.find? (fun c => c.ID == claimID) = some claim)
    (ht : w.store.tasks.find? (fun t => t.ID == claim.TaskID) = some task)
    (hown : task.OwnerID = ownerID)
    (hsub : claim.IsSubmitted = true) :
    (claimService.ApproveClaim claimID ownerID (approveTimes claimID ownerID n w)).1 = none
    ∧ (releasesFor (approveTimes claimID ownerID n w).store claim.TaskID).length
        = (releasesFor w.store claim.TaskID).length + n
    ∧ (approveTimes claimID ownerID n w).store.users
        = w.store.users.map (fun u => if u.ID = claim.ClaimerID then
            { u with TotalEarned := u.TotalEarned + (n : Int) * task.RewardAmount,
                     Reputation := u.Reputation + (n : Int) } else u) := by
  induction n generalizing w claim task with
  | zero =>
    refine ⟨?_, rfl, ?_⟩
    · simp [approveTimes, ApproveClaim_quiet claimID ownerID w claim task hf hc ht hown hsub]
    · simp only [approveTimes]
      rw [map_eq_self_of_forall]
      intro u _
      split
      · have h0 : ((0 : Nat) : Int) * task.RewardAmount = 0 := Amount_count_mul 0 _
        rw [h0, Amount_add_zero]
        simp
      · rfl
  | succ n ih =>
    have hid : task.ID = claim.TaskID := task_id_of_find ht
    have hstep := ApproveClaim_quiet claimID ownerID w claim task hf hc ht hown hsub
    have hw : approveTimes claimID ownerID (n + 1) w
        = approveTimes claimID ownerID n
            { w with store := approvedStore w claim task, tick := w.tick + 9,
                     drawn := w.drawn + 1 } := by
      simp only [approveTimes, hstep]
    have ih2 := ih { w with store := approvedStore w claim task, tick := w.tick + 9,
                            drawn := w.drawn + 1 }
      { claim with Status := ClaimStatus.Approved }
      { task with Status := TaskStatus.Completed }
      hf (approvedStore_find_claim w claim task claimID hc)
      (approvedStore_find_task w claim task ht) hown hsub
    rw [hw]
    refine ⟨ih2.1, ?_, ?_⟩
    · rw [ih2.2.1]
      show (releasesFor (approvedStore w claim task) claim.TaskID).length + n = _
      rw [← hid, releasesFor_approvedStore]
      omega
    · rw [ih2.2.2]
      show List.map _ (approvedStore w claim task).users = _
      rw [approvedStore_users]
      exact creditedUsers_twice w.store.users claim.ClaimerID task.RewardAmount n

theorem ApproveClaim_repeated_witness :
    (claimService.ApproveClaim 5 10
        (approveTimes 5 10 3 (World.quiet scenarioBStore 100 3))).1 = none
    ∧ (releasesFor (approveTimes 5 10 3 (World.quiet scenarioBStore 100 3)).store
          submittedClaim.TaskID).length
        = (releasesFor (World.quiet scenarioBStore 100 3).store submittedClaim.TaskID).length
          + 3
    ∧ (approveTimes 5 10 3 (World.quiet scenarioBStore 100 3)).store.users
        = (World.quiet scenarioBStore 100 3).store.users.map
            (fun u => if u.ID = submittedClaim.ClaimerID then
              { u with TotalEarned := u.TotalEarned + ((3 : Nat) : Int) * claimedTask.RewardAmount,
                       Reputation := u.Reputation + ((3 : Nat) : Int) } else u) :=
  ApproveClaim_repeated 3 5 10 (World.quiet scenarioBStore 100 3) submittedClaim claimedTask
    (fun _ => rfl) (by decide) (by decide) (by decide) (by decide)

/-! ## Approval that fails -/

/-- C9 (counterexample): in Scenario B, when the fifth round trip of `ApproveClaim` (the
insertion of the `Release` transaction) fails, `ApproveClaim` returns an error and yet
the claim's status has changed from `Pending` to `Approved`. -/
theorem ApproveClaim_not_atomic :
    (claimService.ApproveClaim 5 10 (World.failingAt scenarioBStore 100 3 4)).1
      = some Err.Internal
    ∧ (claimService.ApproveClaim 5 10 (World.failingAt scenarioBStore 100 3 4)).2.store.claims
      = [{ submittedClaim with Status := ClaimStatus.Approved }]
    ∧ (claimService.ApproveClaim 5 10 (World.failingAt scenarioBStore 100 3 4)).2.store
      ≠ scenarioBStore := by
  decide

theorem ReleaseEscrow_error {taskID userID : UUID} {amount : Amount} {w : World} {e : Err}
    (h : (escrowService.ReleaseEscrow taskID userID amount w).1 = some e) :
    e = Err.Internal ∨ w.store.tasks.find? (fun t => t.ID == taskID) = none := by
  unfold escrowService.ReleaseEscrow at h
  simp only [] at h
  split at h
  · rename_i heq
    simp at h
    subst h
    exact taskGetByID_error heq
  split at h
  · rename_i heq
    simp at h
    subst h
    exact Or.inl (dbCall_write_error heq).1
  split at h
  · rename_i heq
    simp at h
    subst h
    exact Or.inl (dbCall_write_error heq).1
  · simp at h

/-- C9 (as amended): whenever `ApproveClaim` returns an error, the tasks table (hence the
task's status) is exactly as before the call; when the error is not a failed round trip
(`ErrClaimNotFound`, `ErrUnauthorized`, "claim has not been submitted", or the task row
is missing) all tables are exactly as before; and in every case either all tables are as
before, or the claims table is the old one with the claim marked `Approved` (the writes
made before the failing round trip stay in place). -/
theorem ApproveClaim_error_effects (claimID ownerID : UUID) (w : World) (e : Err)
    (h : (claimService.ApproveClaim claimID ownerID w).1 = some e) :
    (claimService.ApproveClaim claimID ownerID w).2.store.tasks = w.store.tasks
    ∧ (e ≠ Err.Internal → (claimService.ApproveClaim claimID ownerID w).2.store = w.store)
    ∧ ((claimService.ApproveClaim claimID ownerID w).2.store = w.store
        ∨ (claimService.ApproveClaim claimID ownerID w).2.store.claims
            = (w.store.setClaimStatus claimID ClaimStatus.Approved).claims) := by
  revert h
  unfold claimService.ApproveClaim
  simp only []
  repeat' split
  all_goals intro h
  all_goals simp only [Option.some.injEq] at h
  all_goals try subst h
  all_goals try (simp; done)
  · rename_i heq
    have hw := dbCall_write_error heq
    simp [hw.1, hw.2]
  · rename_i ht _ _ _ _ hu _ _ heq
    have hu2 := claimUpdateStatus_ok hu
    rcases ReleaseEscrow_error heq with h1 | h1
    · simp [h1, hu2]
    · have ht2 := taskGetByID_ok ht
      have hid := task_id_of_find ht2
      simp [hid] at h1 ht2
      exact absurd (task_id_of_find ht2) (h1 _ (List.mem_of_find?_eq_some ht2))
  · rename_i hu _ _ _ _ heq
    have hu2 := claimUpdateStatus_ok hu
    have hw := dbCall_write_error heq
    simp [hw.1, hw.2, hu2]
  · rename_i hu _ _ _ _ _ _ _ heq
    have hu2 := claimUpdateStatus_ok hu
    have hw := dbCall_write_error heq
    simp [hw.1, hw.2, hu2]
  · rename_i hu _ _ _ _ _ _ _ _ _ _ heq
    have hu2 := claimUpdateStatus_ok hu
    have hw := dbCall_write_error heq
    simp [hw.1, hw.2, hu2]
  · cases h

theorem ApproveClaim_error_effects_witness :
    (claimService.ApproveClaim 5 10 (World.failingAt scenarioBStore 100 3 4)).2.store.tasks
      = scenarioBStore.tasks
    ∧ (Err.Internal ≠ Err.Internal →
        (claimService.ApproveClaim 5 10 (World.failingAt scenarioBStore 100 3 4)).2.store
          = scenarioBStore)
    ∧ ((claimService.ApproveClaim 5 10 (World.failingAt scenarioBStore 100 3 4)).2.store
          = scenarioBStore
        ∨ (claimService.ApproveClaim 5 10
              (World.failingAt scenarioBStore 100 3 4)).2.store.claims
            = (scenarioBStore.setClaimStatus 5 ClaimStatus.Approved).claims) :=
  ApproveClaim_error_effects 5 10 (World.failingAt scenarioBStore 100 3 4) Err.Internal
    (by decide)

/-- C10: when the two lookups do not fail, `ApproveClaim` fails with `ErrClaimNotFound`
when no claim has the given id; with `ErrUnauthorized` when the caller is not the owner
of the claim's task, whether or not the claim is submitted; and with the error "claim
has not been submitted" when the caller is the owner but the claim lacks a submission
timestamp or has empty completion text.  In each case the tables (claims, tasks, ledger,
users, chats) are exactly as before. -/
theorem ApproveClaim_rejections (claimID ownerID : UUID) (w : World)
    (hf0 : w.faults w.tick = false) (hf1 : w.faults (w.tick + 1) = false) :
    (w.store.claims.find? (fun c => c.ID == claimID) = none →
        (claimService.ApproveClaim claimID ownerID w).1 = some Err.ErrClaimNotFound
        ∧ (claimService.ApproveClaim claimID ownerID w).2.store = w.store)
    ∧ (∀ claim task, w.store.claims.find? (fun c => c.ID == claimID) = some claim →
        w.store.tasks.find? (fun t => t.ID == claim.TaskID) = some task →
        task.OwnerID ≠ ownerID →
        (claimService.ApproveClaim claimID ownerID w).1 = some Err.ErrUnauthorized
        ∧ (claimService.ApproveClaim claimID ownerID w).2.store = w.store)
    ∧ (∀ claim task, w.store.claims.find? (fun c => c.ID == claimID) = some claim →
        w.store.tasks.find? (fun t => t.ID == claim.TaskID) = some task →
        task.OwnerID = ownerID →
        claim.SubmittedAt = none ∨ claim.CompletionText = "" →
        (claimService.ApproveClaim claimID ownerID w).1
          = some (Err.Msg "claim has not been submitted")
        ∧ (claimService.ApproveClaim claimID ownerID w).2.store = w.store) := by
  refine ⟨?_, ?_, ?_⟩
  · intro hc
    simp [claimService.ApproveClaim, claimRepository.GetByID, dbCall_quiet, hf0, hc]
  · intro claim task hc ht hown
    simp [claimService.ApproveClaim, claimRepository.GetByID, taskRepository.GetByID,
      dbCall_quiet, hf0, hf1, hc, ht, hown]
  · intro claim task hc ht hown hsub
    have hns : claim.IsSubmitted = false := by
      rcases hsub with h | h <;> simp [Claim.IsSubmitted, h]
    simp [claimService.ApproveClaim, claimRepository.GetByID, taskRepository.GetByID,
      dbCall_quiet, hf0, hf1, hc, ht, hown, hns]

theorem ApproveClaim_rejections_witness :
    ((claimService.ApproveClaim 99 10 (World.quiet scenarioBStore 100 3)).1
        = some Err.ErrClaimNotFound
      ∧ (claimService.ApproveClaim 99 10 (World.quiet scenarioBStore 100 3)).2.store
        = scenarioBStore)
    ∧ ((claimService.ApproveClaim 5 11 (World.quiet scenarioBStore 100 3)).1
        = some Err.ErrUnauthorized
      ∧ (claimService.ApproveClaim 5 11 (World.quiet scenarioBStore 100 3)).2.store
        = scenarioBStore)
    ∧ ((claimService.ApproveClaim 5 10 (World.quiet unsubmittedStore 100 3)).1
        = some (Err.Msg "claim has not been submitted")
      ∧ (claimService.ApproveClaim 5 10 (World.quiet unsubmittedStore 100 3)).2.store
        = unsubmittedStore) :=
  ⟨(ApproveClaim_rejections 99 10 (World.quiet scenarioBStore 100 3) rfl rfl).1
      (by decide),
   (ApproveClaim_rejections 5 11 (World.quiet scenarioBStore 100 3) rfl rfl).2.1
      submittedClaim claimedTask (by decide) (by decide) (by decide),
   (ApproveClaim_rejections 5 10 (World.quiet unsubmittedStore 100 3) rfl rfl).2.2
      { submittedClaim with SubmittedAt := none, CompletionText := "" } claimedTask
      (by decide) (by decide) (by decide) (Or.inl rfl)⟩

/-! ## Rejection -/

/-- C11: a `RejectClaim` that returns no error leaves the tasks table (status and escrow
flag of every task), the ledger, the users and the chats exactly as they were, and
changes the claims table only by setting the status of the claim with the given id to
`Rejected`, every other claim being unchanged.  When the three round trips do not fail,
the claim exists and the caller owns its task, the call does return no error and the
claim is then `Rejected`.  When the claim is absent the call fails with
`ErrClaimNotFound`, and when the caller is not the task's owner it fails with
`ErrUnauthorized`, the tables being unchanged in both cases. -/
theorem RejectClaim_effects (claimID ownerID : UUID) (w : World) :
    ((claimService.RejectClaim claimID ownerID w).1 = none →
        (claimService.RejectClaim claimID ownerID w).2.store.tasks = w.store.tasks
        ∧ (claimService.RejectClaim claimID ownerID w).2.store.ledger = w.store.ledger
        ∧ (claimService.RejectClaim claimID ownerID w).2.store.users = w.store.users
        ∧ (claimService.RejectClaim claimID ownerID w).2.store.chats = w.store.chats
        ∧ (claimService.RejectClaim claimID ownerID w).2.store.claims
            = w.store.claims.map (fun c => if c.ID = claimID then
                { c with Status := ClaimStatus.Rejected } else c))
    ∧ (∀ claim task, w.faults w.tick = false → w.faults (w.tick + 1) = false →
        w.faults (w.tick + 2) = false →
        w.store.claims.find? (fun c => c.ID == claimID) = some claim →
        w.store.tasks.find? (fun t => t.ID == claim.TaskID) = some task →
        task.OwnerID = ownerID →
        (claimService.RejectClaim claimID ownerID w).1 = none
        ∧ (claimService.RejectClaim claimID ownerID w).2.store.claims.find?
              (fun c => c.ID == claimID)
            = some { claim with Status := ClaimStatus.Rejected })
    ∧ (w.faults w.tick = false →
        w.store.claims.find? (fun c => c.ID == claimID) = none →
        (claimService.RejectClaim claimID ownerID w).1 = some Err.ErrClaimNotFound
        ∧ (claimService.RejectClaim claimID ownerID w).2.store = w.store)
    ∧ (∀ claim task, w.faults w.tick = false → w.faults (w.tick + 1) = false →
        w.store.claims.find? (fun c => c.ID == claimID) = some claim →
        w.store.tasks.find? (fun t => t.ID == claim.TaskID) = some task →
        task.OwnerID ≠ ownerID →
        (claimService.RejectClaim claimID ownerID w).1 = some Err.ErrUnauthorized
        ∧ (claimService.RejectClaim claimID ownerID w).2.store = w.store) := by
  refine ⟨?_, ?_, ?_, ?_⟩
  · unfold claimService.RejectClaim
    simp only []
    repeat' split
    all_goals intro h
    all_goals simp only [reduceCtorEq] at h
    rename_i hu
    have hu2 := claimUpdateStatus_ok hu
    simp [hu2]
  · intro claim task hf0 hf1 hf2 hc ht hown
    have hcid : claim.ID = claimID := claim_id_of_find hc
    simp only [claimService.RejectClaim, claimRepository.GetByID, taskRepository.GetByID,
      claimRepository.UpdateStatus, dbCall_quiet, hf0, hf1, hf2, hc, ht, hown]
    simp only [ne_eq, not_true_eq_false, if_false, Store.setClaimStatus, true_and]
    rw [find?_map_key (fun c : Claim => c.ID) _ (by intro a; split <;> rfl), hc]
    simp [hcid]
  · intro hf0 hc
    simp [claimService.RejectClaim, claimRepository.GetByID, dbCall_quiet, hf0, hc]
  · intro claim task hf0 hf1 hc ht hown
    simp [claimService.RejectClaim, claimRepository.GetByID, taskRepository.GetByID,
      dbCall_quiet, hf0, hf1, hc, ht, hown]

theorem RejectClaim_effects_witness :
    ((claimService.RejectClaim 5 10 (World.quiet scenarioBStore 100 3)).2.store.tasks
        = scenarioBStore.tasks
      ∧ (claimService.RejectClaim 5 10 (World.quiet scenarioBStore 100 3)).2.store.ledger
        = scenarioBStore.ledger
      ∧ (claimService.RejectClaim 5 10 (World.quiet scenarioBStore 100 3)).2.store.users
        = scenarioBStore.users
      ∧ (claimService.RejectClaim 5 10 (World.quiet scenarioBStore 100 3)).2.store.chats
        = scenarioBStore.chats
      ∧ (claimService.RejectClaim 5 10 (World.quiet scenarioBStore 100 3)).2.store.claims
        = scenarioBStore.claims.map (fun c => if c.ID = 5 then
            { c with Status := ClaimStatus.Rejected } else c))
    ∧ ((claimService.RejectClaim 5 10 (World.quiet scenarioBStore 100 3)).1 = none
      ∧ (claimService.RejectClaim 5 10 (World.quiet scenarioBStore 100 3)).2.store.claims.find?
            (fun c => c.ID == 5)
          = some { submittedClaim with Status := ClaimStatus.Rejected })
    ∧ ((claimService.RejectClaim 99 10 (World.quiet scenarioBStore 100 3)).1
        = some Err.ErrClaimNotFound
      ∧ (claimService.RejectClaim 99 10 (World.quiet scenarioBStore 100 3)).2.store
        = scenarioBStore)
    ∧ ((claimService.RejectClaim 5 11 (World.quiet scenarioBStore 100 3)).1
        = some Err.ErrUnauthorized
      ∧ (claimService.RejectClaim 5 11 (World.quiet scenarioBStore 100 3)).2.store
        = scenarioBStore) :=
  ⟨(RejectClaim_effects 5 10 (World.quiet scenarioBStore 100 3)).1 (by decide),
   (RejectClaim_effects 5 10 (World.quiet scenarioBStore 100 3)).2.1
      submittedClaim claimedTask rfl rfl rfl (by decide) (by decide) (by decide),
   (RejectClaim_effects 99 10 (World.quiet scenarioBStore 100 3)).2.2.1 rfl (by decide),
   (RejectClaim_effects 5 11 (World.quiet scenarioBStore 100 3)).2.2.2
      submittedClaim claimedTask rfl rfl (by decide) (by decide) (by decide)⟩

/-! ## The ledger operations -/

/-- Inserting a transaction under an identifier new to the ledger and then marking that
identifier completed leaves the old ledger followed by the completed transaction. -/
theorem ledger_insert_complete (s : Store) (tx : EscrowTransaction) (now : Time)
    (hfresh : ∀ t ∈ s.ledger, t.ID ≠ tx.ID) :
    ((s.insertTransaction tx).setTransactionStatus tx.ID
        EscrowTransactionStatus.Completed now).ledger
      = s.ledger ++ [{ tx with Status := EscrowTransactionStatus.Completed,
                               CompletedAt := some now }] := by
  simp only [Store.insertTransaction, Store.setTransactionStatus, List.map_append]
  rw [map_eq_self_of_forall _ s.ledger (fun t ht => by simp [hfresh t ht])]
  simp

theorem createTransaction_ok {tx row : EscrowTransaction} {w : World}
    (h : (escrowRepository.CreateTransaction tx w).1 = Except.ok row) :
    (escrowRepository.CreateTransaction tx w).2.store
      = w.store.insertTransaction { tx with CreatedAt := w.now } :=
  (dbCall_ok_inv h).2.2

theorem updateTransactionStatus_ok {id : UUID} {st : EscrowTransactionStatus} {w : World}
    {x : Unit} (h : (escrowRepository.UpdateTransactionStatus id st w).1 = Except.ok x) :
    (escrowRepository.UpdateTransactionStatus id st w).2.store
      = w.store.setTransactionStatus id st w.now :=
  (dbCall_ok_inv h).2.2

/-- C12: `LockEscrow` on a task whose escrow flag is already true fails with
`ErrEscrowAlreadyLocked` and changes no table (no transaction appended, no flag changed).
On an existing task whose flag is false, with no failing round trip (and the drawn
identifier new to the ledger), it returns no error, the ledger is the old one followed
by exactly one `Lock` transaction for the given task, user and amount whose status is
`Completed`, and the task's escrow flag is true, nothing else in the tasks table and no
other table being changed. -/
theorem LockEscrow_effects (taskID userID : UUID) (amount : Amount) (w : World) :
    (∀ task, w.faults w.tick = false →
        w.store.tasks.find? (fun t => t.ID == taskID) = some task →
        task.EscrowLocked = true →
        (escrowService.LockEscrow taskID userID amount w).1
          = some Err.ErrEscrowAlreadyLocked
        ∧ (escrowService.LockEscrow taskID userID amount w).2.store = w.store)
    ∧ (∀ task, (∀ n, w.faults n = false) →
        w.store.tasks.find? (fun t => t.ID == taskID) = some task →
        task.EscrowLocked = false →
        (∀ tx ∈ w.store.ledger, tx.ID ≠ w.uuids w.drawn) →
        (escrowService.LockEscrow taskID userID amount w).1 = none
        ∧ (escrowService.LockEscrow taskID userID amount w).2.store.ledger
            = w.store.ledger ++
                [{ ID := w.uuids w.drawn, TaskID := taskID, UserID := userID,
                   Amount := amount, TransactionType := EscrowTransactionType.Lock,
                   Status := EscrowTransactionStatus.Completed, CreatedAt := w.now,
                   CompletedAt := some w.now }]
        ∧ (escrowService.LockEscrow taskID userID amount w).2.store.tasks.find?
              (fun t => t.ID == taskID)
            = some { task with EscrowLocked := true }
        ∧ (escrowService.LockEscrow taskID userID amount w).2.store.tasks
            = w.store.tasks.map (fun t => if t.ID = taskID then
                { t with EscrowLocked := true } else t)
        ∧ (escrowService.LockEscrow taskID userID amount w).2.store.claims = w.store.claims
        ∧ (escrowService.LockEscrow taskID userID amount w).2.store.users = w.store.users)
    := by
  refine ⟨?_, ?_⟩
  · intro task hf0 ht hl
    simp [escrowService.LockEscrow, taskRepository.GetByID, dbCall_quiet, hf0, ht, hl]
  · intro task hf ht hl hfresh
    have hid : task.ID = taskID := task_id_of_find ht
    have hrun : escrowService.LockEscrow taskID userID amount w
        = (none, { w with
            store := ((w.store.insertTransaction
                { ID := w.uuids w.drawn, TaskID := taskID, UserID := userID,
                  Amount := amount, TransactionType := EscrowTransactionType.Lock,
                  Status := EscrowTransactionStatus.Pending, CreatedAt := w.now,
                  CompletedAt := none }).setEscrowLocked taskID true).setTransactionStatus
                (w.uuids w.drawn) EscrowTransactionStatus.Completed w.now,
            tick := w.tick + 4, drawn := w.drawn + 1 }) := by
      simp [escrowService.LockEscrow, taskRepository.GetByID,
        escrowRepository.CreateTransaction, taskRepository.SetEscrowLocked,
        escrowRepository.UpdateTransactionStatus, uuidNew, dbCall_quiet, hf, ht, hl]
    rw [hrun]
    refine ⟨rfl, ?_, ?_, ?_, rfl, rfl⟩
    · have := ledger_insert_complete w.store
        { ID := w.uuids w.drawn, TaskID := taskID, UserID := userID,
          Amount := amount, TransactionType := EscrowTransactionType.Lock,
          Status := EscrowTransactionStatus.Pending, CreatedAt := w.now,
          CompletedAt := none } w.now hfresh
      simpa using this
    · simp only [Store.setTransactionStatus, Store.setEscrowLocked, Store.insertTransaction]
      rw [find?_map_key (fun t : Task => t.ID) _ (by intro a; split <;> rfl), ht]
      simp [hid]
    · simp

theorem LockEscrow_effects_witness :
    ((escrowService.LockEscrow 1 10 100 (World.quiet testStore 100 3)).1
        = some Err.ErrEscrowAlreadyLocked
      ∧ (escrowService.LockEscrow 1 10 100 (World.quiet testStore 100 3)).2.store
        = testStore)
    ∧ ((escrowService.LockEscrow 1 10 100
          (World.quiet (soleTask (openTask 1)) 100 3)).1 = none
      ∧ (escrowService.LockEscrow 1 10 100
          (World.quiet (soleTask (openTask 1)) 100 3)).2.store.ledger
        = (World.quiet (soleTask (openTask 1)) 100 3).store.ledger ++
            [{ ID := 100, TaskID := 1, UserID := 10, Amount := 100,
               TransactionType := EscrowTransactionType.Lock,
               Status := EscrowTransactionStatus.Completed, CreatedAt := 3,
               CompletedAt := some 3 }]
      ∧ (escrowService.LockEscrow 1 10 100
          (World.quiet (soleTask (openTask 1)) 100 3)).2.store.tasks.find?
            (fun t => t.ID == 1)
        = some { openTask 1 with EscrowLocked := true }
      ∧ (escrowService.LockEscrow 1 10 100
          (World.quiet (soleTask (openTask 1)) 100 3)).2.store.tasks
        = (World.quiet (soleTask (openTask 1)) 100 3).store.tasks.map
            (fun t => if t.ID = 1 then { t with EscrowLocked := true } else t)
      ∧ (escrowService.LockEscrow 1 10 100
          (World.quiet (soleTask (openTask 1)) 100 3)).2.store.claims
        = (World.quiet (soleTask (openTask 1)) 100 3).store.claims
      ∧ (escrowService.LockEscrow 1 10 100
          (World.quiet (soleTask (openTask 1)) 100 3)).2.store.users
        = (World.quiet (soleTask (openTask 1)) 100 3).store.users) :=
  ⟨(LockEscrow_effects 1 10 100 (World.quiet testStore 100 3)).1 testTask rfl
      (by decide) (by decide),
   (LockEscrow_effects 1 10 100 (World.quiet (soleTask (openTask 1)) 100 3)).2
      (openTask 1) (fun _ => rfl) (by decide) (by decide) (by decide)⟩

/-- C13: a `ReleaseEscrow` that returns no error (the drawn identifier being new to the
ledger) leaves the ledger as the old one followed by exactly one `Release` transaction
for the given task, user and amount whose status is `Completed`, and leaves the tasks
table, so the escrow-locked flag and every other task field, exactly as it was. -/
theorem ReleaseEscrow_effects (taskID userID : UUID) (amount : Amount) (w : World)
    (h : (escrowService.ReleaseEscrow taskID userID amount w).1 = none)
    (hfresh : ∀ tx ∈ w.store.ledger, tx.ID ≠ w.uuids w.drawn) :
    (escrowService.ReleaseEscrow taskID userID amount w).2.store.ledger
      = w.store.ledger ++
          [{ ID := w.uuids w.drawn, TaskID := taskID, UserID := userID,
             Amount := amount, TransactionType := EscrowTransactionType.Release,
             Status := EscrowTransactionStatus.Completed, CreatedAt := w.now,
             CompletedAt := some w.now }]
    ∧ (escrowService.ReleaseEscrow taskID userID amount w).2.store.tasks = w.store.tasks := by
  refine ⟨?_, ReleaseEscrow_tasks taskID userID amount w⟩
  revert h
  unfold escrowService.ReleaseEscrow
  simp only []
  repeat' split
  all_goals intro h
  all_goals simp only [reduceCtorEq] at h
  rename_i hc _ _ hu
  have hc2 := createTransaction_ok hc
  have hu2 := updateTransactionStatus_ok hu
  show (escrowRepository.UpdateTransactionStatus _ _ _).2.store.ledger = _
  rw [hu2, hc2]
  have := ledger_insert_complete w.store
    { ID := w.uuids w.drawn, TaskID := taskID, UserID := userID,
      Amount := amount, TransactionType := EscrowTransactionType.Release,
      Status := EscrowTransactionStatus.Pending, CreatedAt := w.now,
      CompletedAt := none } w.now hfresh
  simpa using this

theorem ReleaseEscrow_effects_witness :
    (escrowService.ReleaseEscrow 1 20 100 (World.quiet scenarioBStore 100 3)).2.store.ledger
      = (World.quiet scenarioBStore 100 3).store.ledger ++
          [{ ID := 100, TaskID := 1, UserID := 20, Amount := 100,
             TransactionType := EscrowTransactionType.Release,
             Status := EscrowTransactionStatus.Completed, CreatedAt := 3,
             CompletedAt := some 3 }]
    ∧ (escrowService.ReleaseEscrow 1 20 100 (World.quiet scenarioBStore 100 3)).2.store.tasks
      = (World.quiet scenarioBStore 100 3).store.tasks :=
  ReleaseEscrow_effects 1 20 100 (World.quiet scenarioBStore 100 3) (by decide) (by decide)

/-- C14: a `RefundEscrow` that returns no error (the drawn identifier being new to the
ledger) leaves the ledger as the old one followed by exactly one `Refund` transaction
for the given task, user and amount whose status is `Completed`; afterwards the escrow
flag of the task is false whatever it was before, and nothing else in the tasks table
has changed, in particular no task's status. -/
theorem RefundEscrow_effects (taskID userID : UUID) (amount : Amount) (w : World)
    (h : (escrowService.RefundEscrow taskID userID amount w).1 = none)
    (hfresh : ∀ tx ∈ w.store.ledger, tx.ID ≠ w.uuids w.drawn) :
    (escrowService.RefundEscrow taskID userID amount w).2.store.ledger
      = w.store.ledger ++
          [{ ID := w.uuids w.drawn, TaskID := taskID, UserID := userID,
             Amount := amount, TransactionType := EscrowTransactionType.Refund,
             Status := EscrowTransactionStatus.Completed, CreatedAt := w.now,
             CompletedAt := some w.now }]
    ∧ (escrowService.RefundEscrow taskID userID amount w).2.store.tasks
        = w.store.tasks.map (fun t => if t.ID = taskID then
            { t with EscrowLocked := false } else t)
    ∧ (∀ t ∈ (escrowService.RefundEscrow taskID userID amount w).2.store.tasks,
        t.ID = taskID → t.EscrowLocked = false)
    ∧ (escrowService.RefundEscrow taskID userID amount w).2.store.tasks.map
          (fun t => (t.ID, t.Status))
        = w.store.tasks.map (fun t => (t.ID, t.Status)) := by
  have hmain : (escrowService.RefundEscrow taskID userID amount w).2.store.ledger
      = w.store.ledger ++
          [{ ID := w.uuids w.drawn, TaskID := taskID, UserID := userID,
             Amount := amount, TransactionType := EscrowTransactionType.Refund,
             Status := EscrowTransactionStatus.Completed, CreatedAt := w.now,
             CompletedAt := some w.now }]
    ∧ (escrowService.RefundEscrow taskID userID amount w).2.store.tasks
        = w.store.tasks.map (fun t => if t.ID = taskID then
            { t with EscrowLocked := false } else t) := by
    revert h
    unfold escrowService.RefundEscrow
    simp only []
    repeat' split
    all_goals intro h
    all_goals simp only [reduceCtorEq] at h
    rename_i hc _ _ hu _ _ hl
    have hc2 := createTransaction_ok hc
    have hu2 := updateTransactionStatus_ok hu
    have hl2 := SetEscrowLocked_ok hl
    show (taskRepository.SetEscrowLocked _ _ _).2.store.ledger = _
      ∧ (taskRepository.SetEscrowLocked _ _ _).2.store.tasks = _
    rw [hl2, hu2, hc2]
    have := ledger_insert_complete w.store
      { ID := w.uuids w.drawn, TaskID := taskID, UserID := userID,
        Amount := amount, TransactionType := EscrowTransactionType.Refund,
        Status := EscrowTransactionStatus.Pending, CreatedAt := w.now,
        CompletedAt := none } w.now hfresh
    refine ⟨?_, ?_⟩
    · simpa using this
    · simp
  refine ⟨hmain.1, hmain.2, ?_, ?_⟩
  · rw [hmain.2]
    intro t ht hid
    rw [List.mem_map] at ht
    obtain ⟨t0, _, rfl⟩ := ht
    split <;> simp_all
  · rw [hmain.2, List.map_map]
    apply List.map_congr_left
    intro t _
    simp only [Function.comp]
    split <;> rfl

theorem RefundEscrow_effects_witness :
    (escrowService.RefundEscrow 1 10 100 (World.quiet testStore 100 3)).2.store.ledger
      = (World.quiet testStore 100 3).store.ledger ++
          [{ ID := 100, TaskID := 1, UserID := 10, Amount := 100,
             TransactionType := EscrowTransactionType.Refund,
             Status := EscrowTransactionStatus.Completed, CreatedAt := 3,
             CompletedAt := some 3 }]
    ∧ (escrowService.RefundEscrow 1 10 100 (World.quiet testStore 100 3)).2.store.tasks
        = (World.quiet testStore 100 3).store.tasks.map (fun t => if t.ID = 1 then
            { t with EscrowLocked := false } else t)
    ∧ (∀ t ∈ (escrowService.RefundEscrow 1 10 100 (World.quiet testStore 100 3)).2.store.tasks,
        t.ID = 1 → t.EscrowLocked = false)
    ∧ (escrowService.RefundEscrow 1 10 100 (World.quiet testStore 100 3)).2.store.tasks.map
          (fun t => (t.ID, t.Status))
        = (World.quiet testStore 100 3).store.tasks.map (fun t => (t.ID, t.Status)) :=
  RefundEscrow_effects 1 10 100 (World.quiet testStore 100 3) (by decide) (by decide)

/-! ## Task creation -/

/-- The task returned by a successful `CreateTask` carries the request's fields, the
drawn identifier, status `Open` and the database's timestamps. -/
theorem CreateTask_ok_task (ownerID : UUID) (req : CreateTaskRequest) (w : World)
    (task : Task) (h : (taskService.CreateTask ownerID req w).1 = (some task, none)) :
    task = { ID := w.uuids w.drawn, OwnerID := ownerID, Title := req.Title,
             Description := req.Description, RewardAmount := req.RewardAmount,
             MaxClaimants := req.MaxClaimants, ClaimDeadline := req.ClaimDeadline,
             OwnerDeadline := req.OwnerDeadline, Status := TaskStatus.Open,
             EscrowLocked := false, CreatedAt := w.now, UpdatedAt := w.now } := by
  revert h
  unfold taskService.CreateTask
  simp only []
  repeat' split
  all_goals intro h
  all_goals simp only [Prod.mk.injEq, Option.some.injEq, reduceCtorEq, and_false,
    false_and] at h
  rename_i hcreate _ hlock
  obtain ⟨hrow, _⟩ := taskCreate_ok hcreate
  obtain ⟨h, _⟩ := h
  subst h
  rw [hrow]
  rfl

/-- C15: for every request that `CreateTask` accepts (the drawn identifier being new to
the tasks table), `GetTask` on the id of the returned task, run on the tables that
`CreateTask` left (its lookup not failing), returns with no error a task whose owner,
title, description, reward amount, max claimants, claim deadline and owner deadline are
the request's, whose status is `Open` and whose `escrow_locked` flag is true. -/
theorem CreateTask_GetTask_roundtrip (ownerID : UUID) (req : CreateTaskRequest) (w : World)
    (task : Task) (h : (taskService.CreateTask ownerID req w).1 = (some task, none))
    (hfresh : ∀ t ∈ w.store.tasks, t.ID ≠ w.uuids w.drawn)
    (w2 : World) (hs : w2.store = (taskService.CreateTask ownerID req w).2.store)
    (hf : w2.faults w2.tick = false) :
    (taskService.GetTask task.ID w2).1
      = (some { ID := task.ID, OwnerID := ownerID, Title := req.Title,
                Description := req.Description, RewardAmount := req.RewardAmount,
                MaxClaimants := req.MaxClaimants, ClaimDeadline := req.ClaimDeadline,
                OwnerDeadline := req.OwnerDeadline, Status := TaskStatus.Open,
                EscrowLocked := true, CreatedAt := w.now, UpdatedAt := w.now }, none) := by
  obtain ⟨hid, htasks⟩ := CreateTask_ok_tasks ownerID req w task h
  have htask := CreateTask_ok_task ownerID req w task h
  have hnone : w.store.tasks.find? (fun t => t.ID == task.ID) = none := by
    rw [List.find?_eq_none]
    intro t ht
    simpa [hid] using hfresh t ht
  have hfind : w2.store.tasks.find? (fun t => t.ID == task.ID)
      = some { task with EscrowLocked := true } := by
    rw [hs, htasks]
    simp only [Store.setEscrowLocked, Store.insertTask]
    rw [find?_map_key (fun t : Task => t.ID) _ (by intro a; split <;> rfl),
      List.find?_append, hnone]
    simp
  simp only [taskService.GetTask, taskRepository.GetByID, dbCall_quiet, hf, hfind]
  rw [htask]

theorem CreateTask_GetTask_roundtrip_witness :
    (taskService.GetTask 1
        (taskService.CreateTask 10 scenarioRequest (World.quiet emptyStore 1 0)).2).1
      = (some { ID := 1, OwnerID := 10, Title := "Test Task",
                Description := "Test Description", RewardAmount := 100, MaxClaimants := 1,
                ClaimDeadline := 1, OwnerDeadline := 2, Status := TaskStatus.Open,
                EscrowLocked := true, CreatedAt := 0, UpdatedAt := 0 }, none) :=
  CreateTask_GetTask_roundtrip 10 scenarioRequest (World.quiet emptyStore 1 0)
    { ID := 1, OwnerID := 10, Title := "Test Task", Description := "Test Description",
      RewardAmount := 100, MaxClaimants := 1, ClaimDeadline := 1, OwnerDeadline := 2,
      Status := TaskStatus.Open, EscrowLocked := false, CreatedAt := 0, UpdatedAt := 0 }
    (by decide) (by decide)
    (taskService.CreateTask 10 scenarioRequest (World.quiet emptyStore 1 0)).2 rfl rfl

/-- C16: `CreateTask` accepts a request whose owner deadline is equal to its claim
deadline (the check is `OwnerDeadline.Before(ClaimDeadline)`): the call returns no
error and the task it persists has `claim_deadline = owner_deadline`, so
`claim_deadline < owner_deadline` fails for an accepted, persisted task. -/
theorem CreateTask_accepts_equal_deadlines :
    (taskService.CreateTask 10 equalDeadlinesRequest (World.quiet emptyStore 1 0)).1.2 = none
    ∧ (taskService.CreateTask 10 equalDeadlinesRequest
          (World.quiet emptyStore 1 0)).2.store.tasks
        = [{ ID := 1, OwnerID := 10, Title := "Test Task",
             Description := "Test Description", RewardAmount := 100, MaxClaimants := 1,
             ClaimDeadline := 1, OwnerDeadline := 1, Status := TaskStatus.Open,
             EscrowLocked := true, CreatedAt := 0, UpdatedAt := 0 }]
    ∧ ¬ (∀ t ∈ (taskService.CreateTask 10 equalDeadlinesRequest
          (World.quiet emptyStore 1 0)).2.store.tasks, t.ClaimDeadline < t.OwnerDeadline) := by
  decide

/-- C17: a reward that is `NaN` is not greater than 0, yet it passes the check
`req.RewardAmount <= 0`, whose own error text reads "reward_amount must be positive",
because every comparison with `NaN` is false.  With the other fields of the request
valid, `CreateTask` returns the task and no error, stores the task row with the `NaN`
reward, and appends a `Lock` transaction for a `NaN` amount. -/
theorem CreateTask_accepts_nan_reward :
    ¬ (nanRewardRequest.RewardAmount > 0)
    ∧ ¬ (nanRewardRequest.RewardAmount ≤ 0)
    ∧ (taskService.CreateTask 10 nanRewardRequest (World.quiet emptyStore 1 0)).1
      = (some { ID := 1, OwnerID := 10, Title := "Test Task",
                Description := "Test Description", RewardAmount := Amount.nan,
                MaxClaimants := 1, ClaimDeadline := 1, OwnerDeadline := 2,
                Status := TaskStatus.Open, EscrowLocked := false, CreatedAt := 0,
                UpdatedAt := 0 }, none)
    ∧ (taskService.CreateTask 10 nanRewardRequest (World.quiet emptyStore 1 0)).2.store.tasks
      = [{ ID := 1, OwnerID := 10, Title := "Test Task",
           Description := "Test Description", RewardAmount := Amount.nan,
           MaxClaimants := 1, ClaimDeadline := 1, OwnerDeadline := 2,
           Status := TaskStatus.Open, EscrowLocked := true, CreatedAt := 0,
           UpdatedAt := 0 }]
    ∧ (taskService.CreateTask 10 nanRewardRequest (World.quiet emptyStore 1 0)).2.store.ledger
      = [{ ID := 2, TaskID := 1, UserID := 10, Amount := Amount.nan,
           TransactionType := EscrowTransactionType.Lock,
           Status := EscrowTransactionStatus.Completed, CreatedAt := 0,
           CompletedAt := some 0 }] := by
  decide

/-- The requests that the checks of `CreateTask` do turn away: whenever the title is empty
or longer than 500 bytes, the description is empty, the reward amount compares `<= 0`
(which a number not greater than 0 does and `NaN` does not), or max claimants is not
greater than 0, `CreateTask` returns an error and no task, and the world is exactly as
before: no round trip is made, so no task is stored and no escrow transaction is
appended. -/
theorem CreateTask_rejects_invalid (ownerID : UUID) (req : CreateTaskRequest) (w : World)
    (h : req.Title = "" ∨ req.Title.utf8ByteSize > 500 ∨ req.Description = ""
      ∨ req.RewardAmount ≤ 0 ∨ req.MaxClaimants ≤ 0) :
    (taskService.CreateTask ownerID req w).1.1 = none
    ∧ (taskService.CreateTask ownerID req w).1.2 ≠ none
    ∧ (taskService.CreateTask ownerID req w).2.store = w.store
    ∧ (taskService.CreateTask ownerID req w).2.tick = w.tick := by
  unfold taskService.CreateTask
  by_cases h1 : req.Title = "" ∨ req.Title.utf8ByteSize > 500
  · simp [h1]
  by_cases h2 : req.Description = ""
  · simp [h1, h2]
  by_cases h3 : req.RewardAmount ≤ 0
  · simp [h1, h2, h3]
  by_cases h4 : req.MaxClaimants ≤ 0
  · simp [h1, h2, h3, h4]
  · exfalso
    rcases h with h | h | h | h | h
    · exact h1 (Or.inl h)
    · exact h1 (Or.inr h)
    · exact h2 h
    · exact h3 h
    · exact h4 h

/-- A request with reward 0 is turned away. -/
theorem CreateTask_rejects_invalid_witness :
    (taskService.CreateTask 10 { scenarioRequest with RewardAmount := 0 }
        (World.quiet emptyStore 1 0)).1.1 = none
    ∧ (taskService.CreateTask 10 { scenarioRequest with RewardAmount := 0 }
        (World.quiet emptyStore 1 0)).1.2 ≠ none
    ∧ (taskService.CreateTask 10 { scenarioRequest with RewardAmount := 0 }
        (World.quiet emptyStore 1 0)).2.store = (World.quiet emptyStore 1 0).store
    ∧ (taskService.CreateTask 10 { scenarioRequest with RewardAmount := 0 }
        (World.quiet emptyStore 1 0)).2.tick = (World.quiet emptyStore 1 0).tick :=
  CreateTask_rejects_invalid 10 { scenarioRequest with RewardAmount := 0 }
    (World.quiet emptyStore 1 0) (by decide)

/-- After a round trip the tables are either untouched (it failed) or those of the
query. -/
theorem dbCall_store_cases {α : Type} (q : Store → Except Err α × Store) (w : World) :
    (dbCall q w).2.store = w.store ∨ (dbCall q w).2.store = (q w.store).2 := by
  unfold dbCall
  split
  · exact Or.inl rfl
  · exact Or.inr rfl

theorem SetEscrowLocked_task_keys (id : UUID) (b : Bool) (w : World) :
    (taskRepository.SetEscrowLocked id b w).2.store.tasks.map taskKey
      = w.store.tasks.map taskKey := by
  rcases dbCall_store_cases (fun s => (Except.ok (), s.setEscrowLocked id b)) w with h | h
  · rw [h]
  · rw [h]
    simp only [Store.setEscrowLocked, List.map_map]
    apply List.map_congr_left
    intro t _
    simp only [Function.comp]
    split <;> rfl

/-- Whether `LockEscrow` succeeds or fails, it keeps identifier, owner and title of every
task row. -/
theorem LockEscrow_task_keys (taskID userID : UUID) (amount : Amount) (w : World) :
    (escrowService.LockEscrow taskID userID amount w).2.store.tasks.map taskKey
      = w.store.tasks.map taskKey := by
  unfold escrowService.LockEscrow
  simp only []
  repeat' split
  all_goals simp [SetEscrowLocked_task_keys]

/-- C18 (counterexample): with a valid request, when every round trip after the insert
of the task row fails, the lock fails and so does the status update that should cancel
the task; `CreateTask` returns the error and no task, and the persisted task is still
`Open`. -/
theorem CreateTask_failed_rollback_leaves_open :
    (taskService.CreateTask 10 scenarioRequest (World.failingFrom emptyStore 1 0 1)).1
      = (none, some Err.Internal)
    ∧ (taskService.CreateTask 10 scenarioRequest
          (World.failingFrom emptyStore 1 0 1)).2.store.tasks
        = [{ ID := 1, OwnerID := 10, Title := "Test Task",
             Description := "Test Description", RewardAmount := 100, MaxClaimants := 1,
             ClaimDeadline := 1, OwnerDeadline := 2, Status := TaskStatus.Open,
             EscrowLocked := false, CreatedAt := 0, UpdatedAt := 0 }] := by
  decide

/-- C18 (as amended): when a request passes validation, the insert of the task row does
not fail, the escrow lock fails with error `e`, and the round trip of the status update
that follows does not fail, `CreateTask` returns `e` together with no task, and every
row carrying the new identifier, among them the row just persisted, has status
`Cancelled`. -/
theorem CreateTask_lock_failure (ownerID : UUID) (req : CreateTaskRequest) (w : World)
    (e : Err)
    (hv1 : ¬ (req.Title = "" ∨ req.Title.utf8ByteSize > 500))
    (hv2 : ¬ req.Description = "")
    (hv3 : ¬ req.RewardAmount ≤ 0)
    (hv4 : ¬ req.MaxClaimants ≤ 0)
    (hv5 : ¬ req.ClaimDeadline < w.now)
    (hv6 : ¬ req.OwnerDeadline < req.ClaimDeadline)
    (hf0 : w.faults w.tick = false)
    (hlock : (escrowService.LockEscrow (w.uuids w.drawn) ownerID req.RewardAmount
        (taskService.afterInsert ownerID req w)).1 = some e)
    (hupd : w.faults (escrowService.LockEscrow (w.uuids w.drawn) ownerID req.RewardAmount
        (taskService.afterInsert ownerID req w)).2.tick = false) :
    (taskService.CreateTask ownerID req w).1 = (none, some e)
    ∧ (∀ t ∈ (taskService.CreateTask ownerID req w).2.store.tasks,
        t.ID = w.uuids w.drawn → t.Status = TaskStatus.Cancelled)
    ∧ (∃ t ∈ (taskService.CreateTask ownerID req w).2.store.tasks,
        t.ID = w.uuids w.drawn ∧ t.OwnerID = ownerID ∧ t.Title = req.Title
        ∧ t.Status = TaskStatus.Cancelled) := by
  have hid : (uuidNew w).1 = w.uuids w.drawn := rfl
  have hcreate : (taskRepository.Create (taskService.newTask ownerID req w) (uuidNew w).2).1
      = Except.ok { taskService.newTask ownerID req w with
                      CreatedAt := w.now, UpdatedAt := w.now } := by
    simp [dbCall_quiet, hf0]
  have hins : (taskService.afterInsert ownerID req w).store.tasks
      = w.store.tasks ++ [{ taskService.newTask ownerID req w with
                              CreatedAt := w.now, UpdatedAt := w.now }] := by
    unfold taskService.afterInsert
    rw [(taskCreate_ok hcreate).2]
    simp
  have hfl : (escrowService.LockEscrow (w.uuids w.drawn) ownerID req.RewardAmount
      (taskService.afterInsert ownerID req w)).2.faults = w.faults := by
    unfold escrowService.LockEscrow taskService.afterInsert
    simp only []
    repeat' split
    all_goals simp
  have hrun : taskService.CreateTask ownerID req w
      = ((none, some e),
         (taskRepository.UpdateStatus (w.uuids w.drawn) TaskStatus.Cancelled
            (escrowService.LockEscrow (w.uuids w.drawn) ownerID req.RewardAmount
              (taskService.afterInsert ownerID req w)).2).2) := by
    unfold taskService.CreateTask
    simp only [hv1, hv2, hv3, hv4, hv5, hv6, if_false]
    simp only [taskService.afterInsert, taskService.newTask, hid] at hcreate hlock ⊢
    simp only [hcreate, hlock]
  have hfin : (taskService.CreateTask ownerID req w).2.store.tasks
      = (escrowService.LockEscrow (w.uuids w.drawn) ownerID req.RewardAmount
          (taskService.afterInsert ownerID req w)).2.store.tasks.map
          (fun t => if t.ID = w.uuids w.drawn
                    then { t with Status := TaskStatus.Cancelled } else t) := by
    rw [hrun]
    have hq : (escrowService.LockEscrow (w.uuids w.drawn) ownerID req.RewardAmount
        (taskService.afterInsert ownerID req w)).2.faults
        (escrowService.LockEscrow (w.uuids w.drawn) ownerID req.RewardAmount
        (taskService.afterInsert ownerID req w)).2.tick = false := by
      rw [hfl]; exact hupd
    simp [dbCall_quiet, hq]
  have hkey : (w.uuids w.drawn, ownerID, req.Title)
      ∈ (escrowService.LockEscrow (w.uuids w.drawn) ownerID req.RewardAmount
          (taskService.afterInsert ownerID req w)).2.store.tasks.map taskKey := by
    rw [LockEscrow_task_keys, hins]
    simp [taskKey, taskService.newTask]
  refine ⟨by rw [hrun], ?_, ?_⟩
  · intro t ht hidt
    rw [hfin, List.mem_map] at ht
    obtain ⟨t0, _, rfl⟩ := ht
    by_cases h0 : t0.ID = w.uuids w.drawn
    · simp [h0]
    · simp [h0] at hidt
  · obtain ⟨t0, ht0, hk⟩ := List.mem_map.1 hkey
    simp only [taskKey, Prod.mk.injEq] at hk
    refine ⟨{ t0 with Status := TaskStatus.Cancelled }, ?_, hk.1, hk.2.1, hk.2.2, rfl⟩
    rw [hfin, List.mem_map]
    exact ⟨t0, ht0, by simp [hk.1]⟩

/-- C18 (witness): the scenario request on an empty store where only the first round
trip of the escrow lock fails. -/
theorem CreateTask_lock_failure_witness :
    (taskService.CreateTask 7 scenarioRequest (World.failingAt emptyStore 1 0 1)).1
        = (none, some Err.Internal)
    ∧ (∀ t ∈ (taskService.CreateTask 7 scenarioRequest
          (World.failingAt emptyStore 1 0 1)).2.store.tasks,
        t.ID = (World.failingAt emptyStore 1 0 1).uuids (World.failingAt emptyStore 1 0 1).drawn
          → t.Status = TaskStatus.Cancelled)
    ∧ (∃ t ∈ (taskService.CreateTask 7 scenarioRequest
          (World.failingAt emptyStore 1 0 1)).2.store.tasks,
        t.ID = (World.failingAt emptyStore 1 0 1).uuids (World.failingAt emptyStore 1 0 1).drawn
          ∧ t.OwnerID = 7 ∧ t.Title = scenarioRequest.Title
          ∧ t.Status = TaskStatus.Cancelled) :=
  CreateTask_lock_failure 7 scenarioRequest (World.failingAt emptyStore 1 0 1) Err.Internal
    (by decide) (by decide) (by decide) (by decide) (by decide) (by decide)
    (by decide) (by decide) (by decide)

/-! ## The reconciliation pass -/

theorem autoCancelStep_faults (task : Task) (w : World) :
    (taskService.autoCancelStep task w).faults = w.faults := by
  unfold taskService.autoCancelStep escrowService.RefundEscrow
  simp only []
  repeat' split
  all_goals simp

theorem autoCancelStep_claims (task : Task) (w : World) :
    (taskService.autoCancelStep task w).store.claims = w.store.claims := by
  unfold taskService.autoCancelStep escrowService.RefundEscrow
  simp only []
  repeat' split
  all_goals simp

/-- The effect of one iteration of the pass when no round trip fails. -/
theorem autoCancelStep_quiet (task : Task) (w : World) (hq : ∀ n, w.faults n = false) :
    (taskService.autoCancelStep task w).store.tasks
        = (if (w.store.activeClaims task.ID).isEmpty then
            w.store.tasks.map (fun t => if t.ID = task.ID then
              { t with Status := TaskStatus.Cancelled, EscrowLocked := false } else t)
          else w.store.tasks)
    ∧ (taskService.autoCancelStep task w).store.ledger.map txKey
        = w.store.ledger.map txKey ++
          (if (w.store.activeClaims task.ID).isEmpty then
            [(task.ID, EscrowTransactionType.Refund, task.OwnerID, task.RewardAmount)]
          else []) := by
  by_cases hc : w.store.activeClaims task.ID = []
  · simp only [taskService.autoCancelStep, escrowService.RefundEscrow, uuidNew, dbCall_quiet,
      hq, hc, List.isEmpty_nil, if_true, List.length_nil, Nat.cast_zero]
    refine ⟨?_, ?_⟩
    · simp only [Store.setEscrowLocked, Store.setTaskStatus, Store.insertTransaction,
        Store.setTransactionStatus, List.map_map]
      apply List.map_congr_left
      intro t _
      simp only [Function.comp]
      split <;> simp_all
    · simp only [Store.setEscrowLocked, Store.setTaskStatus, Store.insertTransaction,
        Store.setTransactionStatus, List.map_map, List.map_append, List.map_cons,
        List.map_nil]
      congr 1
      · apply List.map_congr_left
        intro tx _
        simp only [Function.comp, txKey]
        split <;> rfl
  · simp [taskService.autoCancelStep, dbCall_quiet, hq, hc]

/-- A failed claim count ends the iteration: only the round trip is consumed. -/
theorem autoCancelStep_count_fails (task : Task) (w : World)
    (h : w.faults w.tick = true) :
    taskService.autoCancelStep task w = { w with tick := w.tick + 1 } := by
  simp [taskService.autoCancelStep, dbCall, h]

/-- A failed status update ends the iteration: only two round trips are consumed. -/
theorem autoCancelStep_update_fails (task : Task) (w : World)
    (h1 : w.faults w.tick = false) (hc : w.store.activeClaims task.ID = [])
    (h2 : w.faults (w.tick + 1) = true) :
    taskService.autoCancelStep task w = { w with tick := w.tick + 1 + 1 } := by
  simp [taskService.autoCancelStep, dbCall, h1, h2, hc]

/-- The loop over a list that is split at one of its tasks. -/
theorem autoCancelLoop_append (pre post : List Task) (w : World) :
    taskService.autoCancelLoop (pre ++ post) w
      = taskService.autoCancelLoop post (taskService.autoCancelLoop pre w) := by
  induction pre generalizing w with
  | nil => rfl
  | cons x pre ih => exact ih _

theorem autoCancelLoop_faults (tasks : List Task) (w : World) :
    (taskService.autoCancelLoop tasks w).faults = w.faults := by
  induction tasks generalizing w with
  | nil => rfl
  | cons x rest ih =>
    show (taskService.autoCancelLoop rest (taskService.autoCancelStep x w)).faults = _
    rw [ih, autoCancelStep_faults]

theorem autoCancelLoop_claims (tasks : List Task) (w : World) :
    (taskService.autoCancelLoop tasks w).store.claims = w.store.claims := by
  induction tasks generalizing w with
  | nil => rfl
  | cons x rest ih =>
    show (taskService.autoCancelLoop rest (taskService.autoCancelStep x w)).store.claims = _
    rw [ih, autoCancelStep_claims]

theorem activeClaims_congr {s s0 : Store} (h : s.claims = s0.claims) (id : UUID) :
    s.activeClaims id = s0.activeClaims id := by
  unfold Store.activeClaims
  rw [h]

/-- The effect of the loop over `sweep` when no round trip fails: every row is treated as
`sweepRow` says and the ledger grows by the refunds of `sweepRefunds`. -/
theorem autoCancelLoop_quiet (s0 : Store) (sweep : List Task) (w : World)
    (hq : ∀ n, w.faults n = false) (hcl : w.store.claims = s0.claims) :
    (taskService.autoCancelLoop sweep w).store.tasks = w.store.tasks.map (sweepRow s0 sweep)
    ∧ (taskService.autoCancelLoop sweep w).store.ledger.map txKey
        = w.store.ledger.map txKey ++ sweepRefunds s0 sweep := by
  induction sweep generalizing w with
  | nil =>
    have hid : sweepRow s0 [] = id := by
      funext t
      simp [sweepRow]
    simp [taskService.autoCancelLoop, hid, sweepRefunds]
  | cons x rest ih =>
    have hq2 : ∀ n, (taskService.autoCancelStep x w).faults n = false := by
      intro n; rw [autoCancelStep_faults]; exact hq n
    have hcl2 : (taskService.autoCancelStep x w).store.claims = s0.claims := by
      rw [autoCancelStep_claims]; exact hcl
    have hstep := autoCancelStep_quiet x w hq
    rw [activeClaims_congr hcl] at hstep
    have hrec := ih (taskService.autoCancelStep x w) hq2 hcl2
    show (taskService.autoCancelLoop rest (taskService.autoCancelStep x w)).store.tasks = _
      ∧ (taskService.autoCancelLoop rest (taskService.autoCancelStep x w)).store.ledger.map
          txKey = _
    rw [hrec.1, hrec.2, hstep.1, hstep.2]
    by_cases hc : s0.activeClaims x.ID = []
    · refine ⟨?_, ?_⟩
      · simp only [hc, List.isEmpty_nil, if_true, List.map_map]
        apply List.map_congr_left
        intro t _
        simp only [Function.comp, sweepRow, List.any_cons, hc, List.isEmpty_nil, Bool.and_true]
        by_cases ht : t.ID = x.ID
        · simp [ht]
        · have ht2 : ¬ x.ID = t.ID := fun h => ht h.symm
          simp [ht, ht2]
      · simp [sweepRefunds, List.filter_cons, hc]
    · refine ⟨?_, ?_⟩
      · simp only [hc, List.isEmpty_iff, if_false]
        apply List.map_congr_left
        intro t _
        simp [sweepRow, List.any_cons, hc]
      · simp [sweepRefunds, List.filter_cons, hc]

/-- In a table with unique identifiers the rows carrying the identifier of a row `t` of
the table are `t` alone. -/
theorem filter_id_of_unique (l : List Task) (h : l.Pairwise (fun a b => a.ID ≠ b.ID))
    (t : Task) (ht : t ∈ l) : l.filter (fun x => x.ID == t.ID) = [t] := by
  induction l with
  | nil => cases ht
  | cons a l ih =>
    rw [List.pairwise_cons] at h
    rcases List.mem_cons.1 ht with rfl | ht2
    · have hnone : l.filter (fun x => x.ID == t.ID) = [] := by
        rw [List.filter_eq_nil_iff]
        intro b hb
        have := h.1 b hb
        simpa using fun hh => this hh.symm
      simp [List.filter_cons, hnone]
    · have hne : ¬ a.ID = t.ID := h.1 t ht2
      simp [List.filter_cons, hne, ih h.2 ht2]

/-- Filtering after an update that keeps the filtered property is updating after
filtering. -/
theorem filter_map_of_invariant {α : Type} (q : α → Bool) (f : α → α)
    (hf : ∀ a, q (f a) = q a) (l : List α) :
    (l.map f).filter q = (l.filter q).map f := by
  induction l with
  | nil => rfl
  | cons a l ih =>
    simp only [List.map_cons, List.filter_cons, hf]
    split <;> simp [ih]

theorem sweepRow_ID (s : Store) (sweep : List Task) (t : Task) :
    (sweepRow s sweep t).ID = t.ID := by
  unfold sweepRow
  split <;> rfl

/-- The number of ledger rows selected by a condition on keys. -/
theorem length_filter_txKey (q : UUID × EscrowTransactionType × UUID × Amount → Bool)
    (l : List EscrowTransaction) :
    (l.filter (fun tx => q (txKey tx))).length = ((l.map txKey).filter q).length := by
  induction l with
  | nil => rfl
  | cons a l ih =>
    simp only [List.map_cons, List.filter_cons]
    split <;> simp [ih]

/-- Among the refunds of a pass over a list in which the task `t` is the only one with
its identifier, the ones selected by a condition that fixes this identifier are the
refund of `t`, if `t` has no claim that counts, and none otherwise. -/
theorem length_filter_sweepRefunds (s : Store) (sweep : List Task) (t : Task)
    (q : UUID × EscrowTransactionType × UUID × Amount → Bool)
    (hsweep : sweep.filter (fun x => x.ID == t.ID) = [t])
    (hq : ∀ k, q k = true → k.1 = t.ID) :
    ((sweepRefunds s sweep).filter q).length
      = if s.activeClaims t.ID = []
          ∧ q (t.ID, EscrowTransactionType.Refund, t.OwnerID, t.RewardAmount) = true
        then 1 else 0 := by
  unfold sweepRefunds
  rw [List.filter_map, List.length_map, List.filter_filter]
  have hswap : sweep.filter (fun a =>
        (q ∘ fun x => (x.ID, EscrowTransactionType.Refund, x.OwnerID, x.RewardAmount)) a
          && (s.activeClaims a.ID).isEmpty)
      = (sweep.filter (fun x => x.ID == t.ID)).filter (fun a =>
        (q ∘ fun x => (x.ID, EscrowTransactionType.Refund, x.OwnerID, x.RewardAmount)) a
          && (s.activeClaims a.ID).isEmpty) := by
    rw [List.filter_filter]
    apply List.filter_congr
    intro x _
    by_cases hx : q (x.ID, EscrowTransactionType.Refund, x.OwnerID, x.RewardAmount) = true
    · have := hq _ hx
      simp only [] at this
      simp [hx, this]
    · simp [hx]
  rw [hswap, hsweep]
  by_cases h1 : s.activeClaims t.ID = []
  · by_cases h2 : q (t.ID, EscrowTransactionType.Refund, t.OwnerID, t.RewardAmount) = true
    · simp [List.filter_cons, h1, h2]
    · simp [List.filter_cons, h1, h2]
  · simp [List.filter_cons, h1]

/-- A pass in which no round trip fails returns no error and is the loop over the tasks
selected by the sweep query. -/
theorem AutoCancelExpiredTasks_quiet (w : World) (hq : ∀ n, w.faults n = false) :
    taskService.AutoCancelExpiredTasks w
      = (none, taskService.autoCancelLoop
          (w.store.tasks.filter
            (fun t => t.Status == TaskStatus.Open && decide (t.ClaimDeadline ≤ w.now)))
          { w with tick := w.tick + 1 }) := by
  simp [taskService.AutoCancelExpiredTasks, dbCall_quiet, hq]

/-- C19: after a reconciliation pass in which no round trip fails, over a tasks table
with unique identifiers, the pass returns no error and, for every task `t` that was
`Open` with its claim deadline reached: if no claim of `t` had a status other than
`Cancelled`, the row of `t` is `t` with status `Cancelled` and the escrow flag cleared,
the ledger holds exactly one more `Refund` transaction for `t` than before, and exactly
one more `Refund` transaction for `t` that pays the full reward to the owner of `t`; if
some claim of `t` had a status other than `Cancelled`, the row of `t` is unchanged and
the ledger holds as many `Refund` transactions for `t` as before. -/
theorem AutoCancelExpiredTasks_effects (w : World) (hq : ∀ n, w.faults n = false)
    (huniq : TaskIDsUnique w.store) (t : Task) (ht : t ∈ w.store.tasks)
    (hopen : t.Status = TaskStatus.Open) (hdl : t.ClaimDeadline ≤ w.now) :
    (taskService.AutoCancelExpiredTasks w).1 = none
    ∧ (w.store.activeClaims t.ID = [] →
        (taskService.AutoCancelExpiredTasks w).2.store.tasks.filter (fun x => x.ID == t.ID)
            = [{ t with Status := TaskStatus.Cancelled, EscrowLocked := false }]
        ∧ (refundsFor (taskService.AutoCancelExpiredTasks w).2.store t.ID).length
            = (refundsFor w.store t.ID).length + 1
        ∧ (refundsTo (taskService.AutoCancelExpiredTasks w).2.store t.ID t.OwnerID
              t.RewardAmount).length
            = (refundsTo w.store t.ID t.OwnerID t.RewardAmount).length + 1)
    ∧ (w.store.activeClaims t.ID ≠ [] →
        (taskService.AutoCancelExpiredTasks w).2.store.tasks.filter (fun x => x.ID == t.ID)
            = [t]
        ∧ (refundsFor (taskService.AutoCancelExpiredTasks w).2.store t.ID).length
            = (refundsFor w.store t.ID).length) := by
  have hloop : (taskService.AutoCancelExpiredTasks w).2.store.tasks
        = w.store.tasks.map (sweepRow w.store (w.store.tasks.filter
            (fun t => t.Status == TaskStatus.Open && decide (t.ClaimDeadline ≤ w.now))))
      ∧ (taskService.AutoCancelExpiredTasks w).2.store.ledger.map txKey
        = w.store.ledger.map txKey ++ sweepRefunds w.store (w.store.tasks.filter
            (fun t => t.Status == TaskStatus.Open && decide (t.ClaimDeadline ≤ w.now))) := by
    rw [AutoCancelExpiredTasks_quiet w hq]
    exact autoCancelLoop_quiet w.store _ { w with tick := w.tick + 1 } hq rfl
  have hmem : t ∈ w.store.tasks.filter
      (fun t => t.Status == TaskStatus.Open && decide (t.ClaimDeadline ≤ w.now)) := by
    simp [List.mem_filter, ht, hopen, hdl]
  have hsweep := filter_id_of_unique _ (List.Pairwise.filter _ huniq) t hmem
  have hrows : (taskService.AutoCancelExpiredTasks w).2.store.tasks.filter
      (fun x => x.ID == t.ID)
      = [sweepRow w.store (w.store.tasks.filter
          (fun t => t.Status == TaskStatus.Open && decide (t.ClaimDeadline ≤ w.now))) t] := by
    rw [hloop.1]
    rw [filter_map_of_invariant (fun x : Task => x.ID == t.ID) _
        (fun a => by simp only [sweepRow_ID]),
      filter_id_of_unique _ huniq t ht]
    rfl
  have hfor : ∀ s : Store, (refundsFor s t.ID).length
      = ((s.ledger.map txKey).filter
          (fun k => k.1 == t.ID && k.2.1 == EscrowTransactionType.Refund)).length :=
    fun s => length_filter_txKey
      (fun k => k.1 == t.ID && k.2.1 == EscrowTransactionType.Refund) s.ledger
  have hto : ∀ s : Store, (refundsTo s t.ID t.OwnerID t.RewardAmount).length
      = ((s.ledger.map txKey).filter
          (fun k => k.1 == t.ID && k.2.1 == EscrowTransactionType.Refund
            && k.2.2.1 == t.OwnerID && k.2.2.2 == t.RewardAmount)).length :=
    fun s => length_filter_txKey
      (fun k => k.1 == t.ID && k.2.1 == EscrowTransactionType.Refund
        && k.2.2.1 == t.OwnerID && k.2.2.2 == t.RewardAmount) s.ledger
  have hcfor := length_filter_sweepRefunds w.store _ t
    (fun k => k.1 == t.ID && k.2.1 == EscrowTransactionType.Refund) hsweep
    (fun k hk => by simp at hk; exact hk.1)
  have hcto := length_filter_sweepRefunds w.store _ t
    (fun k => k.1 == t.ID && k.2.1 == EscrowTransactionType.Refund
      && k.2.2.1 == t.OwnerID && k.2.2.2 == t.RewardAmount) hsweep
    (fun k hk => by simp at hk; exact hk.1.1.1)
  refine ⟨by rw [AutoCancelExpiredTasks_quiet w hq], ?_, ?_⟩
  · intro hc
    refine ⟨?_, ?_, ?_⟩
    · rw [hrows]
      have hany : (w.store.tasks.filter
          (fun t => t.Status == TaskStatus.Open && decide (t.ClaimDeadline ≤ w.now))).any
          (fun x => x.ID == t.ID && (w.store.activeClaims x.ID).isEmpty) = true := by
        rw [List.any_eq_true]
        exact ⟨t, hmem, by simp [hc]⟩
      simp [sweepRow, hany]
    · rw [hfor, hfor, hloop.2, List.filter_append, List.length_append, hcfor]
      simp [hc]
    · rw [hto, hto, hloop.2, List.filter_append, List.length_append, hcto]
      simp [hc]
  · intro hc
    refine ⟨?_, ?_⟩
    · rw [hrows]
      have hany : (w.store.tasks.filter
          (fun t => t.Status == TaskStatus.Open && decide (t.ClaimDeadline ≤ w.now))).any
          (fun x => x.ID == t.ID && (w.store.activeClaims x.ID).isEmpty) = false := by
        rw [List.any_eq_false]
        intro x _
        by_cases hx : x.ID = t.ID
        · simp [hx, hc]
        · simp [hx]
      simp [sweepRow, hany]
    · rw [hfor, hfor, hloop.2, List.filter_append, List.length_append, hcfor]
      simp [hc]

/-- C19 (witness): the expired test task without claims, swept at clock 0 next to an
expired task that has a pending claim. -/
theorem AutoCancelExpiredTasks_effects_witness :
    (taskService.AutoCancelExpiredTasks (World.quiet sweepStore 100 0)).1 = none
    ∧ ((World.quiet sweepStore 100 0).store.activeClaims expiredTask.ID = [] →
        (taskService.AutoCancelExpiredTasks (World.quiet sweepStore 100 0)).2.store.tasks.filter
            (fun x => x.ID == expiredTask.ID)
            = [{ expiredTask with Status := TaskStatus.Cancelled, EscrowLocked := false }]
        ∧ (refundsFor (taskService.AutoCancelExpiredTasks
              (World.quiet sweepStore 100 0)).2.store expiredTask.ID).length
            = (refundsFor (World.quiet sweepStore 100 0).store expiredTask.ID).length + 1
        ∧ (refundsTo (taskService.AutoCancelExpiredTasks
              (World.quiet sweepStore 100 0)).2.store expiredTask.ID expiredTask.OwnerID
              expiredTask.RewardAmount).length
            = (refundsTo (World.quiet sweepStore 100 0).store expiredTask.ID
                expiredTask.OwnerID expiredTask.RewardAmount).length + 1)
    ∧ ((World.quiet sweepStore 100 0).store.activeClaims expiredTask.ID ≠ [] →
        (taskService.AutoCancelExpiredTasks (World.quiet sweepStore 100 0)).2.store.tasks.filter
            (fun x => x.ID == expiredTask.ID)
            = [expiredTask]
        ∧ (refundsFor (taskService.AutoCancelExpiredTasks
              (World.quiet sweepStore 100 0)).2.store expiredTask.ID).length
            = (refundsFor (World.quiet sweepStore 100 0).store expiredTask.ID).length) :=
  AutoCancelExpiredTasks_effects (World.quiet sweepStore 100 0) (fun _ => rfl)
    (by unfold TaskIDsUnique; decide) expiredTask (by decide) (by decide) (by decide)

/-- Scenario C evaluated: the pass at clock 0 over the expired test task without claims
and the expired task with a pending claim cancels and unlocks the first, leaves the
second as it was, and records one completed refund of 100 to user 10. -/
theorem reconciliation_scenario :
    taskService.AutoCancelExpiredTasks (World.quiet sweepStore 100 0)
      = (none,
         { World.quiet sweepStore 100 0 with
           store := { sweepStore with
             tasks := [{ expiredTask with Status := TaskStatus.Cancelled,
                                          EscrowLocked := false }, expiredTask2],
             ledger := [{ ID := 100, TaskID := 1, UserID := 10, Amount := 100,
                          TransactionType := EscrowTransactionType.Refund,
                          Status := EscrowTransactionStatus.Completed, CreatedAt := 0,
                          CompletedAt := some 0 }] },
           tick := 7, drawn := 1 }) := by
  rfl

/-- C20: when the initial fetch returns the sweep list `pre ++ x :: post`, the pass
returns no error whatever happens later, and its final state is the loop over `post`
started from the state in which the iteration for `x` ended, whichever way it ended.  An
iteration whose claim count fails and an iteration whose status update fails only use
up round trips and leave every table as it was; no iteration, failed or not, changes the
claims table, which is what later iterations count.  The pass returns an error only when
the initial fetch fails, and then it returns that error and changes no table. -/
theorem AutoCancelExpiredTasks_skips_failures (w : World) (pre post : List Task) (x : Task)
    (hfetch : (taskRepository.GetTasksPastClaimDeadline w).1 = Except.ok (pre ++ x :: post)) :
    (taskService.AutoCancelExpiredTasks w).1 = none
    ∧ (taskService.AutoCancelExpiredTasks w).2
        = taskService.autoCancelLoop post (taskService.autoCancelStep x
            (taskService.autoCancelLoop pre (taskRepository.GetTasksPastClaimDeadline w).2))
    ∧ (∀ v : World, v.faults v.tick = true →
        taskService.autoCancelStep x v = { v with tick := v.tick + 1 })
    ∧ (∀ v : World, v.faults v.tick = false → v.store.activeClaims x.ID = [] →
        v.faults (v.tick + 1) = true →
        taskService.autoCancelStep x v = { v with tick := v.tick + 1 + 1 })
    ∧ (∀ v : World, (taskService.autoCancelStep x v).store.claims = v.store.claims)
    ∧ (∀ (v : World) (e : Err), (taskService.AutoCancelExpiredTasks v).1 = some e →
        (taskRepository.GetTasksPastClaimDeadline v).1 = Except.error e
        ∧ (taskService.AutoCancelExpiredTasks v).2.store = v.store) := by
  refine ⟨?_, ?_, fun v h => autoCancelStep_count_fails x v h,
    fun v h1 hc h2 => autoCancelStep_update_fails x v h1 hc h2,
    fun v => autoCancelStep_claims x v, ?_⟩
  · unfold taskService.AutoCancelExpiredTasks
    simp only [hfetch]
  · unfold taskService.AutoCancelExpiredTasks
    simp only [hfetch]
    rw [autoCancelLoop_append]
    rfl
  · intro v e h
    revert h
    unfold taskService.AutoCancelExpiredTasks
    simp only []
    split
    · rename_i e2 heq
      intro h
      simp only [Option.some.injEq] at h
      subst h
      exact ⟨heq, by simp⟩
    · intro h
      simp only [reduceCtorEq] at h

/-- C20 (witness): two expired tasks without claims, swept at clock 0 when the claim
count of the first one fails. -/
theorem AutoCancelExpiredTasks_skips_failures_witness :
    (taskService.AutoCancelExpiredTasks (World.failingAt twoExpiredStore 100 0 1)).1 = none
    ∧ (taskService.AutoCancelExpiredTasks (World.failingAt twoExpiredStore 100 0 1)).2
        = taskService.autoCancelLoop [expiredTask2] (taskService.autoCancelStep expiredTask
            (taskService.autoCancelLoop [] (taskRepository.GetTasksPastClaimDeadline
              (World.failingAt twoExpiredStore 100 0 1)).2))
    ∧ (∀ v : World, v.faults v.tick = true →
        taskService.autoCancelStep expiredTask v = { v with tick := v.tick + 1 })
    ∧ (∀ v : World, v.faults v.tick = false → v.store.activeClaims expiredTask.ID = [] →
        v.faults (v.tick + 1) = true →
        taskService.autoCancelStep expiredTask v = { v with tick := v.tick + 1 + 1 })
    ∧ (∀ v : World,
        (taskService.autoCancelStep expiredTask v).store.claims = v.store.claims)
    ∧ (∀ (v : World) (e : Err), (taskService.AutoCancelExpiredTasks v).1 = some e →
        (taskRepository.GetTasksPastClaimDeadline v).1 = Except.error e
        ∧ (taskService.AutoCancelExpiredTasks v).2.store = v.store) :=
  AutoCancelExpiredTasks_skips_failures (World.failingAt twoExpiredStore 100 0 1)
    [] [expiredTask2] expiredTask rfl

/-- The pass over two expired tasks without claims when the claim count of the first one
fails: no error is returned, the first task is left as it was, and the second one is
cancelled, unlocked and refunded. -/
theorem reconciliation_after_failed_count :
    (taskService.AutoCancelExpiredTasks (World.failingAt twoExpiredStore 100 0 1)).1 = none
    ∧ (taskService.AutoCancelExpiredTasks
        (World.failingAt twoExpiredStore 100 0 1)).2.store
      = { twoExpiredStore with
          tasks := [expiredTask, { expiredTask2 with Status := TaskStatus.Cancelled,
                                                     EscrowLocked := false }],
          ledger := [{ ID := 100, TaskID := 2, UserID := 11, Amount := 50,
                       TransactionType := EscrowTransactionType.Refund,
                       Status := EscrowTransactionStatus.Completed, CreatedAt := 0,
                       CompletedAt := some 0 }] } := by
  decide

/-- The pass over two expired tasks without claims when the status update of the first
one fails, and when the first round trip of its refund fails: no error is returned and
the second task is cancelled and unlocked in both cases. -/
theorem reconciliation_after_failed_update_or_refund :
    (taskService.AutoCancelExpiredTasks (World.failingAt twoExpiredStore 100 0 2)).1 = none
    ∧ (taskService.AutoCancelExpiredTasks
        (World.failingAt twoExpiredStore 100 0 2)).2.store.tasks
      = [expiredTask, { expiredTask2 with Status := TaskStatus.Cancelled,
                                          EscrowLocked := false }]
    ∧ (taskService.AutoCancelExpiredTasks (World.failingAt twoExpiredStore 100 0 3)).1 = none
    ∧ (taskService.AutoCancelExpiredTasks
        (World.failingAt twoExpiredStore 100 0 3)).2.store.tasks
      = [{ expiredTask with Status := TaskStatus.Cancelled },
         { expiredTask2 with Status := TaskStatus.Cancelled, EscrowLocked := false }] := by
  decide

/-! ## Submitting a completion -/

@[simp] theorem GetOrCreate_claims (taskID a b : UUID) (w : World) :
    (chatRepository.GetOrCreate taskID a b w).2.store.claims = w.store.claims := by
  unfold chatRepository.GetOrCreate
  simp only []
  repeat' split
  all_goals simp

@[simp] theorem GetOrCreate_tasks (taskID a b : UUID) (w : World) :
    (chatRepository.GetOrCreate taskID a b w).2.store.tasks = w.store.tasks := by
  unfold chatRepository.GetOrCreate
  simp only []
  repeat' split
  all_goals simp

@[simp] theorem GetOrCreate_users (taskID a b : UUID) (w : World) :
    (chatRepository.GetOrCreate taskID a b w).2.store.users = w.store.users := by
  unfold chatRepository.GetOrCreate
  simp only []
  repeat' split
  all_goals simp

@[simp] theorem GetOrCreate_ledger (taskID a b : UUID) (w : World) :
    (chatRepository.GetOrCreate taskID a b w).2.store.ledger = w.store.ledger := by
  unfold chatRepository.GetOrCreate
  simp only []
  repeat' split
  all_goals simp

@[simp] theorem GetOrCreate_faults (taskID a b : UUID) (w : World) :
    (chatRepository.GetOrCreate taskID a b w).2.faults = w.faults := by
  unfold chatRepository.GetOrCreate
  simp only []
  repeat' split
  all_goals simp

@[simp] theorem GetOrCreate_now (taskID a b : UUID) (w : World) :
    (chatRepository.GetOrCreate taskID a b w).2.now = w.now := by
  unfold chatRepository.GetOrCreate
  simp only []
  repeat' split
  all_goals simp

/-- C21: when the claim exists, the caller is its claimer, the text is not empty, the
task of the claim exists, and none of the round trips of `SubmitCompletion` itself fails
(the first lookup of the claim, the update, the lookup of the task, and the final
lookup of the claim, which runs in whatever world the chat collaborator left behind),
`SubmitCompletion` returns no error and the refreshed claim, whatever the get-or-create
call of the chat collaborator did or returned; that claim is the old one with the given
text and image URL and the submission timestamp `now`, and `IsSubmitted` holds for
it. -/
theorem SubmitCompletion_ignores_chat_failure (claimID userID : UUID)
    (text imageURL : String) (w : World) (claim : Claim) (task : Task)
    (hclaim : w.store.claims.find? (fun c => c.ID == claimID) = some claim)
    (hclaimer : claim.ClaimerID = userID)
    (htext : text ≠ "")
    (htask : w.store.tasks.find? (fun t => t.ID == claim.TaskID) = some task)
    (hf0 : w.faults w.tick = false)
    (hf1 : w.faults (w.tick + 1) = false)
    (hf2 : w.faults (w.tick + 1 + 1) = false)
    (hf3 : w.faults (chatRepository.GetOrCreate claim.TaskID claim.ClaimerID task.OwnerID
        { w with store := w.store.submitCompletion claimID text imageURL w.now,
                 tick := w.tick + 1 + 1 + 1 }).2.tick = false) :
    (claimService.SubmitCompletion claimID userID text imageURL w).1
      = (some { claim with CompletionText := text, CompletionImageURL := imageURL,
                           SubmittedAt := some w.now }, none)
    ∧ Claim.IsSubmitted { claim with CompletionText := text,
                                     CompletionImageURL := imageURL,
                                     SubmittedAt := some w.now } = true := by
  have hcid : claim.ID = claimID := claim_id_of_find hclaim
  refine ⟨?_, by simp [Claim.IsSubmitted, htext]⟩
  subst hclaimer
  have hfq : (chatRepository.GetOrCreate claim.TaskID claim.ClaimerID task.OwnerID
        { w with store := w.store.submitCompletion claimID text imageURL w.now,
                 tick := w.tick + 1 + 1 + 1 }).2.faults
      (chatRepository.GetOrCreate claim.TaskID claim.ClaimerID task.OwnerID
        { w with store := w.store.submitCompletion claimID text imageURL w.now,
                 tick := w.tick + 1 + 1 + 1 }).2.tick = false := by
    rw [GetOrCreate_faults]
    exact hf3
  have hfind : (chatRepository.GetOrCreate claim.TaskID claim.ClaimerID task.OwnerID
        { w with store := w.store.submitCompletion claimID text imageURL w.now,
                 tick := w.tick + 1 + 1 + 1 }).2.store.claims.find?
        (fun c => c.ID == claimID)
      = some { claim with CompletionText := text, CompletionImageURL := imageURL,
                          SubmittedAt := some w.now } := by
    rw [GetOrCreate_claims]
    show (List.map _ w.store.claims).find? (fun c : Claim => c.ID == claimID) = _
    rw [find?_map_key (fun c : Claim => c.ID) _ (fun a => by split <;> rfl), hclaim]
    simp [hcid]
  have hr : (claimRepository.GetByID claimID
      (chatRepository.GetOrCreate claim.TaskID claim.ClaimerID task.OwnerID
        { w with store := w.store.submitCompletion claimID text imageURL w.now,
                 tick := w.tick + 1 + 1 + 1 }).2).1
      = Except.ok { claim with CompletionText := text, CompletionImageURL := imageURL,
                               SubmittedAt := some w.now } := by
    show (dbCall _ _).1 = _
    rw [dbCall_quiet _ _ hfq]
    simp only [hfind]
  simp only [Store.submitCompletion] at hr
  simp [claimService.SubmitCompletion, dbCall_quiet, hf0, hf1, hf2, hclaim, htext, htask]
  rw [hr]

/-- C21 (witness): the unsubmitted claim of Scenario B, submitted by its claimer at clock
3 when the first round trip of the chat collaborator fails. -/
theorem SubmitCompletion_ignores_chat_failure_witness :
    (claimService.SubmitCompletion 5 20 "done" "img" (World.failingAt unsubmittedStore 100 3 3)).1
      = (some { ({ submittedClaim with SubmittedAt := none, CompletionText := "" } : Claim) with
                  CompletionText := "done", CompletionImageURL := "img",
                  SubmittedAt := some (World.failingAt unsubmittedStore 100 3 3).now }, none)
    ∧ Claim.IsSubmitted
        { ({ submittedClaim with SubmittedAt := none, CompletionText := "" } : Claim) with
            CompletionText := "done", CompletionImageURL := "img",
            SubmittedAt := some (World.failingAt unsubmittedStore 100 3 3).now } = true :=
  SubmitCompletion_ignores_chat_failure 5 20 "done" "img"
    (World.failingAt unsubmittedStore 100 3 3)
    { submittedClaim with SubmittedAt := none, CompletionText := "" } claimedTask
    (by decide) (by decide) (by decide) (by decide) (by decide) (by decide) (by decide)
    (by decide)

/-- The chat collaborator does fail in that run: its lookup is round trip number 3. -/
theorem chat_fails_in_submission_scenario :
    (chatRepository.GetOrCreate 1 20 10
      { World.failingAt unsubmittedStore 100 3 3 with
        store := unsubmittedStore.submitCompletion 5 "done" "img" 3, tick := 3 }).1
      = Except.error Err.Internal := by
  rfl

/-! ## User totals and reputation -/

@[simp] theorem LockEscrow_users (taskID userID : UUID) (amount : Amount) (w : World) :
    (escrowService.LockEscrow taskID userID amount w).2.store.users = w.store.users := by
  unfold escrowService.LockEscrow
  simp only []
  repeat' split
  all_goals simp

@[simp] theorem RefundEscrow_users (taskID userID : UUID) (amount : Amount) (w : World) :
    (escrowService.RefundEscrow taskID userID amount w).2.store.users = w.store.users := by
  unfold escrowService.RefundEscrow
  simp only []
  repeat' split
  all_goals simp

theorem CreateTask_users (ownerID : UUID) (req : CreateTaskRequest) (w : World) :
    (taskService.CreateTask ownerID req w).2.store.users = w.store.users := by
  unfold taskService.CreateTask
  simp only []
  repeat' split
  all_goals simp

theorem ClaimTask_users (taskID claimerID : UUID) (w : World) :
    (claimService.ClaimTask taskID claimerID w).2.store.users = w.store.users := by
  unfold claimService.ClaimTask
  simp only []
  repeat' split
  all_goals simp

theorem SubmitCompletion_users (claimID userID : UUID) (text imageURL : String) (w : World) :
    (claimService.SubmitCompletion claimID userID text imageURL w).2.store.users
      = w.store.users := by
  unfold claimService.SubmitCompletion
  simp only []
  repeat' split
  all_goals simp

theorem RejectClaim_users (claimID ownerID : UUID) (w : World) :
    (claimService.RejectClaim claimID ownerID w).2.store.users = w.store.users := by
  unfold claimService.RejectClaim
  simp only []
  repeat' split
  all_goals simp

theorem autoCancelStep_users (task : Task) (w : World) :
    (taskService.autoCancelStep task w).store.users = w.store.users := by
  unfold taskService.autoCancelStep
  simp only []
  repeat' split
  all_goals simp

theorem autoCancelLoop_users (tasks : List Task) (w : World) :
    (taskService.autoCancelLoop tasks w).store.users = w.store.users := by
  induction tasks generalizing w with
  | nil => rfl
  | cons x rest ih =>
    show (taskService.autoCancelLoop rest (taskService.autoCancelStep x w)).store.users = _
    rw [ih, autoCancelStep_users]

theorem AutoCancelExpiredTasks_users (w : World) :
    (taskService.AutoCancelExpiredTasks w).2.store.users = w.store.users := by
  unfold taskService.AutoCancelExpiredTasks
  simp only []
  split
  · simp
  · simp [autoCancelLoop_users]

theorem UpdateEarnings_userFrame (id : UUID) (amount : Amount) (w : World) :
    (userRepository.UpdateEarnings id amount w).2.store.users.map (userFrame id)
      = w.store.users.map (userFrame id) := by
  rcases dbCall_store_cases (fun s => (Except.ok (), s.addEarnings id amount)) w with h | h
  · rw [h]
  · rw [h]
    simp only [Store.addEarnings, List.map_map]
    apply List.map_congr_left
    intro u _
    simp only [Function.comp, userFrame]
    split <;> simp_all

theorem UpdateReputation_userFrame (id : UUID) (delta : Int) (w : World) :
    (userRepository.UpdateReputation id delta w).2.store.users.map (userFrame id)
      = w.store.users.map (userFrame id) := by
  rcases dbCall_store_cases (fun s => (Except.ok (), s.addReputation id delta)) w with h | h
  · rw [h]
  · rw [h]
    simp only [Store.addReputation, List.map_map]
    apply List.map_congr_left
    intro u _
    simp only [Function.comp, userFrame]
    split <;> simp_all

/-- Whatever happens in `ApproveClaim`, the users other than the claimer of the claim
keep their rows, and every user keeps identifier and total spent. -/
theorem ApproveClaim_userFrame (claimID ownerID : UUID) (w : World) (claimer : UUID)
    (h : ∀ claim, (claimRepository.GetByID claimID w).1 = Except.ok claim →
      claim.ClaimerID = claimer) :
    (claimService.ApproveClaim claimID ownerID w).2.store.users.map (userFrame claimer)
      = w.store.users.map (userFrame claimer) := by
  unfold claimService.ApproveClaim
  simp only []
  split
  · split <;> simp
  · rename_i claim heq
    have hc := h claim heq
    subst hc
    repeat' split
    all_goals simp [UpdateEarnings_userFrame, UpdateReputation_userFrame]

/-- C22: every operation other than `ApproveClaim` (`CreateTask`, `ClaimTask`,
`SubmitCompletion`, `RejectClaim`, `LockEscrow`, `ReleaseEscrow`, `RefundEscrow`,
`AutoCancelExpiredTasks`) leaves the users table as it was, whether round trips fail or
not; an `ApproveClaim` for an existing claim, successful or not, keeps the row of every
user other than the claimer of that claim and keeps identifier and total spent of every
user; an `ApproveClaim` for a claim that does not exist leaves the users table as it
was. -/
theorem users_changed_only_by_approval (op : Op) (w : World) :
    ((∀ claimID ownerID, op ≠ Op.ApproveClaim claimID ownerID) →
        (op.run w).store.users = w.store.users)
    ∧ (∀ claimID ownerID claim, op = Op.ApproveClaim claimID ownerID →
        w.store.claims.find? (fun c => c.ID == claimID) = some claim →
        (op.run w).store.users.map (userFrame claim.ClaimerID)
          = w.store.users.map (userFrame claim.ClaimerID))
    ∧ (∀ claimID ownerID, op = Op.ApproveClaim claimID ownerID →
        w.store.claims.find? (fun c => c.ID == claimID) = none →
        (op.run w).store.users = w.store.users) := by
  refine ⟨?_, ?_, ?_⟩
  · intro hne
    cases op with
    | CreateTask ownerID req => exact CreateTask_users ownerID req w
    | ClaimTask taskID claimerID => exact ClaimTask_users taskID claimerID w
    | SubmitCompletion claimID userID text imageURL =>
      exact SubmitCompletion_users claimID userID text imageURL w
    | ApproveClaim claimID ownerID => exact absurd rfl (hne claimID ownerID)
    | RejectClaim claimID ownerID => exact RejectClaim_users claimID ownerID w
    | LockEscrow taskID userID amount => exact LockEscrow_users taskID userID amount w
    | ReleaseEscrow taskID userID amount => exact ReleaseEscrow_users taskID userID amount w
    | RefundEscrow taskID userID amount => exact RefundEscrow_users taskID userID amount w
    | AutoCancelExpiredTasks => exact AutoCancelExpiredTasks_users w
  · intro claimID ownerID claim hop hfind
    subst hop
    apply ApproveClaim_userFrame
    intro claim2 hok
    have h2 := claimGetByID_ok hok
    rw [hfind] at h2
    simp only [Option.some.injEq] at h2
    rw [h2]
  · intro claimID ownerID hop hfind
    subst hop
    show (claimService.ApproveClaim claimID ownerID w).2.store.users = _
    unfold claimService.ApproveClaim
    simp only []
    split
    · split <;> simp
    · rename_i claim heq
      have h2 := claimGetByID_ok heq
      rw [hfind] at h2
      cases h2

/-- C22 (witness): the owner approves the submitted claim of Scenario B; the row of the
owner (user 10) is kept, and both users keep identifier and total spent. -/
theorem users_changed_only_by_approval_witness :
    ((∀ claimID ownerID, Op.ApproveClaim 5 10 ≠ Op.ApproveClaim claimID ownerID) →
        ((Op.ApproveClaim 5 10).run (World.quiet scenarioBStore 100 3)).store.users
          = (World.quiet scenarioBStore 100 3).store.users)
    ∧ (∀ claimID ownerID claim, Op.ApproveClaim 5 10 = Op.ApproveClaim claimID ownerID →
        (World.quiet scenarioBStore 100 3).store.claims.find? (fun c => c.ID == claimID)
          = some claim →
        ((Op.ApproveClaim 5 10).run (World.quiet scenarioBStore 100 3)).store.users.map
            (userFrame claim.ClaimerID)
          = (World.quiet scenarioBStore 100 3).store.users.map (userFrame claim.ClaimerID))
    ∧ (∀ claimID ownerID, Op.ApproveClaim 5 10 = Op.ApproveClaim claimID ownerID →
        (World.quiet scenarioBStore 100 3).store.claims.find? (fun c => c.ID == claimID)
          = none →
        ((Op.ApproveClaim 5 10).run (World.quiet scenarioBStore 100 3)).store.users
          = (World.quiet scenarioBStore 100 3).store.users) :=
  users_changed_only_by_approval (Op.ApproveClaim 5 10) (World.quiet scenarioBStore 100 3)

/-! ## Listing tasks -/

/-- A page that was returned has at most `limit` rows. -/
theorem page_length {rows out : List Task} {limit offset : Int}
    (h : taskRepository.page rows limit offset = Except.ok out) (hl : 0 ≤ limit) :
    (out.length : Int) ≤ limit := by
  unfold taskRepository.page at h
  split at h
  · cases h
  · split at h
    · cases h
    · simp only [Except.ok.injEq] at h
      subst h
      have h1 : ((rows.drop offset.toNat).take limit.toNat).length ≤ limit.toNat := by
        rw [List.length_take]
        exact Nat.min_le_left _ _
      have h2 : ((limit.toNat : Nat) : Int) = limit := Int.toNat_of_nonneg hl
      omega

/-- C23: for every integer limit and offset, `GetOpenTasks` and `GetUserTasks` run the
query of the repository with an effective limit `eff` between 1 and 100, which is the
requested limit when that lies between 1 and 100 and is 20 when the requested limit is
at most 0 or above 100, and with the offset they were given; a list they return has at
most 100 rows. -/
theorem listing_limit_clamped (userID : UUID) (limit offset : Int) (w : World) :
    ∃ eff : Int, 1 ≤ eff ∧ eff ≤ 100
      ∧ (1 ≤ limit ∧ limit ≤ 100 → eff = limit)
      ∧ (limit ≤ 0 ∨ limit > 100 → eff = 20)
      ∧ taskService.GetOpenTasks limit offset w = taskRepository.GetOpenTasks eff offset w
      ∧ taskService.GetUserTasks userID limit offset w
          = taskRepository.GetByOwnerID userID eff offset w
      ∧ (∀ rows, (taskService.GetOpenTasks limit offset w).1 = Except.ok rows →
          rows.length ≤ 100)
      ∧ (∀ rows, (taskService.GetUserTasks userID limit offset w).1 = Except.ok rows →
          rows.length ≤ 100) := by
  have key : ∀ eff : Int, 1 ≤ eff → eff ≤ 100 →
      (∀ rows, (taskRepository.GetOpenTasks eff offset w).1 = Except.ok rows →
          rows.length ≤ 100)
      ∧ (∀ rows, (taskRepository.GetByOwnerID userID eff offset w).1 = Except.ok rows →
          rows.length ≤ 100) := by
    intro eff h1 h2
    constructor
    · intro rows h
      have h3 := (dbCall_ok_inv h).2.1
      have h4 := page_length h3 (by omega)
      omega
    · intro rows h
      have h3 := (dbCall_ok_inv h).2.1
      have h4 := page_length h3 (by omega)
      omega
  by_cases h : limit ≤ 0 ∨ limit > 100
  · refine ⟨20, by decide, by decide, ?_, fun _ => rfl, ?_, ?_, ?_, ?_⟩
    · intro h2
      omega
    · simp [taskService.GetOpenTasks, h]
    · simp [taskService.GetUserTasks, h]
    · have e : taskService.GetOpenTasks limit offset w
          = taskRepository.GetOpenTasks 20 offset w := by
        simp [taskService.GetOpenTasks, h]
      rw [e]
      exact (key 20 (by decide) (by decide)).1
    · have e : taskService.GetUserTasks userID limit offset w
          = taskRepository.GetByOwnerID userID 20 offset w := by
        simp [taskService.GetUserTasks, h]
      rw [e]
      exact (key 20 (by decide) (by decide)).2
  · have h1 : 1 ≤ limit := by omega
    have h2 : limit ≤ 100 := by omega
    refine ⟨limit, h1, h2, fun _ => rfl, fun h3 => absurd h3 h, ?_, ?_, ?_, ?_⟩
    · simp [taskService.GetOpenTasks, h]
    · simp [taskService.GetUserTasks, h]
    · have e : taskService.GetOpenTasks limit offset w
          = taskRepository.GetOpenTasks limit offset w := by
        simp [taskService.GetOpenTasks, h]
      rw [e]
      exact (key limit h1 h2).1
    · have e : taskService.GetUserTasks userID limit offset w
          = taskRepository.GetByOwnerID userID limit offset w := by
        simp [taskService.GetUserTasks, h]
      rw [e]
      exact (key limit h1 h2).2

/-- The listing of the two expired tasks of owner 10 and owner 11 at clock 0 with a
requested limit of 1000: the effective limit is 20, and the list of owner 11 is its one
task. -/
theorem listing_scenario :
    (taskService.GetUserTasks 11 1000 0 (World.quiet twoExpiredStore 100 0)).1
      = Except.ok [expiredTask2]
    ∧ taskService.GetUserTasks 11 1000 0 (World.quiet twoExpiredStore 100 0)
      = taskRepository.GetByOwnerID 11 20 0 (World.quiet twoExpiredStore 100 0) := by
  constructor <;> rfl

/-! ## Concurrent claims -/

theorem ClaimThread_run_done (n : Nat) (r : Option Claim × Option Err) (w : World) :
    ClaimThread.run n (ClaimThread.done r) w = (ClaimThread.done r, w) := by
  induction n with
  | zero => rfl
  | succ n ih => simpa [ClaimThread.run, ClaimThread.step] using ih

/-- An invocation that is never suspended is `ClaimTask`: after five round trips it has
returned what `ClaimTask` returns and left the world that `ClaimTask` leaves. -/
theorem ClaimThread_run_eq_ClaimTask (taskID claimerID : UUID) (w : World) :
    ClaimThread.run 5 (ClaimThread.getTask taskID claimerID) w
      = (ClaimThread.done (claimService.ClaimTask taskID claimerID w).1,
         (claimService.ClaimTask taskID claimerID w).2) := by
  unfold claimService.ClaimTask
  rcases h1 : (taskRepository.GetByID taskID w).1 with e | task
  · by_cases he : e = Err.ErrNoRows
    · simp only [ClaimThread.run, ClaimThread.step, h1, he, if_true, ClaimThread_run_done]
    · simp only [ClaimThread.run, ClaimThread.step, h1, he, if_false, ClaimThread_run_done]
  · cases hcan : task.CanBeClaimed (taskRepository.GetByID taskID w).2.now
    · simp only [ClaimThread.run, ClaimThread.step, h1, hcan, Bool.not_false, if_true,
        ClaimThread_run_done]
    · simp only [ClaimThread.run, ClaimThread.step, h1, hcan, Bool.not_true,
        Bool.false_eq_true, if_false]
      rcases h2 : (claimRepository.GetByTaskIDAndClaimerID taskID claimerID
          (taskRepository.GetByID taskID w).2).1 with e | existing
      · by_cases he : e = Err.ErrNoRows
        · simp only [he, ne_eq, not_true_eq_false, if_false]
          rcases h3 : (claimRepository.CountByTaskID taskID
              (claimRepository.GetByTaskIDAndClaimerID taskID claimerID
                (taskRepository.GetByID taskID w).2).2).1 with e3 | count
          · simp only [ClaimThread_run_done]
          · by_cases hlim : count ≥ task.MaxClaimants
            · simp only [hlim, if_true, ClaimThread_run_done]
            · simp only [hlim, if_false]
              rcases h4 : (claimRepository.Create
                  { ID := (uuidNew (claimRepository.CountByTaskID taskID
                      (claimRepository.GetByTaskIDAndClaimerID taskID claimerID
                        (taskRepository.GetByID taskID w).2).2).2).1,
                    TaskID := taskID, ClaimerID := claimerID, Status := ClaimStatus.Pending,
                    SubmittedAt := none, CompletionText := "", CompletionImageURL := "",
                    CreatedAt := 0, UpdatedAt := 0 }
                  (uuidNew (claimRepository.CountByTaskID taskID
                      (claimRepository.GetByTaskIDAndClaimerID taskID claimerID
                        (taskRepository.GetByID taskID w).2).2).2).2).1 with e4 | claim
              · simp only [ClaimThread_run_done]
              · by_cases h0 : count = 0
                · simp only [h0, if_true]
                  split <;> rfl
                · simp only [h0, if_false, ClaimThread_run_done]
        · simp only [he, ne_eq, not_false_eq_true, if_true, ClaimThread_run_done]
      · simp only [ClaimThread_run_done]

/-- An update that keeps the identifiers of the task rows keeps them unique. -/
theorem TaskIDsUnique_of_ids {s s2 : Store}
    (h : s2.tasks.map (fun t => t.ID) = s.tasks.map (fun t => t.ID))
    (hu : TaskIDsUnique s) : TaskIDsUnique s2 := by
  unfold TaskIDsUnique at hu ⊢
  have h1 : (s.tasks.map (fun t => t.ID)).Pairwise (fun a b => a ≠ b) :=
    List.pairwise_map.2 hu
  rw [← h] at h1
  exact List.pairwise_map.1 h1

theorem taskUpdateStatus_ids (id : UUID) (st : TaskStatus) (w : World) :
    (taskRepository.UpdateStatus id st w).2.store.tasks.map (fun t => t.ID)
      = w.store.tasks.map (fun t => t.ID) := by
  rcases dbCall_store_cases (fun s => (Except.ok (), s.setTaskStatus id st)) w with h | h
  · rw [h]
  · rw [h]
    simp only [Store.setTaskStatus, List.map_map]
    apply List.map_congr_left
    intro t _
    simp only [Function.comp]
    split <;> rfl

theorem ClaimTask_task_ids (taskID claimerID : UUID) (w : World) :
    (claimService.ClaimTask taskID claimerID w).2.store.tasks.map (fun t => t.ID)
      = w.store.tasks.map (fun t => t.ID) := by
  unfold claimService.ClaimTask
  simp only []
  repeat' split
  all_goals simp [taskUpdateStatus_ids]

/-- C24 (counterexample): two invocations of `ClaimTask` for the test task, which allows
one claimant, by the claimers 20 and 21, scheduled alternately round trip by round trip
while no round trip fails.  Both read the task while it is `Open`, both find no claim
of their claimer, both count zero claims, both insert their claim and both return it
without error: the task ends with two `Pending` claims, more than its `max_claimants`. -/
theorem concurrent_claims_exceed_limit :
    ClaimLimitInv (soleTask (openTask 1))
    ∧ (interleave [false, true, false, true, false, true, false, true, false, true]
        (ClaimThread.getTask 1 20, ClaimThread.getTask 1 21)
        (World.quiet (soleTask (openTask 1)) 100 0)).1
      = (ClaimThread.done (some (newClaim 100 20 0), none),
         ClaimThread.done (some (newClaim 101 21 0), none))
    ∧ (interleave [false, true, false, true, false, true, false, true, false, true]
        (ClaimThread.getTask 1 20, ClaimThread.getTask 1 21)
        (World.quiet (soleTask (openTask 1)) 100 0)).2.store.claims
      = [newClaim 100 20 0, newClaim 101 21 0]
    ∧ (interleave [false, true, false, true, false, true, false, true, false, true]
        (ClaimThread.getTask 1 20, ClaimThread.getTask 1 21)
        (World.quiet (soleTask (openTask 1)) 100 0)).2.store.tasks
      = [{ openTask 1 with Status := TaskStatus.Claimed }]
    ∧ ¬ ClaimLimitInv (interleave [false, true, false, true, false, true, false, true, false, true]
        (ClaimThread.getTask 1 20, ClaimThread.getTask 1 21)
        (World.quiet (soleTask (openTask 1)) 100 0)).2.store := by
  decide

/-- C24 (as amended): on a tasks table with unique identifiers, when the invocations of
`ClaimTask` for a task run one after another, each returning before the next one starts,
the number of non-`Cancelled` claims of every task stays at most its `max_claimants`,
whatever round trips fail; and an invocation that is not suspended between its round
trips is such a run: after five round trips it has returned what `ClaimTask` returns and
left the world that `ClaimTask` leaves. -/
theorem claims_in_turn_respect_limit (taskID : UUID) (claimers : List UUID) (w : World)
    (hu : TaskIDsUnique w.store) (h : ClaimLimitInv w.store) :
    ClaimLimitInv (claimInTurn taskID claimers w).store
    ∧ (∀ (claimerID : UUID) (v : World),
        ClaimThread.run 5 (ClaimThread.getTask taskID claimerID) v
          = (ClaimThread.done (claimService.ClaimTask taskID claimerID v).1,
             (claimService.ClaimTask taskID claimerID v).2)) := by
  refine ⟨?_, fun claimerID v => ClaimThread_run_eq_ClaimTask taskID claimerID v⟩
  induction claimers generalizing w with
  | nil => exact h
  | cons c rest ih =>
    exact ih _ (TaskIDsUnique_of_ids (ClaimTask_task_ids taskID c w) hu)
      (ClaimLimitInv_ClaimTask taskID c w hu h)

/-- C24 (witness): the claimers 20 and 21 claim the test task, which allows one claimant,
one after the other. -/
theorem claims_in_turn_respect_limit_witness :
    ClaimLimitInv (claimInTurn 1 [20, 21] (World.quiet (soleTask (openTask 1)) 100 0)).store
    ∧ (∀ (claimerID : UUID) (v : World),
        ClaimThread.run 5 (ClaimThread.getTask 1 claimerID) v
          = (ClaimThread.done (claimService.ClaimTask 1 claimerID v).1,
             (claimService.ClaimTask 1 claimerID v).2)) :=
  claims_in_turn_respect_limit 1 [20, 21] (World.quiet (soleTask (openTask 1)) 100 0)
    (by unfold TaskIDsUnique; decide) (by decide)

/-! ## The checks of `ClaimTask` -/

/-- C25: when no round trip fails, the outcome of `ClaimTask` is decided by the first
check that fails, in this order: no task with the identifier gives `ErrTaskNotFound`; a
task for which `CanBeClaimed` is false gives `ErrTaskNotClaimable`; an existing claim of
the claimer on the task gives that claim together with `ErrAlreadyClaimed`; a count of
non-`Cancelled` claims that has reached `max_claimants` gives `ErrClaimLimitReached`.
In these four cases the tables are left as they were.  When no check fails, the new
`Pending` claim is returned without error, the claims table is the old one followed by
that one claim, and the tasks table is unchanged except that the task becomes `Claimed`
when it had no claim that counts. -/
theorem ClaimTask_check_order (taskID claimerID : UUID) (w : World)
    (hq : ∀ n, w.faults n = false) :
    (w.store.tasks.find? (fun t => t.ID == taskID) = none →
      (claimService.ClaimTask taskID claimerID w).1 = (none, some Err.ErrTaskNotFound)
      ∧ (claimService.ClaimTask taskID claimerID w).2.store = w.store)
    ∧ (∀ task, w.store.tasks.find? (fun t => t.ID == taskID) = some task →
        task.CanBeClaimed w.now = false →
        (claimService.ClaimTask taskID claimerID w).1 = (none, some Err.ErrTaskNotClaimable)
        ∧ (claimService.ClaimTask taskID claimerID w).2.store = w.store)
    ∧ (∀ task existing, w.store.tasks.find? (fun t => t.ID == taskID) = some task →
        task.CanBeClaimed w.now = true →
        w.store.claims.find? (fun c => c.TaskID == taskID && c.ClaimerID == claimerID)
          = some existing →
        (claimService.ClaimTask taskID claimerID w).1
          = (some existing, some Err.ErrAlreadyClaimed)
        ∧ (claimService.ClaimTask taskID claimerID w).2.store = w.store)
    ∧ (∀ task, w.store.tasks.find? (fun t => t.ID == taskID) = some task →
        task.CanBeClaimed w.now = true →
        w.store.claims.find? (fun c => c.TaskID == taskID && c.ClaimerID == claimerID)
          = none →
        ((w.store.activeClaims taskID).length : Int) ≥ task.MaxClaimants →
        (claimService.ClaimTask taskID claimerID w).1
          = (none, some Err.ErrClaimLimitReached)
        ∧ (claimService.ClaimTask taskID claimerID w).2.store = w.store)
    ∧ (∀ task, w.store.tasks.find? (fun t => t.ID == taskID) = some task →
        task.CanBeClaimed w.now = true →
        w.store.claims.find? (fun c => c.TaskID == taskID && c.ClaimerID == claimerID)
          = none →
        ((w.store.activeClaims taskID).length : Int) < task.MaxClaimants →
        (claimService.ClaimTask taskID claimerID w).1
          = (some { ID := w.uuids w.drawn, TaskID := taskID, ClaimerID := claimerID,
                    Status := ClaimStatus.Pending, SubmittedAt := none,
                    CompletionText := "", CompletionImageURL := "",
                    CreatedAt := w.now, UpdatedAt := w.now }, none)
        ∧ (claimService.ClaimTask taskID claimerID w).2.store.claims
          = w.store.claims ++
              [{ ID := w.uuids w.drawn, TaskID := taskID, ClaimerID := claimerID,
                 Status := ClaimStatus.Pending, SubmittedAt := none,
                 CompletionText := "", CompletionImageURL := "",
                 CreatedAt := w.now, UpdatedAt := w.now }]
        ∧ (claimService.ClaimTask taskID claimerID w).2.store.tasks
          = (if w.store.activeClaims taskID = [] then
               w.store.tasks.map (fun t => if t.ID = taskID then
                 { t with Status := TaskStatus.Claimed } else t)
             else w.store.tasks)) := by
  refine ⟨?_, ?_, ?_, ?_, ?_⟩
  · intro h
    simp [claimService.ClaimTask, dbCall_quiet, hq, h]
  · intro task h hc
    simp [claimService.ClaimTask, dbCall_quiet, hq, h, hc]
  · intro task existing h hc he
    simp [claimService.ClaimTask, dbCall_quiet, hq, h, hc, he]
  · intro task h hc he hlim
    simp [claimService.ClaimTask, dbCall_quiet, hq, h, hc, he, hlim]
  · intro task h hc he hlim
    have hlim3 : ¬ task.MaxClaimants ≤ ((w.store.activeClaims taskID).length : Int) := by
      omega
    by_cases h0 : w.store.activeClaims taskID = []
    · have hpos : ¬ task.MaxClaimants ≤ 0 := by
        rw [h0] at hlim3
        simpa using hlim3
      simp [claimService.ClaimTask, dbCall_quiet, hq, h, hc, he, h0, hpos, uuidNew]
    · simp [claimService.ClaimTask, dbCall_quiet, hq, h, hc, he, hlim3, h0, uuidNew]

/-- C25 (witness): claimer 20 claims the test task, which is open, unlocked and has no
claims. -/
theorem ClaimTask_check_order_witness :
    (claimService.ClaimTask 1 20 (World.quiet (soleTask (openTask 1)) 100 0)).1
      = (some (newClaim 100 20 0), none)
    ∧ (claimService.ClaimTask 1 20 (World.quiet (soleTask (openTask 1)) 100 0)).2.store.claims
      = [newClaim 100 20 0] :=
  ⟨((ClaimTask_check_order 1 20 (World.quiet (soleTask (openTask 1)) 100 0)
      (fun _ => rfl)).2.2.2.2 (openTask 1) (by decide) (by decide) (by decide)
      (by decide)).1,
   ((ClaimTask_check_order 1 20 (World.quiet (soleTask (openTask 1)) 100 0)
      (fun _ => rfl)).2.2.2.2 (openTask 1) (by decide) (by decide) (by decide)
      (by decide)).2.1⟩

/-! ## Resolving a claim that is already resolved -/

/-- C26 (counterexample): in Scenario B with the claim already `Approved`, `RejectClaim`
by the owner returns no error and the claim becomes `Rejected`; with the claim already
`Rejected`, `ApproveClaim` by the owner returns no error and the claim becomes
`Approved`. -/
theorem resolved_claim_resolved_again :
    (claimService.RejectClaim 5 10 (World.quiet (resolvedStore ClaimStatus.Approved) 100 3)).1
      = none
    ∧ (claimService.RejectClaim 5 10
        (World.quiet (resolvedStore ClaimStatus.Approved) 100 3)).2.store.claims
      = [{ submittedClaim with Status := ClaimStatus.Rejected }]
    ∧ (claimService.ApproveClaim 5 10
        (World.quiet (resolvedStore ClaimStatus.Rejected) 100 3)).1 = none
    ∧ (claimService.ApproveClaim 5 10
        (World.quiet (resolvedStore ClaimStatus.Rejected) 100 3)).2.store.claims
      = [{ submittedClaim with Status := ClaimStatus.Approved }] := by
  decide

/-- C26 (as amended): `ApproveClaim` and `RejectClaim` do not look at the status of the
claim.  When no round trip fails and the caller owns the task of an existing claim,
whatever the status of the claim (in particular `Approved` or `Rejected`), `RejectClaim`
returns no error and the claim is found with status `Rejected` afterwards; and when the
claim is submitted, `ApproveClaim` returns no error and the claim is found with status
`Approved` afterwards. -/
theorem resolution_ignores_status (claimID ownerID : UUID) (w : World) (claim : Claim)
    (task : Task)
    (hq : ∀ n, w.faults n = false)
    (hc : w.store.claims.find? (fun c => c.ID == claimID) = some claim)
    (ht : w.store.tasks.find? (fun t => t.ID == claim.TaskID) = some task)
    (hown : task.OwnerID = ownerID) :
    (claimService.RejectClaim claimID ownerID w).1 = none
    ∧ (claimService.RejectClaim claimID ownerID w).2.store.claims.find?
          (fun c => c.ID == claimID)
        = some { claim with Status := ClaimStatus.Rejected }
    ∧ (claim.IsSubmitted = true →
        (claimService.ApproveClaim claimID ownerID w).1 = none
        ∧ (claimService.ApproveClaim claimID ownerID w).2.store.claims.find?
              (fun c => c.ID == claimID)
            = some { claim with Status := ClaimStatus.Approved }) := by
  have hcid : claim.ID = claimID := claim_id_of_find hc
  have hrej : claimService.RejectClaim claimID ownerID w
      = (none, { w with store := w.store.setClaimStatus claimID ClaimStatus.Rejected,
                        tick := w.tick + 1 + 1 + 1 }) := by
    simp [claimService.RejectClaim, dbCall_quiet, hq, hc, ht, hown]
  refine ⟨by rw [hrej], ?_, ?_⟩
  · rw [hrej]
    show (List.map _ w.store.claims).find? (fun c : Claim => c.ID == claimID) = _
    rw [find?_map_key (fun c : Claim => c.ID) _ (by intro a; split <;> rfl), hc]
    simp [hcid]
  · intro hsub
    rw [ApproveClaim_quiet claimID ownerID w claim task hq hc ht hown hsub]
    exact ⟨rfl, approvedStore_find_claim w claim task claimID hc⟩

/-- C26 (witness): the owner rejects, or approves again, the approved claim of
Scenario B. -/
theorem resolution_ignores_status_witness :
    (claimService.RejectClaim 5 10 (World.quiet (resolvedStore ClaimStatus.Approved) 100 3)).1
      = none
    ∧ (claimService.RejectClaim 5 10
        (World.quiet (resolvedStore ClaimStatus.Approved) 100 3)).2.store.claims.find?
          (fun c => c.ID == 5)
        = some { ({ submittedClaim with Status := ClaimStatus.Approved } : Claim) with
                   Status := ClaimStatus.Rejected }
    ∧ (Claim.IsSubmitted { submittedClaim with Status := ClaimStatus.Approved } = true →
        (claimService.ApproveClaim 5 10
          (World.quiet (resolvedStore ClaimStatus.Approved) 100 3)).1 = none
        ∧ (claimService.ApproveClaim 5 10
            (World.quiet (resolvedStore ClaimStatus.Approved) 100 3)).2.store.claims.find?
              (fun c => c.ID == 5)
            = some { ({ submittedClaim with Status := ClaimStatus.Approved } : Claim) with
                       Status := ClaimStatus.Approved }) :=
  resolution_ignores_status 5 10 (World.quiet (resolvedStore ClaimStatus.Approved) 100 3)
    { submittedClaim with Status := ClaimStatus.Approved } claimedTask
    (fun _ => rfl) (by decide) (by decide) (by decide)


/-! ## Retrying after a failed pass -/

/-- C27 (counterexample): the expired test task without claims is swept at clock 0 when
the first round trip of its refund fails (round trip number 3).  The pass returns no
error and leaves the task `Cancelled` with the escrow flag still set and no `Refund` in
the ledger; the next pass returns no error, and after five passes in all, the later
ones without any failure, the task is still `Cancelled` and locked and the ledger is
still empty. -/
theorem cancelled_task_not_retried :
    (taskService.AutoCancelExpiredTasks (World.failingAt (soleTask expiredTask) 100 0 3)).1
      = none
    ∧ (taskService.AutoCancelExpiredTasks
        (World.failingAt (soleTask expiredTask) 100 0 3)).2.store
      = soleTask { expiredTask with Status := TaskStatus.Cancelled }
    ∧ (taskService.AutoCancelExpiredTasks
        (taskService.AutoCancelExpiredTasks
          (World.failingAt (soleTask expiredTask) 100 0 3)).2).1 = none
    ∧ (passes 5 (World.failingAt (soleTask expiredTask) 100 0 3)).store
      = { tasks := [{ expiredTask with Status := TaskStatus.Cancelled, EscrowLocked := true }],
          claims := [], ledger := [], users := [], chats := [] } := by
  decide

theorem AutoCancelExpiredTasks_faults (w : World) :
    (taskService.AutoCancelExpiredTasks w).2.faults = w.faults := by
  unfold taskService.AutoCancelExpiredTasks
  simp only []
  split
  · simp
  · simp [autoCancelLoop_faults]

/-- No refund of a pass is selected by a condition that fixes an identifier which no
task of the sweep list carries. -/
theorem length_filter_sweepRefunds_none (s : Store) (sweep : List Task) (id : UUID)
    (q : UUID × EscrowTransactionType × UUID × Amount → Bool)
    (hsweep : ∀ x ∈ sweep, x.ID ≠ id)
    (hq : ∀ k, q k = true → k.1 = id) :
    ((sweepRefunds s sweep).filter q).length = 0 := by
  rw [List.length_eq_zero, List.filter_eq_nil_iff]
  intro k hk
  unfold sweepRefunds at hk
  rw [List.mem_map] at hk
  obtain ⟨x, hx, rfl⟩ := hk
  intro hqk
  exact hsweep x (List.mem_of_mem_filter hx) (hq _ hqk)

/-- A pass in which no round trip fails leaves a task that is not `Open` alone. -/
theorem AutoCancelExpiredTasks_skips_closed (w : World) (hq : ∀ n, w.faults n = false)
    (huniq : TaskIDsUnique w.store) (t : Task) (ht : t ∈ w.store.tasks)
    (hst : t.Status ≠ TaskStatus.Open) :
    TaskIDsUnique (taskService.AutoCancelExpiredTasks w).2.store
    ∧ t ∈ (taskService.AutoCancelExpiredTasks w).2.store.tasks
    ∧ (refundsFor (taskService.AutoCancelExpiredTasks w).2.store t.ID).length
        = (refundsFor w.store t.ID).length := by
  have hloop : (taskService.AutoCancelExpiredTasks w).2.store.tasks
        = w.store.tasks.map (sweepRow w.store (w.store.tasks.filter
            (fun t => t.Status == TaskStatus.Open && decide (t.ClaimDeadline ≤ w.now))))
      ∧ (taskService.AutoCancelExpiredTasks w).2.store.ledger.map txKey
        = w.store.ledger.map txKey ++ sweepRefunds w.store (w.store.tasks.filter
            (fun t => t.Status == TaskStatus.Open && decide (t.ClaimDeadline ≤ w.now))) := by
    rw [AutoCancelExpiredTasks_quiet w hq]
    exact autoCancelLoop_quiet w.store _ { w with tick := w.tick + 1 } hq rfl
  have hnot : ∀ x ∈ w.store.tasks.filter
      (fun t => t.Status == TaskStatus.Open && decide (t.ClaimDeadline ≤ w.now)),
      x.ID ≠ t.ID := by
    intro x hx hid
    rw [List.mem_filter] at hx
    have hxt : x = t := by
      have h1 := filter_id_of_unique _ huniq t ht
      have h2 : x ∈ w.store.tasks.filter (fun y => y.ID == t.ID) := by
        rw [List.mem_filter]
        exact ⟨hx.1, by simp [hid]⟩
      rw [h1] at h2
      simpa using h2
    subst hxt
    simp at hx
    exact hst hx.2.1
  have hrow : sweepRow w.store (w.store.tasks.filter
      (fun t => t.Status == TaskStatus.Open && decide (t.ClaimDeadline ≤ w.now))) t = t := by
    have hany : (w.store.tasks.filter
        (fun t => t.Status == TaskStatus.Open && decide (t.ClaimDeadline ≤ w.now))).any
        (fun x => x.ID == t.ID && (w.store.activeClaims x.ID).isEmpty) = false := by
      rw [List.any_eq_false]
      intro x hx
      simp [hnot x hx]
    simp [sweepRow, hany]
  refine ⟨?_, ?_, ?_⟩
  · apply TaskIDsUnique_of_ids _ huniq
    rw [hloop.1, List.map_map]
    apply List.map_congr_left
    intro a _
    simp only [Function.comp, sweepRow_ID]
  · rw [hloop.1, List.mem_map]
    exact ⟨t, ht, hrow⟩
  · have hfor : ∀ s : Store, (refundsFor s t.ID).length
        = ((s.ledger.map txKey).filter
            (fun k => k.1 == t.ID && k.2.1 == EscrowTransactionType.Refund)).length :=
      fun s => length_filter_txKey
        (fun k => k.1 == t.ID && k.2.1 == EscrowTransactionType.Refund) s.ledger
    rw [hfor, hfor, hloop.2, List.filter_append, List.length_append,
      length_filter_sweepRefunds_none w.store _ t.ID _ hnot
        (fun k hk => by simp at hk; exact hk.1)]
    rfl

/-- C27 (as amended): an iteration whose claim count or status update fails leaves the
tables as they were, so its task is still `Open` and is selected again by the next pass;
but a task that is not `Open`, such as one that a pass set to `Cancelled` before its
refund failed, is never selected again: on a tasks table with unique identifiers, after
any number of passes in which no round trip fails its row is the same (escrow flag
included) and the ledger holds as many `Refund` transactions for it as before. -/
theorem closed_task_never_swept (n : Nat) (w : World) (hq : ∀ n, w.faults n = false)
    (huniq : TaskIDsUnique w.store) (t : Task) (ht : t ∈ w.store.tasks)
    (hst : t.Status ≠ TaskStatus.Open) :
    (passes n w).store.tasks.filter (fun x => x.ID == t.ID) = [t]
    ∧ (refundsFor (passes n w).store t.ID).length = (refundsFor w.store t.ID).length
    ∧ (∀ (x : Task) (v : World), v.faults v.tick = true →
        (taskService.autoCancelStep x v).store = v.store)
    ∧ (∀ (x : Task) (v : World), v.faults v.tick = false →
        v.store.activeClaims x.ID = [] → v.faults (v.tick + 1) = true →
        (taskService.autoCancelStep x v).store = v.store) := by
  refine ⟨?_, ?_, fun x v h => by rw [autoCancelStep_count_fails x v h],
    fun x v h1 hc h2 => by rw [autoCancelStep_update_fails x v h1 hc h2]⟩
  all_goals induction n generalizing w with
  | zero => first | exact filter_id_of_unique _ huniq t ht | rfl
  | succ n ih =>
    have h1 := AutoCancelExpiredTasks_skips_closed w hq huniq t ht hst
    have hq2 : ∀ n, (taskService.AutoCancelExpiredTasks w).2.faults n = false := by
      intro k
      rw [AutoCancelExpiredTasks_faults]
      exact hq k
    have h2 := ih (taskService.AutoCancelExpiredTasks w).2 hq2 h1.1 h1.2.1
    first
      | exact h2
      | (rw [← h1.2.2]; exact h2)

/-- C27 (witness): three passes over the cancelled, still locked test task. -/
theorem closed_task_never_swept_witness :
    (passes 3 (World.quiet (soleTask { expiredTask with Status := TaskStatus.Cancelled }) 100 0)
        ).store.tasks.filter
        (fun x => x.ID == ({ expiredTask with Status := TaskStatus.Cancelled } : Task).ID)
      = [{ expiredTask with Status := TaskStatus.Cancelled }]
    ∧ (refundsFor (passes 3 (World.quiet
          (soleTask { expiredTask with Status := TaskStatus.Cancelled }) 100 0)).store
        ({ expiredTask with Status := TaskStatus.Cancelled } : Task).ID).length
      = (refundsFor (World.quiet
          (soleTask { expiredTask with Status := TaskStatus.Cancelled }) 100 0).store
        ({ expiredTask with Status := TaskStatus.Cancelled } : Task).ID).length
    ∧ (∀ (x : Task) (v : World), v.faults v.tick = true →
        (taskService.autoCancelStep x v).store = v.store)
    ∧ (∀ (x : Task) (v : World), v.faults v.tick = false →
        v.store.activeClaims x.ID = [] → v.faults (v.tick + 1) = true →
        (taskService.autoCancelStep x v).store = v.store) :=
  closed_task_never_swept 3
    (World.quiet (soleTask { expiredTask with Status := TaskStatus.Cancelled }) 100 0)
    (fun _ => rfl) (by unfold TaskIDsUnique; decide)
    { expiredTask with Status := TaskStatus.Cancelled } (by decide) (by decide)


/-! ## The claim routes -/

/-- The route registration of `main` panics, whichever gin release is linked: in a release
that lets fixed text stand beside a parameter, `GET /api/v1/tasks/:task_id/claims` meets
the parameter `:id` of `GET /api/v1/tasks/:id`, registered before it; in a release that
does not, `GET /api/v1/tasks/:id` already meets `GET /api/v1/tasks/my`. -/
theorem registerAll_mainRoutes (mixed : Bool) :
    registerAll mixed [] mainRoutes
      = Except.error (if mixed then RouterPanic.wildcardConflict getClaimsRoute getTaskRoute
          else RouterPanic.wildcardConflict getTaskRoute getUserTasksRoute) := by
  cases mixed <;> rfl

/-- The two claim routes alone can be registered. -/
theorem registerAll_claimRoutes (mixed : Bool) :
    registerAll mixed [] claimRoutes = Except.ok claimRoutes := by
  cases mixed <;> rfl

/-- In a release that lets fixed text stand beside a parameter, the calls of `main` up to
`api.POST("/tasks/:task_id/claims", ...)` succeed: the panic is raised by the next
call. -/
theorem registerAll_before_panic :
    registerAll true [] (mainRoutes.take 7) = Except.ok (mainRoutes.take 7) := by
  rfl

/-- A router that holds the two claim routes alone hands a request for
`/api/v1/tasks/u/claims` to the claim handler of the method, with `task_id` bound to
`u`. -/
theorem dispatch_claimRoutes (u : String) (hu : u ≠ "") :
    dispatch claimRoutes "POST" ["api", "v1", "tasks", u, "claims"]
      = some (postClaimsRoute, [("task_id", u)])
    ∧ dispatch claimRoutes "GET" ["api", "v1", "tasks", u, "claims"]
      = some (getClaimsRoute, [("task_id", u)]) := by
  have hm : matchRoute claimsRoute ["api", "v1", "tasks", u, "claims"]
      = some [("task_id", u)] := by
    simp [matchRoute, claimsRoute, hu]
  constructor
  · simp [dispatch, claimRoutes, postClaimsRoute, getClaimsRoute, hm]
  · simp [dispatch, claimRoutes, postClaimsRoute, getClaimsRoute, hm]

/-- C30: the program as written routes no request at all, because the route registration
of `main` panics before the server listens: `GET /api/v1/tasks/:task_id/claims` is
registered after `GET /api/v1/tasks/:id`, and the two name the parameter at the same
place differently.  The claim routes taken alone can be registered, and a router that
holds only them hands a request for `/api/v1/tasks/u/claims` to `ClaimTask` (for POST)
and to `GetClaimsByTask` (for GET) with the path parameter `task_id` bound to `u`; but
both handlers read the parameter `tid`, which the route does not declare: they get the
empty string, `parseUUID` turns it into the zero identifier (`uuid.Parse` rejects the
empty string), and the service is called with the zero identifier instead of the
identifier written in the path. -/
theorem claim_handlers_lose_task_id (parse : String → Option UUID)
    (hparse : parse "" = none) (u : String) (hu : u ≠ "") (userID : UUID) (w : World) :
    (∀ (mixed : Bool) (method : String) (path : List String),
        mainDispatch mixed method path
          = Except.error
              (if mixed then RouterPanic.wildcardConflict getClaimsRoute getTaskRoute
                else RouterPanic.wildcardConflict getTaskRoute getUserTasksRoute))
    ∧ (∀ mixed : Bool, registerAll mixed [] claimRoutes = Except.ok claimRoutes)
    ∧ dispatch claimRoutes "POST" ["api", "v1", "tasks", u, "claims"]
        = some (postClaimsRoute, [("task_id", u)])
    ∧ dispatch claimRoutes "GET" ["api", "v1", "tasks", u, "claims"]
        = some (getClaimsRoute, [("task_id", u)])
    ∧ Param [("task_id", u)] "tid" = ""
    ∧ parseUUID parse (Param [("task_id", u)] "tid") = 0
    ∧ (ClaimHandler.ClaimTask parse [("task_id", u)] userID w).2
        = (claimService.ClaimTask 0 userID w).2
    ∧ (ClaimHandler.GetClaimsByTask parse [("task_id", u)] w).2
        = (claimService.GetClaimsByTaskID 0 w).2
    ∧ ∀ claims, (claimService.GetClaimsByTaskID 0 w).1 = Except.ok claims →
        (ClaimHandler.GetClaimsByTask parse [("task_id", u)] w).1 = (200, claims) := by
  have hp : Param [("task_id", u)] "tid" = "" := by
    simp [Param]
  have hz : parseUUID parse (Param [("task_id", u)] "tid") = 0 := by
    rw [hp]
    simp [parseUUID, hparse]
  refine ⟨?_, registerAll_claimRoutes, (dispatch_claimRoutes u hu).1,
    (dispatch_claimRoutes u hu).2, hp, hz, ?_, ?_, ?_⟩
  · intro mixed method path
    unfold mainDispatch
    rw [registerAll_mainRoutes]
  · unfold ClaimHandler.ClaimTask
    simp only [hz]
    split
    · split <;> rfl
    · rfl
  · unfold ClaimHandler.GetClaimsByTask
    simp only [hz]
    split <;> rfl
  · intro claims h
    unfold ClaimHandler.GetClaimsByTask
    simp only [hz, h]

/-- C30 (witness): the requests `POST` and `GET /api/v1/tasks/1/claims` of user 20. -/
theorem claim_handlers_lose_task_id_witness :
    (∀ (mixed : Bool) (method : String) (path : List String),
        mainDispatch mixed method path
          = Except.error
              (if mixed then RouterPanic.wildcardConflict getClaimsRoute getTaskRoute
                else RouterPanic.wildcardConflict getTaskRoute getUserTasksRoute))
    ∧ (∀ mixed : Bool, registerAll mixed [] claimRoutes = Except.ok claimRoutes)
    ∧ dispatch claimRoutes "POST" ["api", "v1", "tasks", "1", "claims"]
        = some (postClaimsRoute, [("task_id", "1")])
    ∧ dispatch claimRoutes "GET" ["api", "v1", "tasks", "1", "claims"]
        = some (getClaimsRoute, [("task_id", "1")])
    ∧ Param [("task_id", "1")] "tid" = ""
    ∧ parseUUID parseExample (Param [("task_id", "1")] "tid") = 0
    ∧ (ClaimHandler.ClaimTask parseExample [("task_id", "1")] 20
          (World.quiet (soleTask (openTask 1)) 100 0)).2
        = (claimService.ClaimTask 0 20 (World.quiet (soleTask (openTask 1)) 100 0)).2
    ∧ (ClaimHandler.GetClaimsByTask parseExample [("task_id", "1")]
          (World.quiet (soleTask (openTask 1)) 100 0)).2
        = (claimService.GetClaimsByTaskID 0 (World.quiet (soleTask (openTask 1)) 100 0)).2
    ∧ ∀ claims, (claimService.GetClaimsByTaskID 0
          (World.quiet (soleTask (openTask 1)) 100 0)).1 = Except.ok claims →
        (ClaimHandler.GetClaimsByTask parseExample [("task_id", "1")]
          (World.quiet (soleTask (openTask 1)) 100 0)).1 = (200, claims) :=
  claim_handlers_lose_task_id parseExample (by decide) "1" (by decide) 20
    (World.quiet (soleTask (openTask 1)) 100 0)

/-- The request `POST /api/v1/tasks/1/claims` of user 20 on a router that holds the two
claim routes alone, when task 1 is the open, unlocked test task without claims:
`ClaimTask` called with task 1 creates the claim, but the handler answers 400 and creates
no claim, while a handler reading `task_id` would answer 201 with the new claim. -/
theorem claim_request_for_open_task_rejected :
    parseExample "1" = some 1
    ∧ (claimService.ClaimTask 1 20 (World.quiet (soleTask (openTask 1)) 100 0)).1
        = (some (newClaim 100 20 0), none)
    ∧ (dispatch claimRoutes "POST" ["api", "v1", "tasks", "1", "claims"]).map
        (fun m => (m.1.handler, (ClaimHandler.ClaimTask parseExample m.2 20
          (World.quiet (soleTask (openTask 1)) 100 0)).1))
        = some ("claimHandler.ClaimTask", 400, none)
    ∧ (dispatch claimRoutes "POST" ["api", "v1", "tasks", "1", "claims"]).map
        (fun m => (ClaimHandler.ClaimTask parseExample m.2 20
          (World.quiet (soleTask (openTask 1)) 100 0)).2.store.claims) = some []
    ∧ (dispatch claimRoutes "POST" ["api", "v1", "tasks", "1", "claims"]).map
        (fun m => (ClaimHandler.ClaimTaskReading "task_id" parseExample m.2 20
          (World.quiet (soleTask (openTask 1)) 100 0)).1)
        = some (201, some (newClaim 100 20 0)) := by
  decide

/-! ## The effect of each operation when no round trip fails -/

theorem QuietEffect_same {w w2 : World} (h : w2.store = w.store) : QuietEffect w w2 :=
  QuietEffect.flags id (fun _ => ⟨rfl, rfl⟩) (by rw [h]; simp) (by rw [h])

/-- The row found by a lookup is a row of the table. -/
theorem mem_of_find {α : Type} {p : α → Bool} {l : List α} {a : α}
    (h : l.find? p = some a) : a ∈ l := List.mem_of_find?_eq_some h

/-- What `ClaimTask` does when no round trip fails. -/
theorem ClaimTask_quiet_effect (taskID claimerID : UUID) (w : World)
    (hq : ∀ n, w.faults n = false) :
    QuietEffect w (claimService.ClaimTask taskID claimerID w).2 := by
  rcases h : w.store.tasks.find? (fun t => t.ID == taskID) with _ | task
  · apply QuietEffect_same
    simp [claimService.ClaimTask, dbCall_quiet, hq, h]
  have hid : task.ID = taskID := task_id_of_find h
  cases hc : task.CanBeClaimed w.now
  · apply QuietEffect_same
    simp [claimService.ClaimTask, dbCall_quiet, hq, h, hc]
  have hopen : task.Status = TaskStatus.Open := by
    simp [Task.CanBeClaimed] at hc
    exact hc.1.1
  rcases he : w.store.claims.find?
      (fun c => c.TaskID == taskID && c.ClaimerID == claimerID) with _ | existing
  swap
  · apply QuietEffect_same
    simp [claimService.ClaimTask, dbCall_quiet, hq, h, hc, he]
  by_cases hlim : task.MaxClaimants ≤ ((w.store.activeClaims taskID).length : Int)
  · apply QuietEffect_same
    simp [claimService.ClaimTask, dbCall_quiet, hq, h, hc, he, hlim]
  by_cases h0 : w.store.activeClaims taskID = []
  · have hpos : ¬ task.MaxClaimants ≤ 0 := by
      rw [h0] at hlim
      simpa using hlim
    refine QuietEffect.claimed task
      { ID := w.uuids w.drawn, TaskID := taskID, ClaimerID := claimerID,
        Status := ClaimStatus.Pending, SubmittedAt := none, CompletionText := "",
        CompletionImageURL := "", CreatedAt := w.now, UpdatedAt := w.now }
      (mem_of_find h) hopen hid.symm rfl (by rw [hid]; exact h0) ?_ ?_
    · simp [claimService.ClaimTask, dbCall_quiet, hq, h, hc, he, h0, hpos, uuidNew, hid]
    · simp [claimService.ClaimTask, dbCall_quiet, hq, h, hc, he, h0, hpos, uuidNew]
  · refine QuietEffect.claimedMore task
      { ID := w.uuids w.drawn, TaskID := taskID, ClaimerID := claimerID,
        Status := ClaimStatus.Pending, SubmittedAt := none, CompletionText := "",
        CompletionImageURL := "", CreatedAt := w.now, UpdatedAt := w.now }
      (mem_of_find h) hopen hid.symm rfl (by rw [hid]; exact h0) ?_ ?_
    · simp [claimService.ClaimTask, dbCall_quiet, hq, h, hc, he, hlim, h0, uuidNew]
    · simp [claimService.ClaimTask, dbCall_quiet, hq, h, hc, he, hlim, h0, uuidNew]

theorem QuietEffect_flag {w w2 : World} (id : UUID) (b : Bool)
    (ht : w2.store.tasks = w.store.tasks.map (fun t => if t.ID = id then
      { t with EscrowLocked := b } else t))
    (hc : w2.store.claims = w.store.claims) : QuietEffect w w2 :=
  QuietEffect.flags _ (fun t => by split <;> simp) ht hc

/-- What `SubmitCompletion` does when no round trip fails. -/
theorem SubmitCompletion_quiet_effect (claimID userID : UUID) (text imageURL : String)
    (w : World) (hq : ∀ n, w.faults n = false) :
    QuietEffect w (claimService.SubmitCompletion claimID userID text imageURL w).2 := by
  rcases h : w.store.claims.find? (fun c => c.ID == claimID) with _ | claim
  · apply QuietEffect_same
    simp [claimService.SubmitCompletion, dbCall_quiet, hq, h]
  by_cases hu : claim.ClaimerID = userID
  swap
  · apply QuietEffect_same
    simp [claimService.SubmitCompletion, dbCall_quiet, hq, h, hu]
  by_cases htext : text = ""
  · apply QuietEffect_same
    simp [claimService.SubmitCompletion, dbCall_quiet, hq, h, hu, htext]
  refine QuietEffect.claimsUpdated (fun c => if c.ID = claimID then
      { c with CompletionText := text, CompletionImageURL := imageURL,
               SubmittedAt := some w.now } else c)
    (fun c => by dsimp only; split <;> simp) ?_ ?_
  · simp only [claimService.SubmitCompletion, dbCall_quiet, hq, h, hu, htext]
    simp only [ne_eq, not_true_eq_false, if_false]
    repeat' split
    all_goals simp
  · simp only [claimService.SubmitCompletion, dbCall_quiet, hq, h, hu, htext]
    simp only [ne_eq, not_true_eq_false, if_false]
    repeat' split
    all_goals simp

/-- What `RejectClaim` does when no round trip fails. -/
theorem RejectClaim_quiet_effect (claimID ownerID : UUID) (w : World)
    (hq : ∀ n, w.faults n = false) :
    QuietEffect w (claimService.RejectClaim claimID ownerID w).2 := by
  rcases h : w.store.claims.find? (fun c => c.ID == claimID) with _ | claim
  · apply QuietEffect_same
    simp [claimService.RejectClaim, dbCall_quiet, hq, h]
  rcases ht : w.store.tasks.find? (fun t => t.ID == claim.TaskID) with _ | task
  · apply QuietEffect_same
    simp [claimService.RejectClaim, dbCall_quiet, hq, h, ht]
  by_cases hown : task.OwnerID = ownerID
  swap
  · apply QuietEffect_same
    simp [claimService.RejectClaim, dbCall_quiet, hq, h, ht, hown]
  refine QuietEffect.claimsUpdated (fun c => if c.ID = claimID then
      { c with Status := ClaimStatus.Rejected } else c)
    (fun c => by dsimp only; split <;> simp) ?_ ?_
  · simp [claimService.RejectClaim, dbCall_quiet, hq, h, ht, hown]
  · simp [claimService.RejectClaim, dbCall_quiet, hq, h, ht, hown]

/-- What `ApproveClaim` does when no round trip fails. -/
theorem ApproveClaim_quiet_effect (claimID ownerID : UUID) (w : World)
    (hq : ∀ n, w.faults n = false) :
    QuietEffect w (claimService.ApproveClaim claimID ownerID w).2 := by
  rcases h : w.store.claims.find? (fun c => c.ID == claimID) with _ | claim
  · apply QuietEffect_same
    simp [claimService.ApproveClaim, dbCall_quiet, hq, h]
  rcases ht : w.store.tasks.find? (fun t => t.ID == claim.TaskID) with _ | task
  · apply QuietEffect_same
    simp [claimService.ApproveClaim, dbCall_quiet, hq, h, ht]
  by_cases hown : task.OwnerID = ownerID
  swap
  · apply QuietEffect_same
    simp [claimService.ApproveClaim, dbCall_quiet, hq, h, ht, hown]
  cases hsub : claim.IsSubmitted
  · apply QuietEffect_same
    simp [claimService.ApproveClaim, dbCall_quiet, hq, h, ht, hown, hsub]
  have hid : task.ID = claim.TaskID := task_id_of_find ht
  rw [ApproveClaim_quiet claimID ownerID w claim task hq h ht hown hsub]
  refine QuietEffect.approved (fun c => if c.ID = claim.ID then
      { c with Status := ClaimStatus.Approved } else c)
    (fun c => by dsimp only; split <;> simp) claim (mem_of_find h) ?_ ?_
  · show (approvedStore w claim task).tasks = _
    rw [approvedStore_tasks, hid]
  · show (approvedStore w claim task).claims = _
    rw [approvedStore_claims]

/-- What `AutoCancelExpiredTasks` does when no round trip fails. -/
theorem AutoCancelExpiredTasks_quiet_effect (w : World) (hq : ∀ n, w.faults n = false) :
    QuietEffect w (taskService.AutoCancelExpiredTasks w).2 := by
  have hloop := autoCancelLoop_quiet w.store
    (w.store.tasks.filter
      (fun t => t.Status == TaskStatus.Open && decide (t.ClaimDeadline ≤ w.now)))
    { w with tick := w.tick + 1 } hq rfl
  rw [AutoCancelExpiredTasks_quiet w hq]
  refine QuietEffect.swept (fun id => (w.store.tasks.filter
      (fun t => t.Status == TaskStatus.Open && decide (t.ClaimDeadline ≤ w.now))).any
      (fun x => x.ID == id && (w.store.activeClaims x.ID).isEmpty)) ?_ ?_ ?_
  · intro id hid
    rw [List.any_eq_true] at hid
    obtain ⟨x, hx, hxid⟩ := hid
    rw [List.mem_filter] at hx
    simp at hxid hx
    exact ⟨x, hx.1, hxid.1, hx.2.1⟩
  · exact hloop.1
  · exact autoCancelLoop_claims _ _

theorem QuietEffect_frame {w w2 : World} (ht : w2.store.tasks = w.store.tasks)
    (hc : w2.store.claims = w.store.claims) : QuietEffect w w2 :=
  QuietEffect.flags id (fun _ => ⟨rfl, rfl⟩) (by rw [ht]; simp) hc

/-- What `LockEscrow` does when no round trip fails. -/
theorem LockEscrow_quiet_effect (taskID userID : UUID) (amount : Amount) (w : World)
    (hq : ∀ n, w.faults n = false) :
    QuietEffect w (escrowService.LockEscrow taskID userID amount w).2 := by
  rcases h : w.store.tasks.find? (fun t => t.ID == taskID) with _ | task
  · apply QuietEffect_frame <;> simp [escrowService.LockEscrow, dbCall_quiet, hq, h]
  cases hl : task.EscrowLocked
  · apply QuietEffect_flag taskID true <;>
      simp [escrowService.LockEscrow, dbCall_quiet, hq, h, hl, uuidNew]
  · apply QuietEffect_frame <;> simp [escrowService.LockEscrow, dbCall_quiet, hq, h, hl]

/-- What `ReleaseEscrow` does. -/
theorem ReleaseEscrow_quiet_effect (taskID userID : UUID) (amount : Amount) (w : World) :
    QuietEffect w (escrowService.ReleaseEscrow taskID userID amount w).2 :=
  QuietEffect_frame (ReleaseEscrow_tasks taskID userID amount w)
    (ReleaseEscrow_claims taskID userID amount w)

/-- What `RefundEscrow` does when no round trip fails. -/
theorem RefundEscrow_quiet_effect (taskID userID : UUID) (amount : Amount) (w : World)
    (hq : ∀ n, w.faults n = false) :
    QuietEffect w (escrowService.RefundEscrow taskID userID amount w).2 := by
  apply QuietEffect_flag taskID false <;>
    simp [escrowService.RefundEscrow, dbCall_quiet, hq, uuidNew]

/-- What `CreateTask` does when no round trip fails and the identifier drawn is new. -/
theorem CreateTask_quiet_effect (ownerID : UUID) (req : CreateTaskRequest) (w : World)
    (hq : ∀ n, w.faults n = false) (hfresh : ∀ t ∈ w.store.tasks, t.ID ≠ w.uuids w.drawn) :
    QuietEffect w (taskService.CreateTask ownerID req w).2 := by
  by_cases hv1 : req.Title = "" ∨ req.Title.utf8ByteSize > 500
  · apply QuietEffect_same
    simp [taskService.CreateTask, hv1]
  by_cases hv2 : req.Description = ""
  · apply QuietEffect_same
    simp [taskService.CreateTask, hv1, hv2]
  by_cases hv3 : req.RewardAmount ≤ 0
  · apply QuietEffect_same
    simp [taskService.CreateTask, hv1, hv2, hv3]
  by_cases hv4 : req.MaxClaimants ≤ 0
  · apply QuietEffect_same
    simp [taskService.CreateTask, hv1, hv2, hv3, hv4]
  by_cases hv5 : req.ClaimDeadline < w.now
  · apply QuietEffect_same
    simp [taskService.CreateTask, hv1, hv2, hv3, hv4, hv5]
  by_cases hv6 : req.OwnerDeadline < req.ClaimDeadline
  · apply QuietEffect_same
    simp [taskService.CreateTask, hv1, hv2, hv3, hv4, hv5, hv6]
  have hnone : w.store.tasks.find? (fun t => t.ID == w.uuids w.drawn) = none := by
    rw [List.find?_eq_none]
    intro t ht
    simpa using hfresh t ht
  refine QuietEffect.created
    (fun t => if t.ID = w.uuids w.drawn then { t with EscrowLocked := true } else t)
    (fun t => by dsimp only; split <;> simp)
    { ID := w.uuids w.drawn, OwnerID := ownerID, Title := req.Title,
      Description := req.Description, RewardAmount := req.RewardAmount,
      MaxClaimants := req.MaxClaimants, ClaimDeadline := req.ClaimDeadline,
      OwnerDeadline := req.OwnerDeadline, Status := TaskStatus.Open,
      EscrowLocked := true, CreatedAt := w.now, UpdatedAt := w.now }
    rfl rfl ?_ ?_ ?_
  · simp [taskService.CreateTask, escrowService.LockEscrow, hv1, hv2, hv3, hv4, hv5, hv6,
      dbCall_quiet, hq, uuidNew, List.find?_append, hnone]
    omega
  · simp [taskService.CreateTask, escrowService.LockEscrow, hv1, hv2, hv3, hv4, hv5, hv6,
      dbCall_quiet, hq, uuidNew, List.find?_append, hnone]
  · simp [taskService.CreateTask, escrowService.LockEscrow, hv1, hv2, hv3, hv4, hv5, hv6,
      dbCall_quiet, hq, uuidNew, List.find?_append, hnone]

/-- What an operation does when no round trip fails and the identifier drawn is new. -/
theorem Op_quiet_effect (op : Op) (w : World) (hq : ∀ n, w.faults n = false)
    (hfresh : ∀ t ∈ w.store.tasks, t.ID ≠ w.uuids w.drawn) :
    QuietEffect w (op.run w) := by
  cases op with
  | CreateTask ownerID req => exact CreateTask_quiet_effect ownerID req w hq hfresh
  | ClaimTask taskID claimerID => exact ClaimTask_quiet_effect taskID claimerID w hq
  | SubmitCompletion claimID userID text imageURL =>
    exact SubmitCompletion_quiet_effect claimID userID text imageURL w hq
  | ApproveClaim claimID ownerID => exact ApproveClaim_quiet_effect claimID ownerID w hq
  | RejectClaim claimID ownerID => exact RejectClaim_quiet_effect claimID ownerID w hq
  | LockEscrow taskID userID amount => exact LockEscrow_quiet_effect taskID userID amount w hq
  | ReleaseEscrow taskID userID amount =>
    exact ReleaseEscrow_quiet_effect taskID userID amount w
  | RefundEscrow taskID userID amount =>
    exact RefundEscrow_quiet_effect taskID userID amount w hq
  | AutoCancelExpiredTasks => exact AutoCancelExpiredTasks_quiet_effect w hq

/-! ## The single-claim invariant -/

/-- C28 (counterexample): the predicate of the claim holds for the open test task with a
single `Cancelled` claim; `RejectClaim` by the owner, with no round trip failing, returns
no error and turns that claim into a `Rejected` one, so that the task is `Open` with one
non-`Cancelled` claim and the predicate no longer holds. -/
theorem RejectClaim_breaks_one_claim_invariant :
    OneClaimInv cancelledOnOpenStore
    ∧ (claimService.RejectClaim 5 10 (World.quiet cancelledOnOpenStore 100 0)).1 = none
    ∧ (claimService.RejectClaim 5 10 (World.quiet cancelledOnOpenStore 100 0)).2.store
      = { cancelledOnOpenStore with
          claims := [{ newClaim 5 20 0 with Status := ClaimStatus.Rejected }] }
    ∧ ¬ OneClaimInv
        (claimService.RejectClaim 5 10 (World.quiet cancelledOnOpenStore 100 0)).2.store := by
  decide

/-- The number of claims of a task that count is not changed by an update of claim rows
that keeps, on every row, the task reference and whether the claim is `Cancelled`. -/
theorem activeClaims_length_map {s s2 : Store} (g : Claim → Claim)
    (hg : ∀ c ∈ s.claims, (g c).TaskID = c.TaskID
      ∧ ((g c).Status = ClaimStatus.Cancelled ↔ c.Status = ClaimStatus.Cancelled))
    (hc : s2.claims = s.claims.map g) (id : UUID) :
    (s2.activeClaims id).length = (s.activeClaims id).length := by
  simp only [Store.activeClaims, hc]
  apply length_filter_map_of_mem
  intro c hcm
  obtain ⟨h1, h2⟩ := hg c hcm
  by_cases hcc : c.Status = ClaimStatus.Cancelled
  · simp [h1, hcc, h2.2 hcc]
  · have hgc : (g c).Status ≠ ClaimStatus.Cancelled := fun hx => hcc (h2.1 hx)
    have e1 : ((g c).Status != ClaimStatus.Cancelled) = true := by simpa using hgc
    have e2 : (c.Status != ClaimStatus.Cancelled) = true := by simpa using hcc
    rw [h1, e1, e2]

/-- An update of claim rows that only resolves claims keeps `Cancelled` claims out. -/
theorem resolved_keeps_cancelled {s : Store} (g : Claim → Claim)
    (hg : ∀ c, (g c).TaskID = c.TaskID ∧ ((g c).Status = c.Status
      ∨ (g c).Status = ClaimStatus.Rejected ∨ (g c).Status = ClaimStatus.Approved))
    (hn : NoCancelledClaims s) :
    ∀ c ∈ s.claims, (g c).TaskID = c.TaskID
      ∧ ((g c).Status = ClaimStatus.Cancelled ↔ c.Status = ClaimStatus.Cancelled) := by
  intro c hc
  refine ⟨(hg c).1, ?_⟩
  have h0 := hn c hc
  rcases (hg c).2 with h | h | h
  · rw [h]
  · constructor
    · intro hx; rw [h] at hx; cases hx
    · intro hx; exact absurd hx h0
  · constructor
    · intro hx; rw [h] at hx; cases hx
    · intro hx; exact absurd hx h0

theorem NoCancelledClaims_map {s s2 : Store} (g : Claim → Claim)
    (hg : ∀ c, (g c).TaskID = c.TaskID ∧ ((g c).Status = c.Status
      ∨ (g c).Status = ClaimStatus.Rejected ∨ (g c).Status = ClaimStatus.Approved))
    (hc : s2.claims = s.claims.map g) (hn : NoCancelledClaims s) :
    NoCancelledClaims s2 := by
  intro c hcm
  rw [hc, List.mem_map] at hcm
  obtain ⟨c0, hc0, rfl⟩ := hcm
  have h0 := hn c0 hc0
  rcases (hg c0).2 with h | h | h
  · rw [h]; exact h0
  · rw [h]; decide
  · rw [h]; decide

/-- The amended invariant of C28 is kept by every effect of an operation. -/
theorem OneClaimInv_of_effect {w w2 : World} (he : QuietEffect w w2)
    (hfr : ∀ c ∈ w.store.claims, c.TaskID ≠ w.uuids w.drawn)
    (hn : NoCancelledClaims w.store) (h1 : OneClaimInv w.store) :
    NoCancelledClaims w2.store ∧ OneClaimInv w2.store := by
  cases he with
  | flags f hf ht hc =>
    refine ⟨fun c hcm => hn c (hc ▸ hcm), ?_⟩
    intro t htm
    rw [ht, List.mem_map] at htm
    obtain ⟨t0, ht0, rfl⟩ := htm
    rw [(hf t0).1, (hf t0).2, activeClaims_congr hc]
    exact h1 t0 ht0
  | created f hf new hid hst hd ht hc =>
    refine ⟨fun c hcm => hn c (hc ▸ hcm), ?_⟩
    intro t htm
    rw [ht, List.mem_append, List.mem_map, List.mem_singleton] at htm
    rcases htm with ⟨t0, ht0, rfl⟩ | rfl
    · rw [(hf t0).1, (hf t0).2, activeClaims_congr hc]
      exact h1 t0 ht0
    · rw [activeClaims_congr hc, hid, activeClaims_of_fresh _ _ hfr]
      simp
  | claimed task c hmem hopen hcid hcst hcount ht hc =>
    constructor
    · intro c2 hcm
      rw [hc, List.mem_append, List.mem_singleton] at hcm
      rcases hcm with hcm | rfl
      · exact hn c2 hcm
      · rw [hcst]; decide
    · intro t htm
      rw [ht, List.mem_map] at htm
      obtain ⟨t0, ht0, rfl⟩ := htm
      by_cases hid : t0.ID = task.ID
      · have hlen : (w2.store.activeClaims task.ID).length = 1 := by
          simp only [Store.activeClaims, hc, List.filter_append]
          have h0 : w.store.claims.filter
              (fun c => c.TaskID == task.ID && c.Status != ClaimStatus.Cancelled) = [] :=
            hcount
          rw [h0]
          simp [List.filter_cons, hcid, hcst]
        simp [hid, hlen]
      · have hlen : (w2.store.activeClaims t0.ID).length
            = (w.store.activeClaims t0.ID).length := by
          simp only [Store.activeClaims, hc, List.filter_append]
          have hne : ¬ task.ID = t0.ID := fun h => hid h.symm
          simp [List.filter_cons, hcid, hne]
        simp only [hid, if_false]
        rw [hlen]
        exact h1 t0 ht0
  | claimedMore task c hmem hopen hcid hcst hcount ht hc =>
    exfalso
    apply hcount
    exact List.length_eq_zero.1 ((h1 task hmem).1 hopen)
  | claimsUpdated g hg ht hc =>
    refine ⟨NoCancelledClaims_map g hg hc hn, ?_⟩
    intro t htm
    rw [ht] at htm
    rw [activeClaims_length_map g (resolved_keeps_cancelled g hg hn) hc]
    exact h1 t htm
  | approved g hg claim hmem ht hc =>
    refine ⟨NoCancelledClaims_map g hg hc hn, ?_⟩
    intro t htm
    rw [ht, List.mem_map] at htm
    obtain ⟨t0, ht0, rfl⟩ := htm
    have hlen := activeClaims_length_map g (resolved_keeps_cancelled g hg hn) hc
    by_cases hid : t0.ID = claim.TaskID
    · simp only [hid, if_true]
      rw [hlen, ← hid]
      exact ⟨fun h => (by cases h), (h1 t0 ht0).2⟩
    · simp only [hid, if_false]
      rw [hlen]
      exact h1 t0 ht0
  | swept cancel hcancel ht hc =>
    refine ⟨fun c hcm => hn c (hc ▸ hcm), ?_⟩
    intro t htm
    rw [ht, List.mem_map] at htm
    obtain ⟨t0, ht0, rfl⟩ := htm
    cases hcan : cancel t0.ID
    · simp only [Bool.false_eq_true, if_false]
      rw [activeClaims_congr hc]
      exact h1 t0 ht0
    · simp only [if_true]
      rw [activeClaims_congr hc]
      exact ⟨fun h => (by cases h), (h1 t0 ht0).2⟩

/-- C28 (as amended): the predicate `no claim is Cancelled, and every task has no
non-Cancelled claim while it is Open and at most one otherwise` is preserved by every
operation when no round trip fails and the identifier drawn next is carried by no task
and referenced by no claim.  Consequently, after the operation no `Open` task has a claim
that counts (the reconciler finds a zero count for every task it sweeps) and no task has
more than one claim in all, whatever its `max_claimants`. -/
theorem one_claim_invariant_preserved (op : Op) (w : World)
    (hq : ∀ n, w.faults n = false) (hfresh : FreshID w)
    (hn : NoCancelledClaims w.store) (h1 : OneClaimInv w.store) :
    NoCancelledClaims (op.run w).store
    ∧ OneClaimInv (op.run w).store
    ∧ (∀ t ∈ (op.run w).store.tasks, t.Status = TaskStatus.Open →
        (op.run w).store.activeClaims t.ID = [])
    ∧ (∀ t ∈ (op.run w).store.tasks,
        ((op.run w).store.claims.filter (fun c => c.TaskID == t.ID)).length ≤ 1) := by
  have h2 := OneClaimInv_of_effect (Op_quiet_effect op w hq hfresh.1) hfresh.2 hn h1
  refine ⟨h2.1, h2.2, ?_, ?_⟩
  · intro t ht hopen
    exact List.length_eq_zero.1 ((h2.2 t ht).1 hopen)
  · intro t ht
    have h3 := (h2.2 t ht).2
    have h4 : (op.run w).store.activeClaims t.ID
        = (op.run w).store.claims.filter (fun c => c.TaskID == t.ID) := by
      unfold Store.activeClaims
      apply List.filter_congr
      intro c hc
      have := h2.1 c hc
      simp [this]
    rw [← h4]
    exact h3

/-- C28 (witness): claimer 20 claims the open test task, which allows three claimants. -/
theorem one_claim_invariant_preserved_witness :
    NoCancelledClaims ((Op.ClaimTask 1 20).run
      (World.quiet (soleTask (openTask 3)) 100 0)).store
    ∧ OneClaimInv ((Op.ClaimTask 1 20).run
      (World.quiet (soleTask (openTask 3)) 100 0)).store
    ∧ (∀ t ∈ ((Op.ClaimTask 1 20).run (World.quiet (soleTask (openTask 3)) 100 0)).store.tasks,
        t.Status = TaskStatus.Open →
        ((Op.ClaimTask 1 20).run
          (World.quiet (soleTask (openTask 3)) 100 0)).store.activeClaims t.ID = [])
    ∧ (∀ t ∈ ((Op.ClaimTask 1 20).run (World.quiet (soleTask (openTask 3)) 100 0)).store.tasks,
        (((Op.ClaimTask 1 20).run (World.quiet (soleTask (openTask 3)) 100 0)).store.claims.filter
          (fun c => c.TaskID == t.ID)).length ≤ 1) :=
  one_claim_invariant_preserved (Op.ClaimTask 1 20)
    (World.quiet (soleTask (openTask 3)) 100 0) (fun _ => rfl)
    (by unfold FreshID; decide) (by decide) (by decide)


/-! ## What no operation touches -/

theorem WorldFrame_refl (w : World) : WorldFrame w w := ⟨rfl, rfl, le_refl _⟩

theorem WorldFrame_trans {a b c : World} (h1 : WorldFrame a b) (h2 : WorldFrame b c) :
    WorldFrame a c :=
  ⟨h2.1.trans h1.1, h2.2.1.trans h1.2.1, le_trans h1.2.2 h2.2.2⟩

theorem WorldFrame_dbCall {α : Type} (q : Store → Except Err α × Store) (w : World) :
    WorldFrame w (dbCall q w).2 := ⟨by simp, by simp, by simp⟩

theorem WorldFrame_uuidNew (w : World) : WorldFrame w (uuidNew w).2 :=
  ⟨rfl, rfl, by simp⟩

theorem WorldFrame_GetOrCreate (taskID a b : UUID) (w : World) :
    WorldFrame w (chatRepository.GetOrCreate taskID a b w).2 := by
  unfold chatRepository.GetOrCreate
  simp only []
  repeat' split
  all_goals exact ⟨by simp, by simp, by simp⟩

theorem WorldFrame_LockEscrow (taskID userID : UUID) (amount : Amount) (w : World) :
    WorldFrame w (escrowService.LockEscrow taskID userID amount w).2 := by
  unfold escrowService.LockEscrow
  simp only []
  repeat' split
  all_goals exact ⟨by simp, by simp, by simp⟩

theorem WorldFrame_ReleaseEscrow (taskID userID : UUID) (amount : Amount) (w : World) :
    WorldFrame w (escrowService.ReleaseEscrow taskID userID amount w).2 := by
  unfold escrowService.ReleaseEscrow
  simp only []
  repeat' split
  all_goals exact ⟨by simp, by simp, by simp⟩

theorem WorldFrame_RefundEscrow (taskID userID : UUID) (amount : Amount) (w : World) :
    WorldFrame w (escrowService.RefundEscrow taskID userID amount w).2 := by
  unfold escrowService.RefundEscrow
  simp only []
  repeat' split
  all_goals exact ⟨by simp, by simp, by simp⟩

theorem WorldFrame_CreateTask (ownerID : UUID) (req : CreateTaskRequest) (w : World) :
    WorldFrame w (taskService.CreateTask ownerID req w).2 := by
  unfold taskService.CreateTask
  simp only []
  repeat' split
  all_goals repeat (first
    | exact WorldFrame_refl _
    | exact WorldFrame_uuidNew _
    | refine WorldFrame_trans ?_ (WorldFrame_dbCall _ _)
    | refine WorldFrame_trans ?_ (WorldFrame_GetOrCreate _ _ _ _)
    | refine WorldFrame_trans ?_ (WorldFrame_ReleaseEscrow _ _ _ _)
    | refine WorldFrame_trans ?_ (WorldFrame_LockEscrow _ _ _ _)
    | refine WorldFrame_trans ?_ (WorldFrame_RefundEscrow _ _ _ _))

theorem WorldFrame_ClaimTask (taskID claimerID : UUID) (w : World) :
    WorldFrame w (claimService.ClaimTask taskID claimerID w).2 := by
  unfold claimService.ClaimTask
  simp only []
  repeat' split
  all_goals exact ⟨by simp, by simp, by simp⟩

theorem WorldFrame_SubmitCompletion (claimID userID : UUID) (text imageURL : String)
    (w : World) :
    WorldFrame w (claimService.SubmitCompletion claimID userID text imageURL w).2 := by
  unfold claimService.SubmitCompletion
  simp only []
  repeat' split
  all_goals repeat (first
    | exact WorldFrame_refl _
    | exact WorldFrame_uuidNew _
    | refine WorldFrame_trans ?_ (WorldFrame_dbCall _ _)
    | refine WorldFrame_trans ?_ (WorldFrame_GetOrCreate _ _ _ _)
    | refine WorldFrame_trans ?_ (WorldFrame_ReleaseEscrow _ _ _ _)
    | refine WorldFrame_trans ?_ (WorldFrame_LockEscrow _ _ _ _)
    | refine WorldFrame_trans ?_ (WorldFrame_RefundEscrow _ _ _ _))

theorem WorldFrame_ApproveClaim (claimID ownerID : UUID) (w : World) :
    WorldFrame w (claimService.ApproveClaim claimID ownerID w).2 := by
  unfold claimService.ApproveClaim
  simp only []
  repeat' split
  all_goals repeat (first
    | exact WorldFrame_refl _
    | exact WorldFrame_uuidNew _
    | refine WorldFrame_trans ?_ (WorldFrame_dbCall _ _)
    | refine WorldFrame_trans ?_ (WorldFrame_GetOrCreate _ _ _ _)
    | refine WorldFrame_trans ?_ (WorldFrame_ReleaseEscrow _ _ _ _)
    | refine WorldFrame_trans ?_ (WorldFrame_LockEscrow _ _ _ _)
    | refine WorldFrame_trans ?_ (WorldFrame_RefundEscrow _ _ _ _))

theorem WorldFrame_RejectClaim (claimID ownerID : UUID) (w : World) :
    WorldFrame w (claimService.RejectClaim claimID ownerID w).2 := by
  unfold claimService.RejectClaim
  simp only []
  repeat' split
  all_goals exact ⟨by simp, by simp, by simp⟩

theorem WorldFrame_autoCancelStep (task : Task) (w : World) :
    WorldFrame w (taskService.autoCancelStep task w) := by
  unfold taskService.autoCancelStep
  simp only []
  repeat' split
  all_goals repeat (first
    | exact WorldFrame_refl _
    | exact WorldFrame_uuidNew _
    | refine WorldFrame_trans ?_ (WorldFrame_dbCall _ _)
    | refine WorldFrame_trans ?_ (WorldFrame_GetOrCreate _ _ _ _)
    | refine WorldFrame_trans ?_ (WorldFrame_ReleaseEscrow _ _ _ _)
    | refine WorldFrame_trans ?_ (WorldFrame_LockEscrow _ _ _ _)
    | refine WorldFrame_trans ?_ (WorldFrame_RefundEscrow _ _ _ _))

theorem WorldFrame_autoCancelLoop (tasks : List Task) (w : World) :
    WorldFrame w (taskService.autoCancelLoop tasks w) := by
  induction tasks generalizing w with
  | nil => exact WorldFrame_refl w
  | cons x rest ih => exact WorldFrame_trans (WorldFrame_autoCancelStep x w) (ih _)

theorem WorldFrame_AutoCancelExpiredTasks (w : World) :
    WorldFrame w (taskService.AutoCancelExpiredTasks w).2 := by
  unfold taskService.AutoCancelExpiredTasks
  simp only []
  split
  · exact WorldFrame_dbCall _ _
  · exact WorldFrame_trans (WorldFrame_dbCall _ _) (WorldFrame_autoCancelLoop _ _)

theorem WorldFrame_run (op : Op) (w : World) : WorldFrame w (op.run w) := by
  cases op with
  | CreateTask ownerID req => exact WorldFrame_CreateTask ownerID req w
  | ClaimTask taskID claimerID => exact WorldFrame_ClaimTask taskID claimerID w
  | SubmitCompletion claimID userID text imageURL =>
    exact WorldFrame_SubmitCompletion claimID userID text imageURL w
  | ApproveClaim claimID ownerID => exact WorldFrame_ApproveClaim claimID ownerID w
  | RejectClaim claimID ownerID => exact WorldFrame_RejectClaim claimID ownerID w
  | LockEscrow taskID userID amount => exact WorldFrame_LockEscrow taskID userID amount w
  | ReleaseEscrow taskID userID amount => exact WorldFrame_ReleaseEscrow taskID userID amount w
  | RefundEscrow taskID userID amount => exact WorldFrame_RefundEscrow taskID userID amount w
  | AutoCancelExpiredTasks => exact WorldFrame_AutoCancelExpiredTasks w

/-! ## Terminal task statuses -/

theorem StatusProgress_refl (a : TaskStatus) : StatusProgress a a :=
  ⟨fun h => h, fun h => h, fun h => h⟩

theorem StatusProgress_trans {a b c : TaskStatus} (h1 : StatusProgress a b)
    (h2 : StatusProgress b c) : StatusProgress a c :=
  ⟨fun h => h2.1 (h1.1 h), fun h => h2.2.1 (h1.2.1 h), fun h => h2.2.2 (h1.2.2 h)⟩

/-- With unique identifiers, two rows of the tasks table with the same identifier are the
same row. -/
theorem eq_of_unique {l : List Task} (hu : l.Pairwise (fun a b => a.ID ≠ b.ID))
    {a b : Task} (ha : a ∈ l) (hb : b ∈ l) (h : a.ID = b.ID) : a = b := by
  have h1 := filter_id_of_unique l hu b hb
  have h2 : a ∈ l.filter (fun x => x.ID == b.ID) := by
    rw [List.mem_filter]
    exact ⟨ha, by simp [h]⟩
  rw [h1] at h2
  simpa using h2

/-- An update of task rows that keeps identifiers and lets every status progress keeps
identifiers unique, keeps every task in the table, and lets the status of every task
progress. -/
theorem progress_of_map {s s2 : Store} (F : Task → Task) (hF : ∀ t, (F t).ID = t.ID)
    (ht : s2.tasks = s.tasks.map F) (hu : TaskIDsUnique s)
    (hp : ∀ t ∈ s.tasks, StatusProgress t.Status (F t).Status) :
    TaskIDsUnique s2
    ∧ (∀ t ∈ s.tasks, ∃ t2 ∈ s2.tasks, t2.ID = t.ID)
    ∧ (∀ t ∈ s.tasks, ∀ t2 ∈ s2.tasks, t2.ID = t.ID →
        StatusProgress t.Status t2.Status) := by
  refine ⟨?_, ?_, ?_⟩
  · apply TaskIDsUnique_of_ids _ hu
    rw [ht, List.map_map]
    apply List.map_congr_left
    intro a _
    simp only [Function.comp, hF]
  · intro t htm
    exact ⟨F t, by rw [ht]; exact List.mem_map_of_mem F htm, hF t⟩
  · intro t htm t2 ht2 hid
    rw [ht, List.mem_map] at ht2
    obtain ⟨t0, ht0, rfl⟩ := ht2
    have : t0 = t := eq_of_unique hu ht0 htm (by rw [← hF t0]; exact hid)
    subst this
    exact hp t0 ht0

/-- The invariants behind C29 are kept by every effect of an operation, every task stays
in the table, and the status of every task progresses. -/
theorem terminal_step {w w2 : World} (he : QuietEffect w w2) (hfr : WorldFrame w w2)
    (hu : TaskIDsUnique w.store) (hcl : ClosedTasksUnclaimed w.store)
    (hfresh : FreshFrom w) :
    (TaskIDsUnique w2.store ∧ ClosedTasksUnclaimed w2.store ∧ FreshFrom w2)
    ∧ (∀ t ∈ w.store.tasks, ∃ t2 ∈ w2.store.tasks, t2.ID = t.ID)
    ∧ (∀ t ∈ w.store.tasks, ∀ t2 ∈ w2.store.tasks, t2.ID = t.ID →
        StatusProgress t.Status t2.Status) := by
  obtain ⟨_, huu, hdd⟩ := hfr
  have hinj : Function.Injective w2.uuids := by rw [huu]; exact hfresh.1
  cases he with
  | flags f hf ht hc =>
    have h := progress_of_map f (fun t => (hf t).1) ht hu
      (fun t _ => by rw [(hf t).2]; exact StatusProgress_refl _)
    refine ⟨⟨h.1, ?_, hinj, ?_⟩, h.2⟩
    · intro t2 ht2 hst c hcm
      rw [ht, List.mem_map] at ht2
      obtain ⟨t0, ht0, rfl⟩ := ht2
      rw [(hf t0).2] at hst
      rw [(hf t0).1]
      exact hcl t0 ht0 hst c (hc ▸ hcm)
    · intro n hn
      have h0 := hfresh.2 n (le_trans hdd hn)
      rw [huu]
      refine ⟨?_, fun c hcm => h0.2 c (hc ▸ hcm)⟩
      intro t2 ht2
      rw [ht, List.mem_map] at ht2
      obtain ⟨t0, ht0, rfl⟩ := ht2
      rw [(hf t0).1]
      exact h0.1 t0 ht0
  | created f hf new hid hst hd ht hc =>
    have h0 := hfresh.2 w.drawn (le_refl _)
    refine ⟨⟨?_, ?_, hinj, ?_⟩, ?_, ?_⟩
    · unfold TaskIDsUnique at hu ⊢
      rw [ht, List.pairwise_append]
      refine ⟨?_, List.pairwise_singleton _ _, ?_⟩
      · rw [List.pairwise_map]
        exact hu.imp (fun {a b} hab => by rw [(hf a).1, (hf b).1]; exact hab)
      · intro a ha b hb
        rw [List.mem_singleton] at hb
        subst hb
        rw [List.mem_map] at ha
        obtain ⟨t0, ht0, rfl⟩ := ha
        rw [(hf t0).1, hid]
        exact h0.1 t0 ht0
    · intro t2 ht2 hst2 c hcm
      rw [hc] at hcm
      rw [ht, List.mem_append, List.mem_map, List.mem_singleton] at ht2
      rcases ht2 with ⟨t0, ht0, rfl⟩ | rfl
      · rw [(hf t0).2] at hst2
        rw [(hf t0).1]
        exact hcl t0 ht0 hst2 c hcm
      · rw [hid]
        exact h0.2 c hcm
    · intro n hn
      have h1 := hfresh.2 n (le_trans (le_of_lt hd) hn)
      rw [huu]
      refine ⟨?_, fun c hcm => h1.2 c (hc ▸ hcm)⟩
      intro t2 ht2
      rw [ht, List.mem_append, List.mem_map, List.mem_singleton] at ht2
      rcases ht2 with ⟨t0, ht0, rfl⟩ | rfl
      · rw [(hf t0).1]
        exact h1.1 t0 ht0
      · rw [hid]
        intro heq
        have := hfresh.1 heq
        omega
    · intro t htm
      exact ⟨f t, by rw [ht]; exact List.mem_append_left _ (List.mem_map_of_mem f htm),
        (hf t).1⟩
    · intro t htm t2 ht2 hid2
      rw [ht, List.mem_append, List.mem_map, List.mem_singleton] at ht2
      rcases ht2 with ⟨t0, ht0, rfl⟩ | rfl
      · have : t0 = t := eq_of_unique hu ht0 htm (by rw [← (hf t0).1]; exact hid2)
        subst this
        rw [(hf t0).2]
        exact StatusProgress_refl _
      · exact absurd (hid2.symm.trans hid) (h0.1 t htm)
  | claimed task c hmem hopen hcid hcst hcount ht hc =>
    have h := progress_of_map
      (fun t => if t.ID = task.ID then { t with Status := TaskStatus.Claimed } else t)
      (fun t => by dsimp only; split <;> rfl) ht hu
      (fun t htm => by
        dsimp only
        split
        · rename_i hid
          have : t = task := eq_of_unique hu htm hmem hid
          subst this
          rw [hopen]
          exact ⟨fun h => (by cases h), fun h => (by cases h), fun h => absurd rfl h⟩
        · exact StatusProgress_refl _)
    refine ⟨⟨h.1, ?_, hinj, ?_⟩, h.2⟩
    · intro t2 ht2 hst2 c2 hcm
      rw [ht, List.mem_map] at ht2
      obtain ⟨t0, ht0, rfl⟩ := ht2
      rw [hc, List.mem_append, List.mem_singleton] at hcm
      by_cases hid : t0.ID = task.ID
      · simp only [hid, if_true] at hst2
        rcases hst2 with h1 | h1 <;> cases h1
      · simp only [hid, if_false] at hst2 ⊢
        rcases hcm with hcm | rfl
        · exact hcl t0 ht0 hst2 c2 hcm
        · rw [hcid]
          exact fun h => hid h.symm
    · intro n hn
      have h0 := hfresh.2 n (le_trans hdd hn)
      rw [huu]
      constructor
      · intro t2 ht2
        rw [ht, List.mem_map] at ht2
        obtain ⟨t0, ht0, rfl⟩ := ht2
        have : (if t0.ID = task.ID then { t0 with Status := TaskStatus.Claimed } else t0).ID
            = t0.ID := by split <;> rfl
        rw [this]
        exact h0.1 t0 ht0
      · intro c2 hcm
        rw [hc, List.mem_append, List.mem_singleton] at hcm
        rcases hcm with hcm | rfl
        · exact h0.2 c2 hcm
        · rw [hcid]
          exact h0.1 task hmem
  | claimedMore task c hmem hopen hcid hcst hcount ht hc =>
    exfalso
    apply hcount
    exact activeClaims_of_fresh _ _ (hcl task hmem (Or.inl hopen))
  | claimsUpdated g hg ht hc =>
    have h := progress_of_map id (fun _ => rfl) (by rw [ht]; simp) hu
      (fun t _ => StatusProgress_refl _)
    refine ⟨⟨h.1, ?_, hinj, ?_⟩, h.2⟩
    · intro t2 ht2 hst2 c2 hcm
      rw [ht] at ht2
      rw [hc, List.mem_map] at hcm
      obtain ⟨c0, hc0, rfl⟩ := hcm
      rw [(hg c0).1]
      exact hcl t2 ht2 hst2 c0 hc0
    · intro n hn
      have h0 := hfresh.2 n (le_trans hdd hn)
      rw [huu]
      refine ⟨fun t2 ht2 => h0.1 t2 (ht ▸ ht2), ?_⟩
      intro c2 hcm
      rw [hc, List.mem_map] at hcm
      obtain ⟨c0, hc0, rfl⟩ := hcm
      rw [(hg c0).1]
      exact h0.2 c0 hc0
  | approved g hg claim hmem ht hc =>
    have hopen : ∀ t ∈ w.store.tasks, t.ID = claim.TaskID →
        t.Status ≠ TaskStatus.Open ∧ t.Status ≠ TaskStatus.Cancelled := by
      intro t htm hid
      constructor
      · intro hst
        exact hcl t htm (Or.inl hst) claim hmem hid.symm
      · intro hst
        exact hcl t htm (Or.inr hst) claim hmem hid.symm
    have h := progress_of_map
      (fun t => if t.ID = claim.TaskID then { t with Status := TaskStatus.Completed } else t)
      (fun t => by dsimp only; split <;> rfl) ht hu
      (fun t htm => by
        dsimp only
        split
        · rename_i hid
          have h2 := hopen t htm hid
          exact ⟨fun _ => rfl, fun h => absurd h h2.2, fun _ h => (by cases h)⟩
        · exact StatusProgress_refl _)
    refine ⟨⟨h.1, ?_, hinj, ?_⟩, h.2⟩
    · intro t2 ht2 hst2 c2 hcm
      rw [ht, List.mem_map] at ht2
      obtain ⟨t0, ht0, rfl⟩ := ht2
      rw [hc, List.mem_map] at hcm
      obtain ⟨c0, hc0, rfl⟩ := hcm
      rw [(hg c0).1]
      by_cases hid : t0.ID = claim.TaskID
      · simp only [hid, if_true] at hst2
        rcases hst2 with h1 | h1 <;> cases h1
      · simp only [hid, if_false] at hst2 ⊢
        exact hcl t0 ht0 hst2 c0 hc0
    · intro n hn
      have h0 := hfresh.2 n (le_trans hdd hn)
      rw [huu]
      constructor
      · intro t2 ht2
        rw [ht, List.mem_map] at ht2
        obtain ⟨t0, ht0, rfl⟩ := ht2
        have : (if t0.ID = claim.TaskID then { t0 with Status := TaskStatus.Completed }
            else t0).ID = t0.ID := by split <;> rfl
        rw [this]
        exact h0.1 t0 ht0
      · intro c2 hcm
        rw [hc, List.mem_map] at hcm
        obtain ⟨c0, hc0, rfl⟩ := hcm
        rw [(hg c0).1]
        exact h0.2 c0 hc0
  | swept cancel hcancel ht hc =>
    have hopen : ∀ t ∈ w.store.tasks, cancel t.ID = true → t.Status = TaskStatus.Open := by
      intro t htm hcan
      obtain ⟨x, hx, hxid, hxst⟩ := hcancel t.ID hcan
      have : x = t := eq_of_unique hu hx htm hxid
      subst this
      exact hxst
    have h := progress_of_map
      (fun t => if cancel t.ID then
        { t with Status := TaskStatus.Cancelled, EscrowLocked := false } else t)
      (fun t => by dsimp only; split <;> rfl) ht hu
      (fun t htm => by
        dsimp only
        split
        · rename_i hcan
          rw [hopen t htm hcan]
          exact ⟨fun h => (by cases h), fun h => (by cases h), fun h => absurd rfl h⟩
        · exact StatusProgress_refl _)
    refine ⟨⟨h.1, ?_, hinj, ?_⟩, h.2⟩
    · intro t2 ht2 hst2 c2 hcm
      rw [ht, List.mem_map] at ht2
      obtain ⟨t0, ht0, rfl⟩ := ht2
      rw [hc] at hcm
      cases hcan : cancel t0.ID
      · simp only [hcan, Bool.false_eq_true, if_false] at hst2 ⊢
        exact hcl t0 ht0 hst2 c2 hcm
      · simp only [hcan, if_true]
        exact hcl t0 ht0 (Or.inl (hopen t0 ht0 hcan)) c2 hcm
    · intro n hn
      have h0 := hfresh.2 n (le_trans hdd hn)
      rw [huu]
      refine ⟨?_, fun c hcm => h0.2 c (hc ▸ hcm)⟩
      intro t2 ht2
      rw [ht, List.mem_map] at ht2
      obtain ⟨t0, ht0, rfl⟩ := ht2
      have : (if cancel t0.ID = true then
          { t0 with Status := TaskStatus.Cancelled, EscrowLocked := false } else t0).ID
          = t0.ID := by split <;> rfl
      rw [this]
      exact h0.1 t0 ht0

/-- Along any sequence of operations in which no round trip fails, the invariants behind
C29 are kept, every task stays in the table, and the status of every task progresses. -/
theorem terminal_run (ops : List Op) (w : World) (hq : ∀ n, w.faults n = false)
    (hu : TaskIDsUnique w.store) (hcl : ClosedTasksUnclaimed w.store)
    (hfresh : FreshFrom w) :
    ((∀ n, (runOps ops w).faults n = false) ∧ TaskIDsUnique (runOps ops w).store
      ∧ ClosedTasksUnclaimed (runOps ops w).store ∧ FreshFrom (runOps ops w))
    ∧ (∀ t ∈ w.store.tasks, ∃ t2 ∈ (runOps ops w).store.tasks, t2.ID = t.ID)
    ∧ (∀ t ∈ w.store.tasks, ∀ t2 ∈ (runOps ops w).store.tasks, t2.ID = t.ID →
        StatusProgress t.Status t2.Status) := by
  induction ops generalizing w with
  | nil =>
    refine ⟨⟨hq, hu, hcl, hfresh⟩, fun t ht => ⟨t, ht, rfl⟩, ?_⟩
    intro t ht t2 ht2 hid
    have : t2 = t := eq_of_unique hu ht2 ht hid
    subst this
    exact StatusProgress_refl _
  | cons op rest ih =>
    have hfr := WorldFrame_run op w
    have hstep := terminal_step
      (Op_quiet_effect op w hq (hfresh.2 w.drawn (le_refl _)).1) hfr hu hcl hfresh
    have hq2 : ∀ n, (op.run w).faults n = false := by
      intro n
      rw [hfr.1]
      exact hq n
    have hrest := ih (op.run w) hq2 hstep.1.1 hstep.1.2.1 hstep.1.2.2
    refine ⟨hrest.1, ?_, ?_⟩
    · intro t ht
      obtain ⟨t1, ht1, hid1⟩ := hstep.2.1 t ht
      obtain ⟨t2, ht2, hid2⟩ := hrest.2.1 t1 ht1
      exact ⟨t2, ht2, hid2.trans hid1⟩
    · intro t ht t2 ht2 hid
      obtain ⟨t1, ht1, hid1⟩ := hstep.2.1 t ht
      exact StatusProgress_trans (hstep.2.2 t ht t1 ht1 hid1)
        (hrest.2.2 t1 ht1 t2 ht2 (hid.trans hid1.symm))

/-- C29: start from a state with unique task identifiers in which every task that is
`Open` or `Cancelled` has no claims and the identifiers still to be drawn are new, and
run any sequence of operations in which no round trip fails.  For every task present at
any point of the run, the task is still present at every later point, and there: if its
status was `Completed` it is `Completed`, if its status was `Cancelled` it is
`Cancelled`, and if its status was not `Open` it is not `Open`. -/
theorem terminal_statuses (ops1 ops2 : List Op) (w : World)
    (hq : ∀ n, w.faults n = false) (hu : TaskIDsUnique w.store)
    (hfresh : FreshFrom w) (hcl : ClosedTasksUnclaimed w.store) :
    ∀ t ∈ (runOps ops1 w).store.tasks,
      (∃ t2 ∈ (runOps ops2 (runOps ops1 w)).store.tasks, t2.ID = t.ID)
      ∧ ∀ t2 ∈ (runOps ops2 (runOps ops1 w)).store.tasks, t2.ID = t.ID →
          (t.Status = TaskStatus.Completed → t2.Status = TaskStatus.Completed)
          ∧ (t.Status = TaskStatus.Cancelled → t2.Status = TaskStatus.Cancelled)
          ∧ (t.Status ≠ TaskStatus.Open → t2.Status ≠ TaskStatus.Open) := by
  have h1 := terminal_run ops1 w hq hu hcl hfresh
  have h2 := terminal_run ops2 (runOps ops1 w) h1.1.1 h1.1.2.1 h1.1.2.2.1 h1.1.2.2.2
  intro t ht
  exact ⟨h2.2.1 t ht, fun t2 ht2 hid => h2.2.2 t ht t2 ht2 hid⟩

/-- In a world made by `World.quiet`, the identifiers to come are new when every
identifier in the tables is below the first one. -/
theorem FreshFrom_quiet (s : Store) (firstID : UUID) (now : Time)
    (ht : ∀ t ∈ s.tasks, t.ID < firstID) (hc : ∀ c ∈ s.claims, c.TaskID < firstID) :
    FreshFrom (World.quiet s firstID now) := by
  refine ⟨fun a b h => by simpa [World.quiet] using h, fun n _ => ⟨?_, ?_⟩⟩
  · intro t htm
    exact Nat.ne_of_lt (Nat.lt_of_lt_of_le (ht t htm) (Nat.le_add_right firstID n))
  · intro c hcm
    exact Nat.ne_of_lt (Nat.lt_of_lt_of_le (hc c hcm) (Nat.le_add_right firstID n))

/-- C29 (witness): Scenario B, where the owner approves the submitted claim, and then the
owner rejects it, a reconciliation pass runs and a second claimer tries to claim the
task. -/
theorem terminal_statuses_witness :
    (∃ t2 ∈ (runOps [Op.RejectClaim 5 10, Op.AutoCancelExpiredTasks, Op.ClaimTask 1 21]
        (runOps [Op.ApproveClaim 5 10] (World.quiet scenarioBStore 100 3))).store.tasks,
        t2.ID = ({ claimedTask with Status := TaskStatus.Completed } : Task).ID)
    ∧ ∀ t2 ∈ (runOps [Op.RejectClaim 5 10, Op.AutoCancelExpiredTasks, Op.ClaimTask 1 21]
        (runOps [Op.ApproveClaim 5 10] (World.quiet scenarioBStore 100 3))).store.tasks,
        t2.ID = ({ claimedTask with Status := TaskStatus.Completed } : Task).ID →
        (({ claimedTask with Status := TaskStatus.Completed } : Task).Status
            = TaskStatus.Completed → t2.Status = TaskStatus.Completed)
        ∧ (({ claimedTask with Status := TaskStatus.Completed } : Task).Status
            = TaskStatus.Cancelled → t2.Status = TaskStatus.Cancelled)
        ∧ (({ claimedTask with Status := TaskStatus.Completed } : Task).Status
            ≠ TaskStatus.Open → t2.Status ≠ TaskStatus.Open) :=
  terminal_statuses [Op.ApproveClaim 5 10]
    [Op.RejectClaim 5 10, Op.AutoCancelExpiredTasks, Op.ClaimTask 1 21]
    (World.quiet scenarioBStore 100 3) (fun _ => rfl) (by unfold TaskIDsUnique; decide)
    (FreshFrom_quiet scenarioBStore 100 3 (by decide) (by decide))
    (by unfold ClosedTasksUnclaimed; decide)
    { claimedTask with Status := TaskStatus.Completed } (by decide)

/-- In that run the task is `Completed` after the approval and still `Completed` at the
end. -/
theorem terminal_scenario :
    (runOps [Op.ApproveClaim 5 10] (World.quiet scenarioBStore 100 3)).store.tasks
      = [{ claimedTask with Status := TaskStatus.Completed }]
    ∧ (runOps [Op.RejectClaim 5 10, Op.AutoCancelExpiredTasks, Op.ClaimTask 1 21]
        (runOps [Op.ApproveClaim 5 10] (World.quiet scenarioBStore 100 3))).store.tasks
      = [{ claimedTask with Status := TaskStatus.Completed }] := by
  decide


end TaskUnder
